import Mathlib

/-!
SwiftPost web client: the synchronisation engine of `frontend/static/js/app.js`.

A shallow embedding of the class `SwiftPostApp`.

* The fields of `this` are the record `SwiftPostApp`.
* Every method is a function from the record to an `Outcome`: the record after the
  call, the side effects the call performed, in program order, and the exception it
  threw, if any.
* An `async` method is cut at its `await`: the part before it (which issues the
  request) keeps the method's name, the continuation that runs when the request
  settles is named `..._resume`.
* The browser (requests in flight, sockets, timers, the clock, `localStorage`) is the
  record `World`; `step` delivers one event to the page.
-/

namespace SwiftPost

/-! ## Data -/

/-- One element of `data.emails` in the answer of `GET /api/emails`
(the fields that `app.js` reads). -/
structure Email where
  id : Nat
  sender_name : String
  sender_email : String
  subject : String
  body_preview : Option String
  is_read : Bool
  is_starred : Bool
  has_attachment : Bool
  time_ago : String
  deriving DecidableEq, Repr

/-- The object `data.pagination`; `total` is `none` when the key is missing. -/
structure Pagination where
  total : Option Int
  deriving DecidableEq, Repr

/-- The JSON body of the answer of `GET /api/emails`; a field is `none` when the key is
missing (or `null`). -/
structure EmailsData where
  emails : Option (List Email)
  pagination : Option Pagination
  deriving DecidableEq, Repr

/-- The JSON body of the answer of the star and delete calls. -/
structure Ack where
  success : Bool
  message : Option String
  deriving DecidableEq, Repr

/-- A `Response` of the Fetch API: its status and what `response.json()` gives
(`none` when that promise rejects or the body is not an object). -/
structure HttpResponse (α : Type) where
  status : Nat
  json : Option α
  deriving DecidableEq, Repr

/-- The getter `response.ok` of the Fetch API: the status is in the range 200-299. -/
def HttpResponse.ok {α : Type} (r : HttpResponse α) : Bool :=
  decide (200 ≤ r.status) && decide (r.status ≤ 299)

/-- How the promise returned by `fetch` settles: it rejects (network error) or it
resolves with a response. -/
inductive FetchOutcome (α : Type) where
  | rejected : FetchOutcome α
  | resolved (r : HttpResponse α) : FetchOutcome α
  deriving DecidableEq, Repr

/-- The `payload` of a frame pushed over the WebSocket (the keys that `app.js` reads). -/
structure Payload where
  subject : Option String
  status : Option String
  deriving DecidableEq, Repr

/-- A parsed frame `{ type, payload }`; `payload` is `none` when the key is missing. -/
structure Message where
  type : String
  payload : Option Payload
  deriving DecidableEq, Repr

/-- The elements of the page the methods look up; a flag is `false` when
`getElementById` gives `null`. `folderNavs` holds the values of the `data-folder`
attributes present in the document. -/
structure Dom where
  emailList : Bool
  pagination : Bool
  unreadBadge : Bool
  userPresence : Bool
  folderNavs : List String
  deriving DecidableEq, Repr

/-- What `renderEmailList` writes into `#emailList`: the single row saying that there is
no mail, or one row per cached email. -/
inductive EmailListHtml where
  | emptyState : EmailListHtml
  | rows (emails : List Email) : EmailListHtml
  deriving DecidableEq, Repr

/-- One `<li class="page-item">` written by `renderPagination`, with the value of its
`data-page` attribute. -/
inductive PageItem where
  | previous (page : Int) : PageItem
  | number (page : Int) (active : Bool) : PageItem
  | next (page : Int) : PageItem
  deriving DecidableEq, Repr

/-- The side effects of the methods, as the browser sees them. -/
inductive Effect where
  /-- The call `fetch` of `loadEmails`: GET /api/emails with folder, page and limit. -/
  | fetchEmails (folder : String) (page : Int) (limit : Nat) : Effect
  /-- The call `fetch` of `toggleStar`: PUT /api/emails/id/star. -/
  | fetchStar (id : Nat) : Effect
  /-- The call `fetch` of `deleteEmail`: DELETE /api/emails/id. -/
  | fetchDelete (id : Nat) : Effect
  /-- The call `fetch` of `logout`: POST /api/logout. -/
  | fetchLogout : Effect
  /-- The call `fetch` of `updateStorageUsage`: GET /api/user/stats. -/
  | fetchStats : Effect
  | showAlert (message : String) (type : String) : Effect
  | showNotification (message : String) (type : String) : Effect
  | playNotificationSound : Effect
  | consoleLog (text : String) : Effect
  | consoleError (text : String) : Effect
  | confirm (text : String) : Effect
  | setEmailList (html : EmailListHtml) : Effect
  | setPagination (html : List PageItem) : Effect
  | setUnreadBadge (textContent : Nat) (display : Bool) : Effect
  | setPresence (textContent : String) (className : String) : Effect
  | setFolderActive (folder : String) : Effect
  | setTitle (title : String) : Effect
  /-- The expression `new WebSocket(wsUrl)`; `sock` numbers the sockets by creation. -/
  | newWebSocket (sock : Nat) : Effect
  /-- The call `websocket.close()` on socket `sock`. -/
  | closeWebSocket (sock : Nat) : Effect
  /-- The call `setTimeout` of `onclose`: its callback calls `connectWebSocket`. -/
  | setTimeoutReconnect (delay : Nat) : Effect
  | removeItem (key : String) : Effect
  | navigate (href : String) : Effect
  deriving DecidableEq, Repr

/-- The fields of `this` (constructor of `SwiftPostApp`). `user_id` is `this.user.id`,
`websocket` is the number of the socket `this.websocket` refers to. -/
structure SwiftPostApp where
  token : Option String
  user_id : Option Nat
  currentFolder : String
  currentPage : Int
  emails : List Email
  totalEmails : Int
  websocket : Option Nat
  deriving DecidableEq, Repr

/-- What a call did: the fields of `this` after it, its side effects in program order,
and the exception it threw (`none` when it returned normally). -/
structure Outcome where
  app : SwiftPostApp
  effects : List Effect
  error : Option String
  deriving DecidableEq, Repr

/-- A call that returned normally. -/
def done (s : SwiftPostApp) (effects : List Effect) : Outcome :=
  { app := s, effects := effects, error := none }

/-- A call that threw after `effects`. -/
def threw (s : SwiftPostApp) (effects : List Effect) (e : String) : Outcome :=
  { app := s, effects := effects, error := some e }

/-- Sequencing of statements: `k` runs on the state left by `o` unless `o` threw. -/
def Outcome.andThen (o : Outcome) (k : SwiftPostApp → Outcome) : Outcome :=
  match o.error with
  | some _ => o
  | none =>
    let o2 := k o.app
    { app := o2.app, effects := o.effects ++ o2.effects, error := o2.error }

/-- Truthiness of `this.token`: neither `null` nor the empty string. -/
def truthyToken (t : Option String) : Bool :=
  match t with
  | none => false
  | some x => x != ""

/-- Truthiness of `this.user.id`: neither missing nor `0`. -/
def truthyId (i : Option Nat) : Bool :=
  match i with
  | none => false
  | some n => n != 0

/-- The expression `data.pagination?.total || 0`. -/
def totalOrZero (p : Option Pagination) : Int :=
  match p with
  | none => 0
  | some q =>
    match q.total with
    | none => 0
    | some t => if t = 0 then 0 else t

/-- The page size sent as `limit` and used by `renderPagination`. -/
def pageSize : Nat := 20

/-! ## Rendering -/

/-- `Math.ceil(total / 20)` on an integer `total`. -/
def totalPages (total : Int) : Int := -((-total) / 20)

/-- Method `renderEmailList`. -/
def renderEmailList (dom : Dom) (s : SwiftPostApp) : Outcome :=
  if !dom.emailList then done s []
  else if s.emails.length = 0 then done s [.setEmailList .emptyState]
  else done s [.setEmailList (.rows s.emails)]

/-- The window `[startPage, endPage]` of page numbers computed by `renderPagination`. -/
def pageWindow (currentPage tp : Int) : Int × Int :=
  let maxVisiblePages : Int := 5
  let startPage := max 1 (currentPage - maxVisiblePages / 2)
  let endPage := min tp (startPage + maxVisiblePages - 1)
  let startPage := if endPage - startPage + 1 < maxVisiblePages
    then max 1 (endPage - maxVisiblePages + 1) else startPage
  (startPage, endPage)

/-- The items `renderPagination` concatenates when there is more than one page. -/
def paginationItems (currentPage tp : Int) : List PageItem :=
  let w := pageWindow currentPage tp
  (if currentPage > 1 then [PageItem.previous (currentPage - 1)] else [])
  ++ (List.range (w.2 - w.1 + 1).toNat).map
      (fun k => PageItem.number (w.1 + (k : Int)) (decide (w.1 + (k : Int) = currentPage)))
  ++ (if currentPage < tp then [PageItem.next (currentPage + 1)] else [])

/-- Method `renderPagination`. -/
def renderPagination (dom : Dom) (s : SwiftPostApp) : Outcome :=
  if !dom.pagination then done s []
  else if totalPages s.totalEmails ≤ 1 then done s [.setPagination []]
  else done s [.setPagination (paginationItems s.currentPage (totalPages s.totalEmails))]

/-- Method `updateUnreadCount`. -/
def updateUnreadCount (dom : Dom) (s : SwiftPostApp) : Outcome :=
  let unreadCount := (s.emails.filter (fun email => !email.is_read)).length
  if dom.unreadBadge then done s [.setUnreadBadge unreadCount (decide (unreadCount > 0))]
  else done s []

/-! ## Methods of `SwiftPostApp` -/

/-- Method `loadEmails`, up to its first `await`: the request carries the folder and
the page that are current at the time of the call. -/
def loadEmails (s : SwiftPostApp) : Outcome :=
  done s [.fetchEmails s.currentFolder s.currentPage pageSize]

/-- Method `logout`, up to the settlement of its request. -/
def logout (s : SwiftPostApp) : Outcome :=
  done s [.fetchLogout]

/-- The callback that `logout` passes to `finally`. -/
def logout_finally (s : SwiftPostApp) : Outcome :=
  done s ([Effect.removeItem "token", Effect.removeItem "user"]
    ++ (match s.websocket with
        | some sock => [Effect.closeWebSocket sock]
        | none => [])
    ++ [Effect.navigate "/login"])

/-- The `catch` block of `loadEmails`. -/
def loadEmails_catch (s : SwiftPostApp) : Outcome :=
  done s [.consoleError "加载邮件错误:", .showAlert "加载邮件失败，请重试" "danger"]

/-- Method `loadEmails`, from the settlement of its request to its end. The
continuation reads nothing of the request it answers. Its two awaits (`fetch` and
`response.json()`) are delivered together: nothing between them reads or writes
`this`. -/
def loadEmails_resume (dom : Dom) (s : SwiftPostApp) (o : FetchOutcome EmailsData) :
    Outcome :=
  match o with
  | .rejected => loadEmails_catch s
  | .resolved response =>
    if !response.ok then
      if response.status = 401 then logout s
      else loadEmails_catch s
    else
      match response.json with
      | none => loadEmails_catch s
      | some data =>
        let s1 := { s with emails := data.emails.getD [] }
        let s2 := { s1 with totalEmails := totalOrZero data.pagination }
        (renderEmailList dom s2).andThen (renderPagination dom)

/-- Method `toggleStar`, up to its first `await`. -/
def toggleStar (s : SwiftPostApp) (emailId : Nat) : Outcome :=
  done s [.fetchStar emailId]

/-- Method `toggleStar`, from the settlement of its request to its end. -/
def toggleStar_resume (s : SwiftPostApp) (o : FetchOutcome Ack) : Outcome :=
  match o with
  | .rejected => done s [.consoleError "标记星标错误:"]
  | .resolved response =>
    match response.json with
    | none => done s [.consoleError "标记星标错误:"]
    | some data => if data.success then loadEmails s else done s []

/-- The expression `data.message || '删除失败'`. -/
def messageOr (m : Option String) (dflt : String) : String :=
  match m with
  | none => dflt
  | some x => if x = "" then dflt else x

/-- Method `deleteEmail`, up to its first `await`; `confirmed` is the answer of the
dialog `confirm`. -/
def deleteEmail (s : SwiftPostApp) (emailId : Nat) (confirmed : Bool) : Outcome :=
  if !confirmed then done s [.confirm "确定要删除这封邮件吗？"]
  else done s [.confirm "确定要删除这封邮件吗？", .fetchDelete emailId]

/-- Method `deleteEmail`, from the settlement of its request to its end. -/
def deleteEmail_resume (s : SwiftPostApp) (o : FetchOutcome Ack) : Outcome :=
  match o with
  | .rejected => done s [.consoleError "删除邮件错误:", .showAlert "删除失败" "danger"]
  | .resolved response =>
    match response.json with
    | none => done s [.consoleError "删除邮件错误:", .showAlert "删除失败" "danger"]
    | some data =>
      if data.success then
        (done s [.showAlert "邮件已删除" "success"]).andThen loadEmails
      else done s [.showAlert (messageOr data.message "删除失败") "danger"]

/-- The object literal `folderNames` of `switchFolder`, followed by `|| folder`. -/
def folderName (folder : String) : String :=
  if folder = "inbox" then "收件箱"
  else if folder = "sent" then "已发送"
  else if folder = "drafts" then "草稿箱"
  else if folder = "starred" then "星标邮件"
  else if folder = "trash" then "回收站"
  else folder

/-- Method `switchFolder`. `querySelector` gives `null` when no element carries the
folder in `data-folder`, and `.classList` then throws. -/
def switchFolder (dom : Dom) (s : SwiftPostApp) (folder : String) : Outcome :=
  let s1 := { s with currentFolder := folder }
  let s2 := { s1 with currentPage := 1 }
  (loadEmails s2).andThen (fun s3 =>
    if dom.folderNavs.contains folder then
      done s3 [.setFolderActive folder, .setTitle (folderName folder ++ " - SwiftPost")]
    else threw s3 [] "TypeError")

/-- Method `goToPage`. -/
def goToPage (s : SwiftPostApp) (page : Int) : Outcome :=
  loadEmails { s with currentPage := page }

/-- Method `connectWebSocket`; `sock` is the number the new socket gets. The handlers
it installs are `onopen`, `onmessage`, `onclose` and `onerror` below. -/
def connectWebSocket (s : SwiftPostApp) (sock : Nat) : Outcome :=
  if !truthyId s.user_id then done s []
  else done { s with websocket := some sock } [.newWebSocket sock]

/-- Handler `websocket.onopen`. -/
def onopen (s : SwiftPostApp) : Outcome :=
  done s [.consoleLog "WebSocket连接已建立", .showNotification "连接已建立" "success"]

/-- The delay, in milliseconds, that `onclose` passes to `setTimeout`. -/
def reconnectDelay : Nat := 5000

/-- Handler `websocket.onclose`. -/
def onclose (s : SwiftPostApp) : Outcome :=
  done s [.consoleLog "WebSocket连接已关闭", .setTimeoutReconnect reconnectDelay]

/-- Handler `websocket.onerror`. -/
def onerror (s : SwiftPostApp) : Outcome :=
  done s [.consoleError "WebSocket错误:"]

/-- The template literal of `handleNewEmail`; a missing subject prints as
`undefined`. -/
def newEmailText (p : Payload) : String :=
  "新邮件: " ++ p.subject.getD "undefined"

/-- Method `handleNewEmail`. Reading `payload.subject` throws when there is no
payload. -/
def handleNewEmail (dom : Dom) (s : SwiftPostApp) (payload : Option Payload) : Outcome :=
  match payload with
  | none => threw s [] "TypeError"
  | some p =>
    (done s [.showNotification (newEmailText p) "info", .playNotificationSound]).andThen
      (fun s1 =>
        (if s1.currentFolder = "inbox" then loadEmails s1 else done s1 []).andThen
          (updateUnreadCount dom))

/-- Method `handlePresence`. Reading `payload.status` throws when there is no payload;
the read happens only when the element exists. -/
def handlePresence (dom : Dom) (s : SwiftPostApp) (payload : Option Payload) : Outcome :=
  if dom.userPresence then
    match payload with
    | none => threw s [] "TypeError"
    | some p =>
      done s [.setPresence (if p.status = some "online" then "在线" else "离线")
        ("badge bg-" ++ (if p.status = some "online" then "success" else "secondary"))]
  else done s []

/-- Method `handleWebSocketMessage`: the `switch` on `message.type`. -/
def handleWebSocketMessage (dom : Dom) (s : SwiftPostApp) (message : Message) : Outcome :=
  if message.type = "new_email" then handleNewEmail dom s message.payload
  else if message.type = "info" then done s [.consoleLog "WebSocket信息:"]
  else if message.type = "presence" then handlePresence dom s message.payload
  else done s [.consoleLog ("未知WebSocket消息类型:" ++ message.type)]

/-- Handler `websocket.onmessage`: `JSON.parse` and the dispatch run inside `try`;
`message` is `none` when the frame does not parse to an object. -/
def onmessage (dom : Dom) (s : SwiftPostApp) (message : Option Message) : Outcome :=
  match message with
  | none => done s [.consoleError "解析WebSocket消息错误:"]
  | some m =>
    let o := handleWebSocketMessage dom s m
    match o.error with
    | none => o
    | some _ => done o.app (o.effects ++ [.consoleError "解析WebSocket消息错误:"])

/-- Method `updateUI` (the user-info elements are left out: they read no field that
changes). -/
def updateUI (dom : Dom) (s : SwiftPostApp) : Outcome :=
  (updateUnreadCount dom s).andThen (fun s1 => done s1 [.fetchStats])

/-- The constructor of `SwiftPostApp` before it calls `init`. -/
def construct (token : Option String) (user_id : Option Nat) : SwiftPostApp :=
  { token := token, user_id := user_id, currentFolder := "inbox", currentPage := 1,
    emails := [], totalEmails := 0, websocket := none }

/-- Method `init`; `sock` is the number the first socket gets. The redirect of
`checkAuth` for a page without a token is recorded as a navigation to `/login` when
`publicPath` is false. -/
def init (dom : Dom) (publicPath : Bool) (s : SwiftPostApp) (sock : Nat) : Outcome :=
  (done s (if !truthyToken s.token && !publicPath then [.navigate "/login"] else [])).andThen
    (fun s1 => (updateUI dom s1).andThen (fun s2 =>
      if truthyToken s2.token && truthyId s2.user_id then
        (loadEmails s2).andThen (fun s3 => connectWebSocket s3 sock)
      else done s2 []))

/-! ## The browser around the page -/

/-- The attribute `readyState` of a WebSocket. -/
inductive ReadyState where
  | CONNECTING : ReadyState
  | OPEN : ReadyState
  | CLOSING : ReadyState
  | CLOSED : ReadyState
  deriving DecidableEq, Repr

/-- A socket made by `new WebSocket`, with the clock value at its creation. -/
structure Socket where
  readyState : ReadyState
  created : Nat
  deriving DecidableEq, Repr

/-- A transport is live until its close event has been delivered. -/
def Socket.live (k : Socket) : Bool :=
  decide (k.readyState ≠ ReadyState.CLOSED)

/-- A request in flight, named by the continuation that waits for it; a list request
keeps the query parameters it was sent with. -/
inductive Pending where
  | emails (folder : String) (page : Int) : Pending
  | star (id : Nat) : Pending
  | delete (id : Nat) : Pending
  | logout : Pending
  | stats : Pending
  deriving DecidableEq, Repr

/-- The page and its surroundings: the document, the object `window.swiftpost`, the
requests in flight, the sockets in creation order, the due times of the pending
reconnect timers, the clock in milliseconds, the keys held by `localStorage`, the
address assigned to `window.location.href`, and every effect so far. -/
structure World where
  dom : Dom
  app : SwiftPostApp
  pending : List Pending
  sockets : List Socket
  timers : List Nat
  now : Nat
  storage : List String
  location : Option String
  log : List Effect
  deriving DecidableEq, Repr

/-- What `websocket.close()` does to the ready state: a socket that is connecting or
open starts closing; the close event follows later. -/
def closing (r : ReadyState) : ReadyState :=
  match r with
  | .CONNECTING => .CLOSING
  | .OPEN => .CLOSING
  | .CLOSING => .CLOSING
  | .CLOSED => .CLOSED

/-- The list of sockets with `f` applied to the ready state of socket `sock`. -/
def updateSocket (f : ReadyState → ReadyState) (l : List Socket) (sock : Nat) : List Socket :=
  match l, sock with
  | [], _ => []
  | k :: rest, 0 => { k with readyState := f k.readyState } :: rest
  | k :: rest, n + 1 => k :: updateSocket f rest n

/-- The browser's side of one effect. -/
def absorb (w : World) (e : Effect) : World :=
  let w := { w with log := w.log ++ [e] }
  match e with
  | .fetchEmails folder page _ => { w with pending := w.pending ++ [.emails folder page] }
  | .fetchStar id => { w with pending := w.pending ++ [.star id] }
  | .fetchDelete id => { w with pending := w.pending ++ [.delete id] }
  | .fetchLogout => { w with pending := w.pending ++ [.logout] }
  | .fetchStats => { w with pending := w.pending ++ [.stats] }
  | .newWebSocket _ =>
    { w with sockets := w.sockets ++ [{ readyState := .CONNECTING, created := w.now }] }
  | .closeWebSocket sock =>
    { w with sockets := updateSocket closing w.sockets sock }
  | .setTimeoutReconnect delay => { w with timers := w.timers ++ [w.now + delay] }
  | .removeItem key => { w with storage := w.storage.filter (fun x => x != key) }
  | .navigate href => { w with location := some href }
  | _ => w

/-- The world after a call: the fields of `this` it left and its effects, in order. -/
def run (w : World) (o : Outcome) : World :=
  o.effects.foldl absorb { w with app := o.app }

/-- What the server or the network answers to a request in flight. -/
inductive Reply where
  | emails (o : FetchOutcome EmailsData) : Reply
  | ack (o : FetchOutcome Ack) : Reply
  | other : Reply
  deriving DecidableEq, Repr

/-- One thing that happens to the page. -/
inductive Event where
  /-- A click on a folder link: `switchFolder(folder)`. -/
  | switchFolder (folder : String) : Event
  /-- A click on a page link: `goToPage(page)`. -/
  | goToPage (page : Int) : Event
  /-- A click on the refresh button: `loadEmails()`. -/
  | refresh : Event
  | toggleStar (emailId : Nat) : Event
  /-- The call `deleteEmail(emailId)` with the answer given to its dialog. -/
  | deleteEmail (emailId : Nat) (confirmed : Bool) : Event
  | logout : Event
  /-- A direct call of `connectWebSocket()`. -/
  | connect : Event
  /-- The request at position `i` of the requests in flight settles with `r`. -/
  | settle (i : Nat) (r : Reply) : Event
  | wsOpen (sock : Nat) : Event
  | wsMessage (sock : Nat) (message : Option Message) : Event
  | wsError (sock : Nat) : Event
  | wsClose (sock : Nat) : Event
  /-- The clock advances by `ms` milliseconds. -/
  | advance (ms : Nat) : Event
  /-- The reconnect timer at position `j` fires. -/
  | timerFires (j : Nat) : Event
  deriving DecidableEq, Repr

/-- The continuation of the request `p` run on the reply `r`; `none` when the reply is
not of the kind the request expects. -/
def resume (w : World) (p : Pending) (r : Reply) : Option Outcome :=
  match p, r with
  | .emails _ _, .emails o => some (loadEmails_resume w.dom w.app o)
  | .star _, .ack o => some (toggleStar_resume w.app o)
  | .delete _, .ack o => some (deleteEmail_resume w.app o)
  | .logout, _ => some (logout_finally w.app)
  | .stats, _ => some (done w.app [])
  | _, _ => none

/-- The socket `sock` with its ready state replaced. -/
def setReady (w : World) (sock : Nat) (r : ReadyState) : World :=
  { w with sockets := updateSocket (fun _ => r) w.sockets sock }

/-- One event delivered to the page; `none` when the event cannot happen in `w` (no such
request, socket or timer, a socket in the wrong state, a timer that is not due). -/
def step (w : World) (e : Event) : Option World :=
  match e with
  | .switchFolder folder => some (run w (switchFolder w.dom w.app folder))
  | .goToPage page => some (run w (goToPage w.app page))
  | .refresh => some (run w (loadEmails w.app))
  | .toggleStar emailId => some (run w (toggleStar w.app emailId))
  | .deleteEmail emailId confirmed => some (run w (deleteEmail w.app emailId confirmed))
  | .logout => some (run w (logout w.app))
  | .connect => some (run w (connectWebSocket w.app w.sockets.length))
  | .settle i r =>
    match w.pending[i]? with
    | none => none
    | some p =>
      match resume w p r with
      | none => none
      | some o => some (run { w with pending := w.pending.eraseIdx i } o)
  | .wsOpen sock =>
    match w.sockets[sock]? with
    | some k =>
      if k.readyState = .CONNECTING then some (run (setReady w sock .OPEN) (onopen w.app))
      else none
    | none => none
  | .wsMessage sock message =>
    match w.sockets[sock]? with
    | some k =>
      if k.readyState = .OPEN ∨ k.readyState = .CLOSING then
        some (run w (onmessage w.dom w.app message))
      else none
    | none => none
  | .wsError sock =>
    match w.sockets[sock]? with
    | some k => if k.live then some (run w (onerror w.app)) else none
    | none => none
  | .wsClose sock =>
    match w.sockets[sock]? with
    | some k =>
      if k.live then some (run (setReady w sock .CLOSED) (onclose w.app)) else none
    | none => none
  | .advance ms => some { w with now := w.now + ms }
  | .timerFires j =>
    match w.timers[j]? with
    | some due =>
      if due ≤ w.now then
        some (run { w with timers := w.timers.eraseIdx j }
          (connectWebSocket w.app w.sockets.length))
      else none
    | none => none

/-- A run of events, from left to right; `none` as soon as one cannot happen. -/
def steps (w : World) (es : List Event) : Option World :=
  match es with
  | [] => some w
  | e :: rest =>
    match step w e with
    | none => none
    | some w1 => steps w1 rest

/-- The world when the script has loaded: `new SwiftPostApp()` has run, on a page
that `checkAuth` does not redirect, with the token and the user id that
`localStorage` held. -/
def boot (dom : Dom) (token : Option String) (user_id : Option Nat) : World :=
  run { dom := dom, app := construct token user_id, pending := [], sockets := [],
        timers := [], now := 0,
        storage := (if token.isSome then ["token"] else [])
          ++ (if user_id.isSome then ["user"] else []),
        location := none, log := [] }
    (init dom true (construct token user_id) 0)

/-- The number of live transports. -/
def liveCount (w : World) : Nat := (w.sockets.filter Socket.live).length

/-- What one effect adds to the transports and reconnect timers of the page: 1 for
`new WebSocket` and for the `setTimeout` of `onclose`, 0 otherwise. -/
def Effect.opens (e : Effect) : Nat :=
  match e with
  | .newWebSocket _ => 1
  | .setTimeoutReconnect _ => 1
  | _ => 0

/-- The effects of one call, counted by `Effect.opens`. -/
def Outcome.opens (o : Outcome) : Nat := (o.effects.map Effect.opens).sum

/-- Live transports plus pending reconnect timers. -/
def links (w : World) : Nat := liveCount w + w.timers.length

/-- The page holds a live transport in `this.websocket` and has a user id. -/
def Connected (w : World) : Prop :=
  truthyId w.app.user_id = true
    ∧ ∃ sock k, w.app.websocket = some sock ∧ w.sockets[sock]? = some k ∧ k.live = true

/-- One transport failure and the reconnect it causes: the close event of the current
socket, the delay given to `setTimeout`, then the timer set by that close firing. -/
def failure (w : World) : Option World :=
  match w.app.websocket with
  | none => none
  | some sock =>
    steps w [.wsClose sock, .advance reconnectDelay, .timerFires w.timers.length]

/-- `n` consecutive transport failures, each followed by its reconnect. -/
def failures (n : Nat) (w : World) : Option World :=
  match n with
  | 0 => some w
  | m + 1 =>
    match failure w with
    | none => none
    | some w1 => failures m w1

/-! ## Compose form -/

/-- The object `data.email` in the answer of `GET /api/emails/id`, which
`showEmailModal` hands to `replyToEmail` and `forwardEmail`. -/
structure EmailDetail where
  id : Nat
  sender_name : String
  sender_email : String
  recipient_name : String
  recipient_email : String
  subject : String
  body : String
  created_at : String
  deriving DecidableEq, Repr

/-- The argument of `showComposeModal` (the properties it reads); a field is `none`
when the object has no such property. -/
structure ComposeSource where
  sender_name : Option String
  sender_email : Option String
  subject : Option String
  body : Option String
  created_at : Option String
  deriving DecidableEq, Repr

/-- A full message seen as the argument of `showComposeModal`. -/
def EmailDetail.toSource (m : EmailDetail) : ComposeSource :=
  { sender_name := some m.sender_name, sender_email := some m.sender_email,
    subject := some m.subject, body := some m.body, created_at := some m.created_at }

/-- The line feed. -/
def lineFeed : Char := Char.ofNat 10

/-- The double quote. -/
def doubleQuote : Char := Char.ofNat 34

/-- The carriage return. -/
def carriageReturn : Char := Char.ofNat 13

/-- Newlines normalized, the flag `afterReturn` saying that the character before `cs` was
a carriage return: a carriage return becomes a line feed, and a line feed that comes
right after a carriage return is dropped. -/
def normalizeFrom (afterReturn : Bool) (cs : List Char) : List Char :=
  match cs with
  | [] => []
  | c :: rest =>
    if c = carriageReturn then lineFeed :: normalizeFrom true rest
    else if c = lineFeed then
      if afterReturn then normalizeFrom false rest else lineFeed :: normalizeFrom false rest
    else c :: normalizeFrom false rest

/-- The flag for what comes after `a`: whether `a` ends with a carriage return (or is
empty and comes after one). -/
def endsWithReturn (afterReturn : Bool) (a : List Char) : Bool :=
  match a.getLast? with
  | some c => decide (c = carriageReturn)
  | none => afterReturn

/-- Newlines normalized, as the HTML standard does it to the input of the parser and to
the value that a `textarea` gives back: every carriage return followed by a line feed
becomes one line feed, then every other carriage return becomes a line feed. -/
def normalizeNewlines (cs : List Char) : List Char := normalizeFrom false cs

/-- Newlines stripped: line feeds and carriage returns are removed. -/
def stripNewlines (cs : List Char) : List Char :=
  cs.filter (fun c => c != lineFeed && c != carriageReturn)

/-- ASCII whitespace: tab, line feed, form feed, carriage return and space. -/
def isAsciiWhitespace (c : Char) : Bool :=
  c == Char.ofNat 9 || c == lineFeed || c == Char.ofNat 12 || c == carriageReturn || c == ' '

/-- Leading and trailing ASCII whitespace stripped. -/
def stripAsciiWhitespace (cs : List Char) : List Char :=
  ((cs.dropWhile isAsciiWhitespace).reverse.dropWhile isAsciiWhitespace).reverse

/-- The text split strictly on commas. -/
def splitCommas (cs : List Char) : List (List Char) :=
  match cs with
  | [] => [[]]
  | c :: rest =>
    if c = ',' then [] :: splitCommas rest
    else
      match splitCommas rest with
      | [] => [[c]]
      | l :: ls => (c :: l) :: ls

/-- Tokens joined by single commas. -/
def joinCommas (ls : List (List Char)) : List Char :=
  match ls with
  | [] => []
  | [l] => l
  | l :: rest => l ++ ',' :: joinCommas rest

/-- The value that an `input` of type `text` holds when its attribute `value` is
`written`: the value sanitization of that type strips newlines. -/
def textValue (written : String) : String := String.mk (stripNewlines written.data)

/-- The value that an `input` of type `email` with the attribute `multiple` holds when
its attribute `value` is `written`: the value sanitization splits on commas, strips
leading and trailing ASCII whitespace from every token and joins the tokens by single
commas. -/
def emailListValue (written : String) : String :=
  String.mk (joinCommas ((splitCommas written.data).map stripAsciiWhitespace))

/-- The value that a `textarea` gives back after `assigned` was assigned to its `value`:
the text with newlines normalized. -/
def textareaValue (assigned : String) : String := String.mk (normalizeNewlines assigned.data)

/-- What the getter `innerHTML` writes for the characters of a text node: the
ampersand, the no-break space and the two angle brackets become references; every
other character, the double quote included, is written as it is. -/
def escapeChars (cs : List Char) : List Char :=
  match cs with
  | [] => []
  | c :: rest =>
    if c = '&' then "&amp;".data ++ escapeChars rest
    else if c = Char.ofNat 160 then "&nbsp;".data ++ escapeChars rest
    else if c = '<' then "&lt;".data ++ escapeChars rest
    else if c = '>' then "&gt;".data ++ escapeChars rest
    else c :: escapeChars rest

/-- Method `escapeHtml`: the setter `textContent` (which takes `undefined` as the empty
text) followed by the getter `innerHTML`. -/
def escapeHtml (text : Option String) : String :=
  String.mk (escapeChars (text.getD "").data)

/-- A value interpolated in a template literal: `undefined` prints as that word. -/
def interpolate (v : Option String) : String := v.getD "undefined"

/-- The character reference at the head of `cs`, if there is one: the character it
stands for and the text after it. The references are those that `escapeChars` can
write, and the one for the double quote. -/
def headRef (cs : List Char) : Option (Char × List Char) :=
  if "&amp;".data.isPrefixOf cs then some ('&', cs.drop 5)
  else if "&nbsp;".data.isPrefixOf cs then some (Char.ofNat 160, cs.drop 6)
  else if "&lt;".data.isPrefixOf cs then some ('<', cs.drop 4)
  else if "&gt;".data.isPrefixOf cs then some ('>', cs.drop 4)
  else if "&quot;".data.isPrefixOf cs then some (doubleQuote, cs.drop 6)
  else none

/-- The text with its character references replaced, reading at most `fuel`
characters or references. -/
def decodeFuel (fuel : Nat) (cs : List Char) : List Char :=
  match fuel with
  | 0 => []
  | n + 1 =>
    match headRef cs with
    | some (c, rest) => c :: decodeFuel n rest
    | none =>
      match cs with
      | [] => []
      | c :: rest => c :: decodeFuel n rest

/-- The replacement of character references that the HTML parser does in an attribute
value. Every step reads at least one character, so the length of the text is fuel
enough. -/
def decodeRefs (cs : List Char) : List Char := decodeFuel cs.length cs

/-- The character that the tokenizer appends to an attribute value for `c`: the
replacement character for the null character, `c` itself otherwise. -/
def replaceNull (c : Char) : Char := if c = Char.ofNat 0 then Char.ofNat 65533 else c

/-- The value the HTML parser gives to an attribute whose markup is a double quote,
`written`, and a double quote: newlines are normalized in the input, the value ends at
the first double quote of `written`, character references in it are replaced, and a null
character is taken as the replacement character. -/
def attributeValue (written : String) : String :=
  String.mk ((decodeRefs
    ((normalizeNewlines written.data).takeWhile (fun c => c != doubleQuote))).map replaceNull)

/-- The expression `text.replace(/\n/g, '\n> ')`, on the characters of `text`. -/
def quoteLines (cs : List Char) : List Char :=
  match cs with
  | [] => []
  | c :: rest =>
    if c = lineFeed then lineFeed :: '>' :: ' ' :: quoteLines rest
    else c :: quoteLines rest

/-- The rule of dashes in the templates of `showComposeModal` and `forwardEmail`. -/
def dashes : String := "----------------------------------------"

/-- The template literal `quotedText` of `showComposeModal`; `toLocaleString` stands for
`new Date(created_at).toLocaleString()`, which depends on the locale. -/
def quotedText (toLocaleString : Option String → String) (email : ComposeSource)
    (body : String) : String :=
  "\n\n" ++ dashes ++ "\n在 " ++ toLocaleString email.created_at ++ "，"
    ++ interpolate email.sender_name ++ " 写道：\n\n> " ++ String.mk (quoteLines body.data)
    ++ "\n"

/-- The compose form after `showComposeModal`: the title of the dialog, the values that
the fields `#recipient`, `#subject` and `#emailBody` hold, the markup of the notice
written under the form, and the exception thrown, if any. -/
structure ComposeForm where
  title : String
  recipient : String
  subject : String
  body : String
  notice : Option String
  error : Option String
  deriving DecidableEq, Repr

/-- Method `showComposeModal`; `email` is `none` for the default `null`. The fields
`#recipient` (type `email`, `multiple`) and `#subject` (type `text`) take their values
from the attribute `value` of the markup, `#emailBody` (a `textarea`) from the assignment
of `quotedText`. Calling `replace` on a missing body throws, after the dialog is
shown. -/
def showComposeModal (toLocaleString : Option String → String)
    (email : Option ComposeSource) : ComposeForm :=
  match email with
  | none =>
    { title := "撰写新邮件", recipient := emailListValue (attributeValue ""),
      subject := textValue (attributeValue ""), body := "", notice := none, error := none }
  | some e =>
    let recipient := emailListValue (attributeValue (escapeHtml e.sender_email))
    let subject := textValue (attributeValue ("Re: " ++ escapeHtml e.subject))
    let notice := some ("正在回复来自 " ++ escapeHtml e.sender_name ++ " 的邮件")
    match e.body with
    | none =>
      { title := "回复邮件", recipient := recipient, subject := subject, body := "",
        notice := notice, error := some "TypeError" }
    | some b =>
      { title := "回复邮件", recipient := recipient, subject := subject,
        body := textareaValue (quotedText toLocaleString e b), notice := notice,
        error := none }

/-- Method `replyToEmail`; an omitted argument takes the default `null` of
`showComposeModal`. -/
def replyToEmail (toLocaleString : Option String → String) (email : Option EmailDetail) :
    ComposeForm :=
  showComposeModal toLocaleString (email.map EmailDetail.toSource)

/-- The template literal `forwardedBody` of `forwardEmail`. -/
def forwardedBody (toLocaleString : Option String → String) (email : EmailDetail) : String :=
  "\n\n" ++ dashes ++ "\n转发邮件:\n发件人: " ++ email.sender_name ++ " <" ++ email.sender_email
    ++ ">\n日期: " ++ toLocaleString (some email.created_at)
    ++ "\n收件人: " ++ email.recipient_name ++ " <" ++ email.recipient_email
    ++ ">\n主题: " ++ email.subject ++ "\n\n" ++ email.body ++ "\n"

/-- Method `forwardEmail`: it hands an object with only `subject` and `body` to
`showComposeModal`. -/
def forwardEmail (toLocaleString : Option String → String) (email : EmailDetail) :
    ComposeForm :=
  showComposeModal toLocaleString (some
    { sender_name := none, sender_email := none, subject := some ("Fw: " ++ email.subject),
      body := some (forwardedBody toLocaleString email), created_at := none })

/-- The lines of a text: `text.split('\n')` on characters. -/
def splitLines (cs : List Char) : List (List Char) :=
  match cs with
  | [] => [[]]
  | c :: rest =>
    if c = lineFeed then [] :: splitLines rest
    else
      match splitLines rest with
      | [] => [[c]]
      | l :: ls => (c :: l) :: ls

/-- Lines joined by line feeds: `lines.join('\n')` on characters. -/
def joinLines (ls : List (List Char)) : List Char :=
  match ls with
  | [] => []
  | [l] => l
  | l :: rest => l ++ lineFeed :: joinLines rest

/-- The page numbers among the items of a pager. -/
def pageNumbers (items : List PageItem) : List Int :=
  items.filterMap (fun item =>
    match item with
    | .number page _ => some page
    | _ => none)

/-- The answer of a star or delete call says that the call succeeded: the promise
resolved, the body parsed, and `data.success` is true. -/
def succeeded (o : FetchOutcome Ack) : Bool :=
  match o with
  | .rejected => false
  | .resolved r =>
    match r.json with
    | none => false
    | some data => data.success

/-- The list answer that the event `e` applies when it is delivered in `w`: `e` settles
a request in flight that is a list request, with a response whose `ok` is true and whose
body parsed; the list is its `data.emails || []`. A reply that settles no list request,
a rejected promise, a status outside 200-299 and a body that does not parse apply
nothing, and neither does any other event. -/
def applied (w : World) (e : Event) : Option (List Email) :=
  match e with
  | .settle i (.emails (.resolved r)) =>
    match w.pending[i]? with
    | some (.emails _ _) =>
      if r.ok then
        match r.json with
        | some data => some (data.emails.getD [])
        | none => none
      else none
    | _ => none
  | _ => none

/-- The lists of the answers applied along the run `es` from `w`, in the order of their
application; the run is followed as far as its events can happen. -/
def appliedLists (w : World) (es : List Event) : List (List Email) :=
  match es with
  | [] => []
  | e :: rest =>
    match step w e with
    | none => []
    | some w1 => (applied w e).toList ++ appliedLists w1 rest

/-! ## Click handlers and what the page displays -/

/-- The click handler of `#deleteEmailBtn` in `showEmailModal`: it asks for
confirmation and then calls `deleteEmail`, which asks again; `first` and `second` are
the answers to the two dialogs. -/
def deleteEmailBtn_onclick (s : SwiftPostApp) (emailId : Nat) (first second : Bool) :
    Outcome :=
  if first then
    (done s [.confirm "确定要删除这封邮件吗？"]).andThen (fun s1 => deleteEmail s1 emailId second)
  else done s [.confirm "确定要删除这封邮件吗？"]

/-- The click handler of the page links in `bindEvents`; `page` is
`parseInt(e.target.dataset.page)`, `none` for `NaN`. The guard `if (page)` also
rejects 0. -/
def pageLink_onclick (s : SwiftPostApp) (page : Option Int) : Outcome :=
  match page with
  | none => done s []
  | some p => if p = 0 then done s [] else goToPage s p

/-- The value of the attribute `data-page` of a pager item. -/
def PageItem.target (item : PageItem) : Int :=
  match item with
  | .previous page => page
  | .number page _ => page
  | .next page => page

/-- The pager on display after the effects `log`: the last value written into
`#pagination`, the empty pager before the first write. -/
def pagerOf (log : List Effect) : List PageItem :=
  log.foldl (fun shown e =>
    match e with
    | .setPagination html => html
    | _ => shown) []

/-- The unread badge on display after the effects `log`: the last count and visibility
written, `none` before the first write. -/
def badgeOf (log : List Effect) : Option (Nat × Bool) :=
  log.foldl (fun shown e =>
    match e with
    | .setUnreadBadge textContent display => some (textContent, display)
    | _ => shown) none

/-- The number of cached entries whose `is_read` is false. -/
def unreadCount (s : SwiftPostApp) : Nat :=
  (s.emails.filter (fun email => !email.is_read)).length

/-- What a user who only follows page links sees happen: a click on a link of the
pager on display, or the answer to a list request. -/
inductive Nav where
  | click (page : Int) : Nav
  | answer (i : Nat) (o : FetchOutcome EmailsData) : Nav
  deriving DecidableEq, Repr

/-- One step of link-following navigation; a click is possible only on a page that the
pager on display links to. -/
def followStep (w : World) (n : Nav) : Option World :=
  match n with
  | .click page =>
    if page ∈ (pagerOf w.log).map PageItem.target then
      some (run w (pageLink_onclick w.app (some page)))
    else none
  | .answer i o => step w (.settle i (.emails o))

/-- A run of link-following navigation. -/
def follow (w : World) (ns : List Nav) : Option World :=
  match ns with
  | [] => some w
  | n :: rest =>
    match followStep w n with
    | none => none
    | some w1 => follow w1 rest

/-- The page is at least 1 and so is every target of the pager on display. -/
def LinksFromOne (w : World) : Prop :=
  1 ≤ w.app.currentPage ∧ ∀ item ∈ pagerOf w.log, 1 ≤ item.target

/-- The ids of the DELETE requests among the effects `log`, in order. -/
def deleteIds (log : List Effect) : List Nat :=
  log.filterMap (fun e =>
    match e with
    | .fetchDelete id => some id
    | _ => none)

/-- The id an event asks to delete with the confirmation accepted, if it is such an
event. -/
def Event.confirmedDelete (e : Event) : Option Nat :=
  match e with
  | .deleteEmail emailId true => some emailId
  | _ => none

/-! ## Admin console (`frontend/static/js/admin.js`) -/

/-- One element of `data.emails` in the answer of `GET /api/admin/emails` (the fields
that `AdminPanel.loadEmails` reads). -/
structure AdminEmail where
  id : Nat
  sender_name : String
  sender_email : String
  recipient_name : String
  recipient_email : String
  subject : String
  is_read : Bool
  is_starred : Bool
  is_deleted : Bool
  has_attachment : Bool
  time_ago : String
  deriving DecidableEq, Repr

/-- The object `status` of a table row. -/
structure RowStatus where
  is_read : Bool
  is_starred : Bool
  is_deleted : Bool
  has_attachment : Bool
  deriving DecidableEq, Repr

/-- A row of the emails table, as `AdminPanel.loadEmails` builds it. -/
structure AdminRow where
  id : Nat
  sender : String × String
  recipient : String × String
  subject : String
  status : RowStatus
  time : String
  deriving DecidableEq, Repr

/-- The arrow function that `AdminPanel.loadEmails` maps over `data.emails`. -/
def AdminPanel.toRow (email : AdminEmail) : AdminRow :=
  { id := email.id,
    sender := (email.sender_name, email.sender_email),
    recipient := (email.recipient_name, email.recipient_email),
    subject := email.subject,
    status := { is_read := email.is_read, is_starred := email.is_starred,
                is_deleted := email.is_deleted, has_attachment := email.has_attachment },
    time := email.time_ago }

/-- The rows that `AdminPanel.loadEmails` adds to the table. -/
def AdminPanel.loadEmails_rows (emails : List AdminEmail) : List AdminRow :=
  emails.map AdminPanel.toRow

/-- A value that a variable of the render function can hold: a string, or a status
object. -/
inductive JsValue where
  | string (s : String) : JsValue
  | status (o : RowStatus) : JsValue
  deriving DecidableEq, Repr

/-- Truthiness of `v.is_deleted` and the like: the flag of a status object; `undefined`,
hence false, when `v` is a string, which has no such property. -/
def JsValue.flag (v : JsValue) (pick : RowStatus → Bool) : Bool :=
  match v with
  | .string _ => false
  | .status o => pick o

/-- A badge of the column `status`. -/
inductive StatusBadge where
  | read : StatusBadge
  | starred : StatusBadge
  | deleted : StatusBadge
  | attachment : StatusBadge
  deriving DecidableEq, Repr

/-- The `render` function of the column `status` in `setupDataTables`: the badges it
pushes, in order. Its parameter is `data`; the last two tests read `status`, and the
function has no variable of that name, so they read the global `window.status`, which
is a string. -/
def AdminPanel.statusRender (window_status : String) (data : RowStatus) : List StatusBadge :=
  (if (JsValue.status data).flag RowStatus.is_read then [StatusBadge.read] else [])
  ++ (if (JsValue.status data).flag RowStatus.is_starred then [StatusBadge.starred] else [])
  ++ (if (JsValue.string window_status).flag RowStatus.is_deleted
      then [StatusBadge.deleted] else [])
  ++ (if (JsValue.string window_status).flag RowStatus.has_attachment
      then [StatusBadge.attachment] else [])

/-! ## Example data used by the concrete checks -/

/-- A document that has every element the methods look up. -/
def fullDom : Dom :=
  { emailList := true, pagination := true, unreadBadge := true, userPresence := true,
    folderNavs := ["inbox", "sent", "drafts", "starred", "trash"] }

/-- An unread email with the given id and star flag. -/
def sampleEmail (id : Nat) (starred : Bool) : Email :=
  { id := id, sender_name := "Ann", sender_email := "ann@example.org", subject := "Hello",
    body_preview := none, is_read := false, is_starred := starred, has_attachment := false,
    time_ago := "1h" }

/-- A successful answer of `GET /api/emails` carrying `l` and the total `t`. -/
def okEmails (l : List Email) (t : Int) : HttpResponse EmailsData :=
  { status := 200, json := some { emails := some l, pagination := some { total := some t } } }

/-- An answer with the given status and no usable body. -/
def statusOnly (status : Nat) : HttpResponse EmailsData :=
  { status := status, json := none }

/-- A successful answer of a star or delete call. -/
def okAck : HttpResponse Ack :=
  { status := 200, json := some { success := true, message := none } }

/-- The page of a logged-in user right after the script has loaded. -/
def loggedIn : World := boot fullDom (some "secret") (some 1)

/-- The page of a logged-in user whose `logout` request is in flight. -/
def loggingOut : World := run loggedIn (logout loggedIn.app)

/-- A failure answer of a star or delete call. -/
def failedAck : HttpResponse Ack :=
  { status := 404, json := some { success := false, message := some "邮件不存在" } }

/-- A stand-in for `toLocaleString`: a valid date prints as it was sent, a missing one
as `Invalid Date`. -/
def sampleLocale (created_at : Option String) : String := created_at.getD "Invalid Date"

/-- A message with a plain subject and a body of two lines. -/
def plainMessage : EmailDetail :=
  { id := 7, sender_name := "Ann", sender_email := "ann@example.org", recipient_name := "Bob",
    recipient_email := "bob@example.org", subject := "Hello", body := "line one\nline two",
    created_at := "2024-05-01" }

/-- The subject `He said "hi"`. -/
def quotedSubject : String :=
  "He said " ++ String.singleton doubleQuote ++ "hi" ++ String.singleton doubleQuote

/-- A message whose subject contains double quotes. -/
def quotingMessage : EmailDetail := { plainMessage with subject := quotedSubject }

/-- A message whose body has two lines separated by a carriage return and a line
feed. -/
def crlfMessage : EmailDetail := { plainMessage with body := "a\r\nb" }

/-- A message whose body has a carriage return alone between `a` and `b`. -/
def returnMessage : EmailDetail := { plainMessage with body := "a\rb" }

/-- A row status with every flag set. -/
def allFlags : RowStatus :=
  { is_read := true, is_starred := true, is_deleted := true, has_attachment := true }

/-- An email of the admin list that is deleted and has an attachment. -/
def deletedEmail : AdminEmail :=
  { id := 3, sender_name := "Ann", sender_email := "ann@example.org", recipient_name := "Bob",
    recipient_email := "bob@example.org", subject := "Hello", is_read := false,
    is_starred := false, is_deleted := true, has_attachment := true, time_ago := "1h" }

/-- The fields of `this` with one unstarred email, id 7, in the cache. -/
def cachedSeven : SwiftPostApp :=
  { construct (some "secret") (some 1) with emails := [sampleEmail 7 false], totalEmails := 1 }

/-! ## General facts about `run` -/

/-- The request that an effect puts in flight, if it is a call of `fetch`. -/
def Effect.request (e : Effect) : Option Pending :=
  match e with
  | .fetchEmails folder page _ => some (.emails folder page)
  | .fetchStar id => some (.star id)
  | .fetchDelete id => some (.delete id)
  | .fetchLogout => some .logout
  | .fetchStats => some .stats
  | _ => none

theorem absorb_app (w : World) (e : Effect) : (absorb w e).app = w.app := by
  cases e <;> rfl

theorem absorb_dom (w : World) (e : Effect) : (absorb w e).dom = w.dom := by
  cases e <;> rfl

theorem absorb_now (w : World) (e : Effect) : (absorb w e).now = w.now := by
  cases e <;> rfl

theorem absorb_pending (w : World) (e : Effect) :
    (absorb w e).pending = w.pending ++ e.request.toList := by
  cases e <;> simp [absorb, Effect.request]

theorem foldl_absorb_app (es : List Effect) (w : World) :
    (es.foldl absorb w).app = w.app := by
  induction es generalizing w with
  | nil => rfl
  | cons e rest ih => simp [List.foldl, ih, absorb_app]

theorem foldl_absorb_dom (es : List Effect) (w : World) :
    (es.foldl absorb w).dom = w.dom := by
  induction es generalizing w with
  | nil => rfl
  | cons e rest ih => simp [List.foldl, ih, absorb_dom]

theorem foldl_absorb_now (es : List Effect) (w : World) :
    (es.foldl absorb w).now = w.now := by
  induction es generalizing w with
  | nil => rfl
  | cons e rest ih => simp [List.foldl, ih, absorb_now]

theorem foldl_absorb_pending (es : List Effect) (w : World) :
    (es.foldl absorb w).pending = w.pending ++ es.filterMap Effect.request := by
  induction es generalizing w with
  | nil => simp
  | cons e rest ih =>
    simp only [List.foldl, ih, absorb_pending, List.filterMap_cons]
    cases e.request <;> simp

theorem run_app (w : World) (o : Outcome) : (run w o).app = o.app := by
  simp [run, foldl_absorb_app]

theorem run_dom (w : World) (o : Outcome) : (run w o).dom = w.dom := by
  simp [run, foldl_absorb_dom]

theorem run_now (w : World) (o : Outcome) : (run w o).now = w.now := by
  simp [run, foldl_absorb_now]

theorem run_pending (w : World) (o : Outcome) :
    (run w o).pending = w.pending ++ o.effects.filterMap Effect.request := by
  simp [run, foldl_absorb_pending]

/-- What `loadEmails_resume` leaves in `this` on a successful answer with body `data`. -/
theorem loadEmails_resume_ok (dom : Dom) (s : SwiftPostApp) (r : HttpResponse EmailsData)
    (data : EmailsData) (hok : r.ok = true) (hj : r.json = some data) :
    (loadEmails_resume dom s (.resolved r)).app =
      { s with emails := data.emails.getD [], totalEmails := totalOrZero data.pagination } := by
  simp only [loadEmails_resume, hok, hj, Bool.not_true, Bool.false_eq_true, if_false]
  simp only [renderEmailList, renderPagination, Outcome.andThen, done]
  split_ifs <;> rfl

theorem totalOrZero_eq (p : Option Pagination) :
    totalOrZero p = (p.bind Pagination.total).getD 0 := by
  unfold totalOrZero
  cases p with
  | none => rfl
  | some q =>
    cases h : q.total with
    | none => simp [h]
    | some t => by_cases ht : t = 0 <;> simp [h, ht]

theorem eraseIdx_concat_length {α : Type} (l : List α) (a : α) :
    (l ++ [a]).eraseIdx l.length = l := by
  induction l with
  | nil => rfl
  | cons x rest ih => simp [List.eraseIdx, ih]

/-- Delivering a reply to the list request at position `i`. -/
theorem step_settle_emails (w : World) (i : Nat) (folder : String) (page : Int)
    (o : FetchOutcome EmailsData) (hp : w.pending[i]? = some (.emails folder page)) :
    step w (.settle i (.emails o)) =
      some (run { w with pending := w.pending.eraseIdx i } (loadEmails_resume w.dom w.app o)) := by
  simp [step, hp, resume]

/-! ## Mailbox view state: list fetches -/

/-- C1, as stated, fails. After `switchFolder('sent')` and `goToPage(2)` the request
for (sent, 2) is answered first and the older request for (sent, 1) afterwards: the
late answer replaces the cached list and total although the current pair is (sent, 2). -/
theorem stale_response_overwrites :
    ∃ w w1 : World,
      steps loggedIn [.switchFolder "sent", .goToPage 2,
        .settle 3 (.emails (.resolved (okEmails [sampleEmail 9 false] 21)))] = some w
      ∧ w.pending[2]? = some (.emails "sent" 1)
      ∧ w.app.currentFolder = "sent" ∧ w.app.currentPage = 2
      ∧ w.app.emails = [sampleEmail 9 false] ∧ w.app.totalEmails = 21
      ∧ step w (.settle 2 (.emails (.resolved (okEmails [sampleEmail 1 false] 1)))) = some w1
      ∧ w1.app.currentFolder = "sent" ∧ w1.app.currentPage = 2
      ∧ w1.app.emails = [sampleEmail 1 false] ∧ w1.app.totalEmails = 1 := by
  refine ⟨_, _, rfl, ?_, ?_, ?_, ?_, ?_, rfl, ?_, ?_, ?_, ?_⟩ <;> decide

/-- C1, amended. A successful answer is applied when it arrives, whichever folder and
page its request was sent for: the cached list and the total become those of the answer,
and the current folder and page stay as they are. -/
theorem response_applied_whatever_it_answers (w : World) (i : Nat) (folder : String)
    (page : Int) (r : HttpResponse EmailsData) (data : EmailsData)
    (hp : w.pending[i]? = some (.emails folder page))
    (hok : r.ok = true) (hj : r.json = some data) :
    ∃ w1 : World, step w (.settle i (.emails (.resolved r))) = some w1
      ∧ w1.app.emails = data.emails.getD []
      ∧ w1.app.totalEmails = (data.pagination.bind Pagination.total).getD 0
      ∧ w1.app.currentFolder = w.app.currentFolder
      ∧ w1.app.currentPage = w.app.currentPage := by
  refine ⟨_, step_settle_emails w i folder page _ hp, ?_, ?_, ?_, ?_⟩ <;>
    simp [run_app, loadEmails_resume_ok _ _ r data hok hj, totalOrZero_eq]

/-- The amended C1 on the loaded page: the answer to the first list request is applied. -/
theorem response_applied_whatever_it_answers_witness :
    ∃ w1 : World,
      step loggedIn (.settle 1 (.emails (.resolved (okEmails [sampleEmail 4 true] 41)))) = some w1
      ∧ w1.app.emails = (some [sampleEmail 4 true]).getD []
      ∧ w1.app.totalEmails =
          ((some ({ total := some 41 } : Pagination)).bind Pagination.total).getD 0
      ∧ w1.app.currentFolder = loggedIn.app.currentFolder
      ∧ w1.app.currentPage = loggedIn.app.currentPage :=
  response_applied_whatever_it_answers loggedIn 1 "inbox" 1
    (okEmails [sampleEmail 4 true] 41)
    { emails := some [sampleEmail 4 true], pagination := some { total := some 41 } }
    (by decide) (by decide) rfl

/-- C2. A successful answer replaces the cached list and the total wholesale (a missing
list gives the empty list, a missing total gives 0, nothing of the previous cache is
kept), applying the same answer again changes nothing, and after a successful
`toggleStar` whose refresh has been answered the cached entries, star flags included,
are the server's. -/
theorem loadEmails_replaces_wholesale (dom : Dom) (s : SwiftPostApp)
    (r : HttpResponse EmailsData) (data : EmailsData)
    (hok : r.ok = true) (hj : r.json = some data) :
    (loadEmails_resume dom s (.resolved r)).app.emails = data.emails.getD []
    ∧ (loadEmails_resume dom s (.resolved r)).app.totalEmails
        = (data.pagination.bind Pagination.total).getD 0
    ∧ (loadEmails_resume dom s (.resolved r)).error = none
    ∧ (∀ s0 : SwiftPostApp, s0.token = s.token → s0.user_id = s.user_id →
        s0.currentFolder = s.currentFolder → s0.currentPage = s.currentPage →
        s0.websocket = s.websocket →
        (loadEmails_resume dom s0 (.resolved r)).app = (loadEmails_resume dom s (.resolved r)).app)
    ∧ (loadEmails_resume dom (loadEmails_resume dom s (.resolved r)).app (.resolved r)).app
        = (loadEmails_resume dom s (.resolved r)).app
    ∧ (∀ (w : World) (emailId : Nat) (a : HttpResponse Ack) (m : Option String),
        a.json = some { success := true, message := m } →
        ∃ w1 : World,
          steps w [.toggleStar emailId, .settle w.pending.length (.ack (.resolved a)),
            .settle w.pending.length (.emails (.resolved r))] = some w1
          ∧ w1.app.emails = data.emails.getD []
          ∧ w1.app.emails.map (fun e => (e.id, e.is_starred))
              = (data.emails.getD []).map (fun e => (e.id, e.is_starred))) := by
  have happ := loadEmails_resume_ok dom s r data hok hj
  refine ⟨by simp [happ], by simp [happ, totalOrZero_eq], ?_, ?_, ?_, ?_⟩
  · simp only [loadEmails_resume, hok, hj, Bool.not_true, Bool.false_eq_true, if_false]
    simp only [renderEmailList, renderPagination, Outcome.andThen, done]
    split_ifs <;> rfl
  · intro s0 h1 h2 h3 h4 h5
    rw [loadEmails_resume_ok dom s0 r data hok hj, happ, h1, h2, h3, h4, h5]
  · rw [loadEmails_resume_ok dom _ r data hok hj, happ]
  · intro w emailId a m ha
    have h1 : step w (.toggleStar emailId) = some (run w (toggleStar w.app emailId)) := rfl
    have hp1 : (run w (toggleStar w.app emailId)).pending = w.pending ++ [.star emailId] := by
      simp [run_pending, toggleStar, done, Effect.request]
    have ha1 : (run w (toggleStar w.app emailId)).app = w.app := by
      simp [run_app, toggleStar, done]
    generalize run w (toggleStar w.app emailId) = w1 at h1 hp1 ha1
    have h2 : step w1 (.settle w.pending.length (.ack (.resolved a)))
        = some (run { w1 with pending := w.pending } (loadEmails w.app)) := by
      simp only [step, hp1, List.getElem?_concat_length, resume, toggleStar_resume, ha, ha1,
        eraseIdx_concat_length, if_true]
    have hp2 : (run { w1 with pending := w.pending } (loadEmails w.app)).pending
        = w.pending ++ [.emails w.app.currentFolder w.app.currentPage] := by
      simp [run_pending, loadEmails, done, Effect.request]
    have ha2 : (run { w1 with pending := w.pending } (loadEmails w.app)).app = w.app := by
      simp [run_app, loadEmails, done]
    generalize run { w1 with pending := w.pending } (loadEmails w.app) = w2 at h2 hp2 ha2
    have h3 := step_settle_emails w2 w.pending.length w.app.currentFolder w.app.currentPage
      (.resolved r) (by rw [hp2]; exact List.getElem?_concat_length _ _)
    have ha3 : (run { w2 with pending := w2.pending.eraseIdx w.pending.length }
        (loadEmails_resume w2.dom w2.app (.resolved r))).app
        = (loadEmails_resume w2.dom w2.app (.resolved r)).app := run_app _ _
    generalize run { w2 with pending := w2.pending.eraseIdx w.pending.length }
      (loadEmails_resume w2.dom w2.app (.resolved r)) = w3 at h3 ha3
    refine ⟨w3, ?_, ?_, ?_⟩
    · simp only [steps, h1, h2, h3]
    · simp [ha3, loadEmails_resume_ok _ _ r data hok hj]
    · simp [ha3, loadEmails_resume_ok _ _ r data hok hj]

/-- C2 on a fresh object and an answer with one email and total 41. -/
theorem loadEmails_replaces_wholesale_witness :
    (loadEmails_resume fullDom (construct (some "secret") (some 1))
        (.resolved (okEmails [sampleEmail 4 true] 41))).app.emails = [sampleEmail 4 true]
    ∧ (loadEmails_resume fullDom (construct (some "secret") (some 1))
        (.resolved (okEmails [sampleEmail 4 true] 41))).app.totalEmails = 41 :=
  have h := loadEmails_replaces_wholesale fullDom (construct (some "secret") (some 1))
    (okEmails [sampleEmail 4 true] 41)
    { emails := some [sampleEmail 4 true], pagination := some { total := some 41 } }
    (by decide) rfl
  ⟨h.1, h.2.1⟩

/-- C3. When the list request fails (the promise rejects, or the status is neither a
success nor 401) `loadEmails` leaves every field of `this` as it was, logs the error and
shows exactly one alert; it sends no request. -/
theorem loadEmails_failure_keeps_state (dom : Dom) (s : SwiftPostApp)
    (o : FetchOutcome EmailsData)
    (h : o = .rejected ∨ ∃ r, o = .resolved r ∧ r.ok = false ∧ r.status ≠ 401) :
    (loadEmails_resume dom s o).app = s
    ∧ (loadEmails_resume dom s o).effects
        = [.consoleError "加载邮件错误:", .showAlert "加载邮件失败，请重试" "danger"]
    ∧ (loadEmails_resume dom s o).error = none := by
  rcases h with h | ⟨r, h, hok, hs⟩
  · subst h
    exact ⟨rfl, rfl, rfl⟩
  · subst h
    simp [loadEmails_resume, hok, hs, loadEmails_catch, done]

/-- C3 on a fresh object and an answer with status 500. -/
theorem loadEmails_failure_keeps_state_witness :
    (loadEmails_resume fullDom (construct (some "secret") (some 1))
        (.resolved (statusOnly 500))).app = construct (some "secret") (some 1)
    ∧ (loadEmails_resume fullDom (construct (some "secret") (some 1))
        (.resolved (statusOnly 500))).effects
        = [.consoleError "加载邮件错误:", .showAlert "加载邮件失败，请重试" "danger"]
    ∧ (loadEmails_resume fullDom (construct (some "secret") (some 1))
        (.resolved (statusOnly 500))).error = none :=
  loadEmails_failure_keeps_state fullDom (construct (some "secret") (some 1))
    (.resolved (statusOnly 500))
    (Or.inr ⟨statusOnly 500, rfl, by decide, by decide⟩)

/-- C4. On status 401 `loadEmails` calls `logout` and returns: the only effect is the
request of `logout`, so there is no second list request and no alert, and the cached
list and total are unchanged. -/
theorem loadEmails_unauthorized_logs_out (dom : Dom) (s : SwiftPostApp)
    (r : HttpResponse EmailsData) (h : r.status = 401) :
    loadEmails_resume dom s (.resolved r) = logout s
    ∧ (loadEmails_resume dom s (.resolved r)).effects = [.fetchLogout]
    ∧ (loadEmails_resume dom s (.resolved r)).app.emails = s.emails
    ∧ (loadEmails_resume dom s (.resolved r)).app.totalEmails = s.totalEmails
    ∧ (∀ e ∈ (loadEmails_resume dom s (.resolved r)).effects,
        (∀ folder page limit, e ≠ .fetchEmails folder page limit)
        ∧ (∀ message type, e ≠ .showAlert message type)) := by
  have hr : loadEmails_resume dom s (.resolved r) = logout s := by
    simp [loadEmails_resume, HttpResponse.ok, h]
  rw [hr]
  simp [logout, done]

/-- C4 on a fresh object and an answer with status 401. -/
theorem loadEmails_unauthorized_logs_out_witness :
    loadEmails_resume fullDom (construct (some "secret") (some 1)) (.resolved (statusOnly 401))
      = logout (construct (some "secret") (some 1)) :=
  (loadEmails_unauthorized_logs_out fullDom (construct (some "secret") (some 1))
    (statusOnly 401) rfl).1

/-! ## General facts about sockets and timers -/

theorem length_updateSocket (f : ReadyState → ReadyState) (l : List Socket) (sock : Nat) :
    (updateSocket f l sock).length = l.length := by
  induction l generalizing sock with
  | nil => simp [updateSocket]
  | cons k rest ih => cases sock <;> simp [updateSocket, ih]

theorem map_created_updateSocket (f : ReadyState → ReadyState) (l : List Socket) (sock : Nat) :
    (updateSocket f l sock).map Socket.created = l.map Socket.created := by
  induction l generalizing sock with
  | nil => simp [updateSocket]
  | cons k rest ih => cases sock <;> simp [updateSocket, ih]

theorem run_onclose (w : World) (s : SwiftPostApp) :
    run w (onclose s) = { w with
      app := s
      timers := w.timers ++ [w.now + reconnectDelay]
      log := w.log ++ [.consoleLog "WebSocket连接已关闭", .setTimeoutReconnect reconnectDelay] } := by
  simp [run, onclose, done, absorb]

theorem run_onerror (w : World) (s : SwiftPostApp) :
    run w (onerror s) = { w with app := s, log := w.log ++ [.consoleError "WebSocket错误:"] } := by
  simp [run, onerror, done, absorb]

theorem run_connectWebSocket (w : World) (s : SwiftPostApp) (n : Nat)
    (hid : truthyId s.user_id = true) :
    run w (connectWebSocket s n) = { w with
      app := { s with websocket := some n }
      sockets := w.sockets ++ [{ readyState := .CONNECTING, created := w.now }]
      log := w.log ++ [.newWebSocket n] } := by
  simp [run, connectWebSocket, hid, done, absorb]

theorem step_wsClose (w : World) (sock : Nat) (k : Socket)
    (hk : w.sockets[sock]? = some k) (hlive : k.live = true) :
    step w (.wsClose sock) = some { w with
      sockets := updateSocket (fun _ => .CLOSED) w.sockets sock,
      timers := w.timers ++ [w.now + reconnectDelay],
      log := w.log ++ [.consoleLog "WebSocket连接已关闭", .setTimeoutReconnect reconnectDelay] } := by
  simp [step, hk, hlive, run_onclose, setReady]

theorem failure_spec (w : World) (sock : Nat) (k : Socket)
    (hid : truthyId w.app.user_id = true) (hcur : w.app.websocket = some sock)
    (hk : w.sockets[sock]? = some k) (hlive : k.live = true) :
    failure w = some { w with
      app := { w.app with websocket := some w.sockets.length },
      sockets := updateSocket (fun _ => .CLOSED) w.sockets sock
        ++ [{ readyState := .CONNECTING, created := w.now + reconnectDelay }],
      now := w.now + reconnectDelay,
      log := w.log ++ [.consoleLog "WebSocket连接已关闭", .setTimeoutReconnect reconnectDelay,
        .newWebSocket w.sockets.length] } := by
  simp only [failure, hcur, steps, step_wsClose w sock k hk hlive]
  simp [step, List.getElem?_concat_length, eraseIdx_concat_length, length_updateSocket,
    run_connectWebSocket, hid]

theorem failure_next (w : World) (h : Connected w) :
    ∃ w1 : World, failure w = some w1 ∧ Connected w1
      ∧ w1.sockets.map Socket.created = w.sockets.map Socket.created ++ [w.now + reconnectDelay]
      ∧ w1.timers = w.timers ∧ w1.now = w.now + reconnectDelay := by
  obtain ⟨hid, sock, k, hcur, hk, hlive⟩ := h
  refine ⟨_, failure_spec w sock k hid hcur hk hlive, ⟨hid, w.sockets.length,
    { readyState := .CONNECTING, created := w.now + reconnectDelay }, rfl, ?_, ?_⟩, ?_, rfl, rfl⟩
  · have hl := length_updateSocket (fun _ => ReadyState.CLOSED) w.sockets sock
    show (updateSocket (fun _ => ReadyState.CLOSED) w.sockets sock ++ [_])[w.sockets.length]? = _
    rw [← hl]
    exact List.getElem?_concat_length _ _
  · rfl
  · simp [map_created_updateSocket]

theorem failures_spec (n : Nat) : ∀ w : World, Connected w →
    ∃ w2 : World, failures n w = some w2 ∧ Connected w2
      ∧ w2.sockets.map Socket.created = w.sockets.map Socket.created
          ++ (List.range n).map (fun i => w.now + reconnectDelay * (i + 1))
      ∧ w2.timers = w.timers ∧ w2.now = w.now + reconnectDelay * n := by
  induction n with
  | zero => intro w h; exact ⟨w, rfl, h, by simp, rfl, rfl⟩
  | succ m ih =>
    intro w h
    obtain ⟨w1, hf, hc1, hs1, ht1, hn1⟩ := failure_next w h
    obtain ⟨w2, hf2, hc2, hs2, ht2, hn2⟩ := ih w1 hc1
    refine ⟨w2, by simp [failures, hf, hf2], hc2, ?_, by rw [ht2, ht1], ?_⟩
    · rw [hs2, hs1, hn1, List.range_succ_eq_map]
      generalize reconnectDelay = d
      simp only [List.map_cons, List.map_map, List.append_assoc, List.singleton_append,
        Nat.zero_add, Nat.mul_one]
      refine congrArg _ (congrArg _ ?_)
      apply List.map_congr_left
      intro i _
      simp only [Function.comp, Nat.succ_eq_add_one]
      ring
    · rw [hn2, hn1]
      generalize reconnectDelay = d
      ring

/-! ## Transports and timers are only added by `connectWebSocket` and `onclose` -/

theorem updateSocket_of_none (f : ReadyState → ReadyState) (l : List Socket) (sock : Nat)
    (h : l[sock]? = none) : updateSocket f l sock = l := by
  induction l generalizing sock with
  | nil => simp [updateSocket]
  | cons k rest ih =>
    cases sock with
    | zero => simp at h
    | succ n => simp at h; simp [updateSocket, ih n (by simpa using h)]

theorem filter_live_updateSocket_same (f : ReadyState → ReadyState) (l : List Socket)
    (sock : Nat)
    (h : ∀ k, l[sock]? = some k → decide (f k.readyState ≠ ReadyState.CLOSED) = k.live) :
    ((updateSocket f l sock).filter Socket.live).length = (l.filter Socket.live).length := by
  induction l generalizing sock with
  | nil => simp [updateSocket]
  | cons k rest ih =>
    cases sock with
    | zero =>
      have hk := h k (by simp)
      simp only [Socket.live] at hk
      simp only [updateSocket, List.filter_cons, Socket.live]
      split <;> split <;> simp_all
    | succ n =>
      have := ih n (fun k hk => h k (by simpa using hk))
      simp only [updateSocket, List.filter_cons]
      split <;> simp [this]

theorem filter_live_updateSocket_closed (l : List Socket) (sock : Nat) (k : Socket)
    (hk : l[sock]? = some k) (hlive : k.live = true) :
    ((updateSocket (fun _ => ReadyState.CLOSED) l sock).filter Socket.live).length + 1
      = (l.filter Socket.live).length := by
  induction l generalizing sock with
  | nil => simp at hk
  | cons x rest ih =>
    cases sock with
    | zero =>
      simp at hk
      subst hk
      simp only [Socket.live, decide_eq_true_eq] at hlive
      simp [updateSocket, List.filter_cons, hlive, Socket.live]
    | succ n =>
      have := ih n (by simpa using hk)
      simp only [updateSocket, List.filter_cons]
      split <;> simp [← this]

theorem closing_eq_closed (r : ReadyState) :
    closing r = ReadyState.CLOSED ↔ r = ReadyState.CLOSED := by
  cases r <;> simp [closing]

theorem absorb_links (w : World) (e : Effect) : links (absorb w e) = links w + e.opens := by
  cases e <;> simp [absorb, links, liveCount, Effect.opens]
  case newWebSocket sock => simp [List.filter_append, Socket.live]; omega
  case closeWebSocket sock =>
    exact filter_live_updateSocket_same closing w.sockets sock
      (fun k _ => by simp [Socket.live, closing_eq_closed])
  case setTimeoutReconnect d => omega

theorem foldl_absorb_links (es : List Effect) (w : World) :
    links (es.foldl absorb w) = links w + (es.map Effect.opens).sum := by
  induction es generalizing w with
  | nil => simp
  | cons e rest ih => simp [List.foldl, ih, absorb_links]; omega

theorem run_links (w : World) (o : Outcome) : links (run w o) = links w + o.opens := by
  unfold run
  rw [foldl_absorb_links]
  rfl

theorem opens_loadEmails (s : SwiftPostApp) : (loadEmails s).opens = 0 := rfl

theorem opens_loadEmails_resume (dom : Dom) (s : SwiftPostApp) (o : FetchOutcome EmailsData) :
    (loadEmails_resume dom s o).opens = 0 := by
  unfold loadEmails_resume
  cases o with
  | rejected => rfl
  | resolved r =>
    simp only [renderEmailList, renderPagination, Outcome.andThen, done, logout,
      loadEmails_catch]
    repeat' (first | rfl | split)

theorem opens_toggleStar_resume (s : SwiftPostApp) (o : FetchOutcome Ack) :
    (toggleStar_resume s o).opens = 0 := by
  unfold toggleStar_resume
  cases o with
  | rejected => rfl
  | resolved r =>
    simp only [loadEmails, done]
    repeat' (first | rfl | split)

theorem opens_deleteEmail_resume (s : SwiftPostApp) (o : FetchOutcome Ack) :
    (deleteEmail_resume s o).opens = 0 := by
  unfold deleteEmail_resume
  cases o with
  | rejected => rfl
  | resolved r =>
    simp only [loadEmails, Outcome.andThen, done]
    repeat' (first | rfl | split)

theorem opens_logout_finally (s : SwiftPostApp) : (logout_finally s).opens = 0 := by
  unfold logout_finally
  cases s.websocket <;> rfl

theorem opens_resume (w : World) (p : Pending) (r : Reply) (o : Outcome)
    (h : resume w p r = some o) : o.opens = 0 := by
  cases p <;> cases r <;> simp [resume] at h <;> subst h <;>
    first
      | exact opens_loadEmails_resume _ _ _
      | exact opens_toggleStar_resume _ _
      | exact opens_deleteEmail_resume _ _
      | exact opens_logout_finally _
      | rfl

theorem opens_switchFolder (dom : Dom) (s : SwiftPostApp) (folder : String) :
    (switchFolder dom s folder).opens = 0 := by
  simp only [switchFolder, loadEmails, Outcome.andThen, done, threw]
  split_ifs <;> rfl

theorem opens_deleteEmail (s : SwiftPostApp) (emailId : Nat) (confirmed : Bool) :
    (deleteEmail s emailId confirmed).opens = 0 := by
  cases confirmed <;> rfl

theorem opens_updateUnreadCount (dom : Dom) (s : SwiftPostApp) :
    (updateUnreadCount dom s).opens = 0 := by
  simp only [updateUnreadCount, done]
  split_ifs <;> rfl

theorem opens_handleWebSocketMessage (dom : Dom) (s : SwiftPostApp) (m : Message) :
    (handleWebSocketMessage dom s m).opens = 0 := by
  simp only [handleWebSocketMessage, handleNewEmail, handlePresence, updateUnreadCount,
    loadEmails, Outcome.andThen, done, threw]
  repeat' (first | rfl | split)

theorem opens_onmessage (dom : Dom) (s : SwiftPostApp) (m : Option Message) :
    (onmessage dom s m).opens = 0 := by
  cases m with
  | none => rfl
  | some msg =>
    have h := opens_handleWebSocketMessage dom s msg
    simp only [onmessage]
    split
    · exact h
    · simp only [Outcome.opens, done, List.map_append, List.sum_append] at h ⊢
      simp [h, Effect.opens]

theorem opens_connectWebSocket (s : SwiftPostApp) (n : Nat) :
    (connectWebSocket s n).opens ≤ 1 := by
  simp only [connectWebSocket, done]
  split_ifs <;> simp [Outcome.opens, Effect.opens]

theorem opens_init (dom : Dom) (s : SwiftPostApp) (n : Nat) : (init dom true s n).opens ≤ 1 := by
  cases h1 : truthyToken s.token <;> cases h2 : truthyId s.user_id <;>
    cases h3 : dom.unreadBadge <;>
    simp [init, updateUI, updateUnreadCount, loadEmails, connectWebSocket, Outcome.andThen,
      done, h1, h2, h3, Outcome.opens, Effect.opens]

/-- No event other than a direct call of `connectWebSocket` adds to the transports and
timers of the page. -/
theorem step_links (w w1 : World) (e : Event) (he : e ≠ .connect) (h : step w e = some w1) :
    links w1 ≤ links w := by
  cases e with
  | connect => exact absurd rfl he
  | switchFolder folder =>
    simp only [step, Option.some.injEq] at h; subst h
    rw [run_links, opens_switchFolder]; rfl
  | goToPage page =>
    simp only [step, Option.some.injEq] at h; subst h
    rw [run_links]; exact Nat.le_refl _
  | refresh =>
    simp only [step, Option.some.injEq] at h; subst h
    rw [run_links]; exact Nat.le_refl _
  | toggleStar emailId =>
    simp only [step, Option.some.injEq] at h; subst h
    rw [run_links]; exact Nat.le_refl _
  | deleteEmail emailId confirmed =>
    simp only [step, Option.some.injEq] at h; subst h
    rw [run_links, opens_deleteEmail]; rfl
  | logout =>
    simp only [step, Option.some.injEq] at h; subst h
    rw [run_links]; exact Nat.le_refl _
  | settle i r =>
    simp only [step] at h
    cases hp : w.pending[i]? with
    | none => simp [hp] at h
    | some p =>
      cases ho : resume w p r with
      | none => simp [hp, ho] at h
      | some o =>
        simp only [hp, ho, Option.some.injEq] at h; subst h
        rw [run_links, opens_resume w p r o ho]; rfl
  | wsOpen sock =>
    simp only [step] at h
    cases hk : w.sockets[sock]? with
    | none => simp [hk] at h
    | some k =>
      simp only [hk] at h
      split_ifs at h with hc
      simp only [Option.some.injEq] at h; subst h
      rw [run_links]
      have := filter_live_updateSocket_same (fun _ => ReadyState.OPEN) w.sockets sock
        (fun k1 hk1 => by
          rw [hk] at hk1; cases hk1; simp [Socket.live, hc])
      simp only [links, liveCount, setReady, this]
      exact Nat.le_refl _
  | wsMessage sock message =>
    simp only [step] at h
    cases hk : w.sockets[sock]? with
    | none => simp [hk] at h
    | some k =>
      simp only [hk] at h
      split_ifs at h
      simp only [Option.some.injEq] at h; subst h
      rw [run_links, opens_onmessage]; rfl
  | wsError sock =>
    simp only [step] at h
    cases hk : w.sockets[sock]? with
    | none => simp [hk] at h
    | some k =>
      simp only [hk] at h
      split_ifs at h
      simp only [Option.some.injEq] at h; subst h
      rw [run_links]; exact Nat.le_refl _
  | wsClose sock =>
    simp only [step] at h
    cases hk : w.sockets[sock]? with
    | none => simp [hk] at h
    | some k =>
      simp only [hk] at h
      split_ifs at h with hl
      simp only [Option.some.injEq] at h; subst h
      rw [run_links]
      have := filter_live_updateSocket_closed w.sockets sock k hk hl
      have h1 : (onclose w.app).opens = 1 := rfl
      simp only [links, liveCount, setReady, h1] at this ⊢
      omega
  | advance ms =>
    simp only [step, Option.some.injEq] at h; subst h
    exact Nat.le_refl _
  | timerFires j =>
    simp only [step] at h
    cases hk : w.timers[j]? with
    | none => simp [hk] at h
    | some due =>
      simp only [hk] at h
      split_ifs at h
      simp only [Option.some.injEq] at h; subst h
      rw [run_links]
      have hj : j < w.timers.length := by
        rcases List.getElem?_eq_some_iff.mp hk with ⟨hj, _⟩
        exact hj
      have hlen := List.length_eraseIdx_of_lt hj
      have hc := opens_connectWebSocket w.app w.sockets.length
      simp only [links, liveCount] at hlen ⊢
      omega

theorem steps_links (es : List Event) : ∀ w w1 : World, (∀ e ∈ es, e ≠ Event.connect) →
    steps w es = some w1 → links w1 ≤ links w := by
  induction es with
  | nil => intro w w1 _ h; simp [steps] at h; subst h; exact Nat.le_refl _
  | cons e rest ih =>
    intro w w1 hne h
    simp only [steps] at h
    cases hs : step w e with
    | none => simp [hs] at h
    | some w2 =>
      simp only [hs] at h
      exact Nat.le_trans (ih w2 w1 (fun x hx => hne x (List.mem_cons_of_mem _ hx)) h)
        (step_links w w2 e (hne e (List.mem_cons_self _ _)) hs)

theorem links_boot (dom : Dom) (token : Option String) (user_id : Option Nat) :
    links (boot dom token user_id) ≤ 1 := by
  unfold boot
  rw [run_links]
  have := opens_init dom (construct token user_id) 0
  simp only [links, liveCount, List.filter_nil, List.length_nil]
  omega

theorem absorb_log (w : World) (e : Effect) : (absorb w e).log = w.log ++ [e] := by
  cases e <;> rfl

theorem foldl_absorb_log (es : List Effect) (w : World) :
    (es.foldl absorb w).log = w.log ++ es := by
  induction es generalizing w with
  | nil => simp
  | cons e rest ih => simp [List.foldl, ih, absorb_log]

theorem run_log (w : World) (o : Outcome) : (run w o).log = w.log ++ o.effects := by
  simp [run, foldl_absorb_log]

theorem run_done_nil (w : World) (s : SwiftPostApp) : run w (done s []) = { w with app := s } :=
  rfl

/-! ## Push channel: reconnecting -/

/-- C5, as stated, fails. First run: the socket is open, `logout` completes (it calls
`close()` and assigns `/login`), then the close event of that socket arrives: a reconnect
timer is set, and when it fires a second socket is made. Second run: the socket has
closed and its reconnect timer is pending when `logout` completes: the timer stays
pending, and when it fires a second socket is made. -/
theorem reconnect_survives_logout :
    (∃ w w1 w2 : World,
      steps loggedIn [.wsOpen 0, .logout, .settle 2 .other] = some w
      ∧ w.location = some "/login" ∧ w.timers = []
      ∧ w.sockets.map Socket.readyState = [.CLOSING]
      ∧ step w (.wsClose 0) = some w1 ∧ w1.timers = [5000]
      ∧ steps w1 [.advance 5000, .timerFires 0] = some w2
      ∧ w2.sockets.map Socket.readyState = [.CLOSED, .CONNECTING])
    ∧ (∃ w w2 : World,
      steps loggedIn [.wsOpen 0, .wsClose 0, .logout, .settle 2 .other] = some w
      ∧ w.location = some "/login" ∧ w.timers = [5000]
      ∧ steps w [.advance 5000, .timerFires 0] = some w2
      ∧ w2.sockets.map Socket.readyState = [.CLOSED, .CONNECTING]) := by
  refine ⟨⟨_, _, _, rfl, ?_, ?_, ?_, rfl, ?_, rfl, ?_⟩, ⟨_, _, rfl, ?_, ?_, rfl, ?_⟩⟩ <;> decide

/-- C5, amended. When the request of `logout` settles, however it settles, the callback
removes the token and the user from `localStorage`, calls `close()` on the socket held
in `this.websocket` if there is one, and assigns `/login` to the location. It cancels no
reconnect timer, and the close event of any live socket afterwards sets a reconnect
timer as before. -/
theorem logout_closes_but_keeps_reconnect (w : World) (i : Nat) (r : Reply)
    (hp : w.pending[i]? = some .logout) :
    ∃ w1 : World, step w (.settle i r) = some w1
      ∧ w1.timers = w.timers
      ∧ w1.sockets = (match w.app.websocket with
          | some sock => updateSocket closing w.sockets sock
          | none => w.sockets)
      ∧ liveCount w1 = liveCount w
      ∧ "token" ∉ w1.storage ∧ "user" ∉ w1.storage
      ∧ w1.location = some "/login"
      ∧ w1.app = w.app
      ∧ (∀ (sock : Nat) (k : Socket), w1.sockets[sock]? = some k → k.live = true →
          ∃ w2 : World, step w1 (.wsClose sock) = some w2
            ∧ w2.timers = w.timers ++ [w1.now + reconnectDelay]) := by
  have hr : resume w .logout r = some (logout_finally w.app) := by cases r <;> rfl
  have hs : step w (.settle i r)
      = some (run { w with pending := w.pending.eraseIdx i } (logout_finally w.app)) := by
    simp [step, hp, hr]
  refine ⟨_, hs, ?_⟩
  cases hws : w.app.websocket with
  | none =>
    have hrun : run { w with pending := w.pending.eraseIdx i } (logout_finally w.app)
        = { w with
            pending := w.pending.eraseIdx i
            storage := (w.storage.filter (fun x => x != "token")).filter (fun x => x != "user")
            location := some "/login"
            log := w.log ++ [.removeItem "token", .removeItem "user", .navigate "/login"] } := by
      simp [run, logout_finally, hws, done, absorb]
    rw [hrun]
    refine ⟨rfl, rfl, rfl, by simp [List.mem_filter], by simp [List.mem_filter], rfl, rfl, ?_⟩
    intro sock k hk hlive
    exact ⟨_, step_wsClose _ sock k hk hlive, rfl⟩
  | some cur =>
    have hrun : run { w with pending := w.pending.eraseIdx i } (logout_finally w.app)
        = { w with
            pending := w.pending.eraseIdx i
            sockets := updateSocket closing w.sockets cur
            storage := (w.storage.filter (fun x => x != "token")).filter (fun x => x != "user")
            location := some "/login"
            log := w.log ++ [.removeItem "token", .removeItem "user", .closeWebSocket cur,
              .navigate "/login"] } := by
      simp [run, logout_finally, hws, done, absorb]
    rw [hrun]
    refine ⟨rfl, rfl, ?_, by simp [List.mem_filter], by simp [List.mem_filter], rfl, rfl, ?_⟩
    · exact filter_live_updateSocket_same closing w.sockets cur
        (fun k _ => by simp [Socket.live, closing_eq_closed])
    · intro sock k hk hlive
      exact ⟨_, step_wsClose _ sock k hk hlive, rfl⟩

/-- The amended C5 on the loaded page with the request of `logout` in flight. -/
theorem logout_closes_but_keeps_reconnect_witness :
    ∃ w1 : World, step loggingOut (.settle 2 .other) = some w1
      ∧ w1.timers = loggingOut.timers ∧ w1.location = some "/login" :=
  match logout_closes_but_keeps_reconnect loggingOut 2 .other (by decide) with
  | ⟨w1, h1, h2, _, _, _, _, h7, _⟩ => ⟨w1, h1, h2, h7⟩

theorem run_connect_timers (w : World) (s : SwiftPostApp) (n : Nat) :
    (run w (connectWebSocket s n)).timers = w.timers := by
  cases hid : truthyId s.user_id with
  | false =>
    have : connectWebSocket s n = done s [] := by simp [connectWebSocket, hid]
    rw [this, run_done_nil]
  | true => rw [run_connectWebSocket _ _ _ hid]

/-- C6, as stated, fails. A second call of `connectWebSocket` on the loaded page gives
two live transports; a call made while a reconnect timer is pending leaves the timer
pending, and when that timer fires there are two live transports again. -/
theorem second_connect_second_transport :
    (steps loggedIn [.connect]).map liveCount = some 2
    ∧ (steps loggedIn [.wsClose 0]).map (fun w => (w.timers, liveCount w)) = some ([5000], 0)
    ∧ (steps loggedIn [.wsClose 0, .connect]).map (fun w => (w.timers, liveCount w))
        = some ([5000], 1)
    ∧ (steps loggedIn [.wsClose 0, .connect, .advance 5000, .timerFires 0]).map liveCount
        = some 2 := by
  decide

/-- C6, amended. In every state reached from the loaded page by events other than a
direct call of `connectWebSocket` (user actions, settled requests, socket events, the
clock, timers firing), live transports and pending reconnect timers number at most one
together, hence at most one each. `connectWebSocket` itself cancels no timer and ends no
transport. -/
theorem one_link_without_direct_connect (dom : Dom) (token : Option String)
    (user_id : Option Nat) (es : List Event) (w : World)
    (hne : ∀ e ∈ es, e ≠ Event.connect)
    (h : steps (boot dom token user_id) es = some w) :
    liveCount w + w.timers.length ≤ 1 ∧ liveCount w ≤ 1 ∧ w.timers.length ≤ 1
    ∧ (∀ w1 : World, step w .connect = some w1 →
        w1.timers = w.timers ∧ liveCount w ≤ liveCount w1) := by
  have h1 := steps_links es _ w hne h
  have h2 := links_boot dom token user_id
  have h3 : liveCount w + w.timers.length ≤ 1 := Nat.le_trans h1 h2
  refine ⟨h3, by omega, by omega, ?_⟩
  intro w1 hw1
  simp only [step, Option.some.injEq] at hw1
  subst hw1
  cases hid : truthyId w.app.user_id with
  | false =>
    have : connectWebSocket w.app w.sockets.length = done w.app [] := by
      simp [connectWebSocket, hid]
    rw [this, run_done_nil]
    exact ⟨rfl, Nat.le_refl _⟩
  | true =>
    rw [run_connectWebSocket _ _ _ hid]
    exact ⟨rfl, by simp [liveCount, List.filter_append]⟩

/-- The amended C6 on a run with one failure, its reconnect and an error event. -/
theorem one_link_without_direct_connect_witness :
    ∃ w : World,
      steps loggedIn [.wsOpen 0, .wsClose 0, .advance 5000, .timerFires 0, .wsError 1] = some w
      ∧ liveCount w + w.timers.length ≤ 1 :=
  ⟨_, rfl, (one_link_without_direct_connect fullDom (some "secret") (some 1)
    [.wsOpen 0, .wsClose 0, .advance 5000, .timerFires 0, .wsError 1] _ (by decide) rfl).1⟩

/-- C7. The close event of a live transport sets exactly one timer, with a delay of
5000 ms, and opens nothing by itself; the timer cannot fire earlier, and when it fires it
runs `connectWebSocket`. An error event sets no timer and opens nothing. Hence `n`
consecutive failures of the current transport are followed by exactly `n` new sockets,
the `i`-th made 5000 ms after the `i`-th close. -/
theorem close_schedules_one_reconnect (w : World) (sock : Nat) (k : Socket) (n : Nat)
    (hk : w.sockets[sock]? = some k) (hlive : k.live = true) :
    (∃ w1 : World, step w (.wsClose sock) = some w1
        ∧ w1.timers = w.timers ++ [w.now + 5000]
        ∧ w1.sockets.length = w.sockets.length
        ∧ w1.log = w.log ++ [.consoleLog "WebSocket连接已关闭", .setTimeoutReconnect 5000]
        ∧ (∀ d : Nat, d < 5000 → steps w1 [.advance d, .timerFires w.timers.length] = none)
        ∧ (∃ w2 : World, steps w1 [.advance 5000, .timerFires w.timers.length] = some w2
            ∧ w2.timers = w.timers
            ∧ w2.log = w1.log ++ (connectWebSocket w.app w.sockets.length).effects))
    ∧ (∃ w1 : World, step w (.wsError sock) = some w1
        ∧ w1.timers = w.timers ∧ w1.sockets = w.sockets)
    ∧ (Connected w → ∃ w2 : World, failures n w = some w2
        ∧ w2.sockets.length = w.sockets.length + n
        ∧ w2.sockets.map Socket.created = w.sockets.map Socket.created
            ++ (List.range n).map (fun i => w.now + 5000 * (i + 1))
        ∧ w2.timers = w.timers) := by
  refine ⟨⟨_, step_wsClose w sock k hk hlive, rfl, ?_, rfl, ?_, ?_⟩, ?_, ?_⟩
  · exact length_updateSocket _ _ _
  · intro d hd
    simp only [steps, step, List.getElem?_concat_length, reconnectDelay]
    rw [if_neg (by show ¬ (w.now + 5000 ≤ w.now + d); omega)]
  · refine ⟨run { w with
        sockets := updateSocket (fun _ => .CLOSED) w.sockets sock
        now := w.now + 5000
        log := w.log ++ [.consoleLog "WebSocket连接已关闭", .setTimeoutReconnect 5000] }
      (connectWebSocket w.app w.sockets.length), ?_, ?_, ?_⟩
    · simp [steps, step, List.getElem?_concat_length, reconnectDelay, eraseIdx_concat_length,
        length_updateSocket]
    · exact run_connect_timers _ _ _
    · simp [run_log, reconnectDelay]
  · refine ⟨run w (onerror w.app), ?_, ?_, ?_⟩
    · simp only [step, hk, hlive, if_true]
    · simp [run_onerror]
    · simp [run_onerror]
  · intro hc
    obtain ⟨w2, hf, _, hs, ht, _⟩ := failures_spec n w hc
    refine ⟨w2, hf, ?_, hs, ht⟩
    have := congrArg List.length hs
    simpa using this

/-- C7 on the loaded page: three failures, three new sockets, at 5000, 10000 and 15000 ms. -/
theorem close_schedules_one_reconnect_witness :
    ∃ w2 : World, failures 3 loggedIn = some w2
      ∧ w2.sockets.length = loggedIn.sockets.length + 3
      ∧ w2.sockets.map Socket.created = loggedIn.sockets.map Socket.created
          ++ (List.range 3).map (fun i => loggedIn.now + 5000 * (i + 1))
      ∧ w2.timers = loggedIn.timers :=
  (close_schedules_one_reconnect loggedIn 0 { readyState := .CONNECTING, created := 0 } 3
    rfl rfl).2.2 ⟨rfl, 0, { readyState := .CONNECTING, created := 0 }, rfl, rfl, rfl⟩

/-! ## Push channel: dispatch of inbound frames -/

/-- C8, as stated, fails. A frame of type `new_mail` with a subject, received while the
current folder is the inbox, reaches the `default` branch: the type is logged as
unknown, no list request is sent and the unread badge is not touched. -/
theorem new_mail_is_not_dispatched :
    (construct (some "secret") (some 1)).currentFolder = "inbox"
    ∧ handleWebSocketMessage fullDom (construct (some "secret") (some 1))
        { type := "new_mail", payload := some { subject := some "Hi", status := none } }
      = done (construct (some "secret") (some 1)) [.consoleLog "未知WebSocket消息类型:new_mail"] := by
  decide

/-- C8, amended. For a frame whose type is `new_email` and that has a payload,
`handleWebSocketMessage` shows the notification, plays the sound, sends a list request
for the current folder and page exactly when the current folder is `inbox`, and then
runs `updateUnreadCount`, whatever the folder; it changes no field of `this`. -/
theorem new_email_refreshes_inbox (dom : Dom) (s : SwiftPostApp) (m : Message) (p : Payload)
    (ht : m.type = "new_email") (hp : m.payload = some p) :
    (handleWebSocketMessage dom s m).effects
      = [.showNotification (newEmailText p) "info", .playNotificationSound]
        ++ (if s.currentFolder = "inbox" then (loadEmails s).effects else [])
        ++ (updateUnreadCount dom s).effects
    ∧ (handleWebSocketMessage dom s m).app = s
    ∧ (handleWebSocketMessage dom s m).error = none
    ∧ ((∃ folder page limit,
          Effect.fetchEmails folder page limit ∈ (handleWebSocketMessage dom s m).effects)
        ↔ s.currentFolder = "inbox") := by
  have he : (handleWebSocketMessage dom s m).effects
      = [.showNotification (newEmailText p) "info", .playNotificationSound]
        ++ (if s.currentFolder = "inbox" then (loadEmails s).effects else [])
        ++ (updateUnreadCount dom s).effects := by
    simp only [handleWebSocketMessage, ht, hp, handleNewEmail, updateUnreadCount, loadEmails,
      Outcome.andThen, done, if_true]
    split_ifs <;> rfl
  refine ⟨he, ?_, ?_, ?_⟩
  · simp only [handleWebSocketMessage, ht, hp, handleNewEmail, updateUnreadCount, loadEmails,
      Outcome.andThen, done, if_true]
    split_ifs <;> rfl
  · simp only [handleWebSocketMessage, ht, hp, handleNewEmail, updateUnreadCount, loadEmails,
      Outcome.andThen, done, if_true]
    split_ifs <;> rfl
  · rw [he]
    simp only [updateUnreadCount, loadEmails, done]
    constructor
    · rintro ⟨folder, page, limit, hmem⟩
      by_contra hne
      rw [if_neg hne] at hmem
      split_ifs at hmem <;> simp at hmem
    · intro hin
      exact ⟨s.currentFolder, s.currentPage, pageSize, by simp [hin]⟩

/-- The amended C8 on a fresh object, whose folder is the inbox. -/
theorem new_email_refreshes_inbox_witness :
    (∃ folder page limit, Effect.fetchEmails folder page limit ∈
        (handleWebSocketMessage fullDom (construct (some "secret") (some 1))
          { type := "new_email", payload := some { subject := some "Hi", status := none } }).effects)
      ↔ (construct (some "secret") (some 1)).currentFolder = "inbox" :=
  (new_email_refreshes_inbox fullDom (construct (some "secret") (some 1))
    { type := "new_email", payload := some { subject := some "Hi", status := none } }
    { subject := some "Hi", status := none } rfl rfl).2.2.2

/-- C9, as stated, fails. The type `new_email` is neither `new_mail` nor `presence`, yet a
frame of that type sends a list request when the current folder is the inbox, and
throws when it has no payload. -/
theorem new_email_is_recognized :
    "new_email" ≠ "new_mail" ∧ "new_email" ≠ "presence"
    ∧ (handleWebSocketMessage fullDom (construct (some "secret") (some 1))
        { type := "new_email", payload := some { subject := some "Hi", status := none } }).effects
      = [.showNotification "新邮件: Hi" "info", .playNotificationSound,
          .fetchEmails "inbox" 1 20, .setUnreadBadge 0 false]
    ∧ (handleWebSocketMessage fullDom (construct (some "secret") (some 1))
        { type := "new_email", payload := none }).error = some "TypeError" := by
  decide

/-- C9, amended. For a frame whose type is neither `new_email` nor `presence`, whatever
its payload, `handleWebSocketMessage` throws nothing, changes no field of `this`, and
its only effect is one line on the console: no request is sent. (The type `info` is
among these: its branch only logs.) -/
theorem other_types_only_logged (dom : Dom) (s : SwiftPostApp) (m : Message)
    (h1 : m.type ≠ "new_email") (h2 : m.type ≠ "presence") :
    (handleWebSocketMessage dom s m).error = none
    ∧ (handleWebSocketMessage dom s m).app = s
    ∧ (∃ text, (handleWebSocketMessage dom s m).effects = [.consoleLog text])
    ∧ (∀ e ∈ (handleWebSocketMessage dom s m).effects, e.request = none) := by
  simp only [handleWebSocketMessage, h1, h2, if_false]
  split_ifs
  · exact ⟨rfl, rfl, ⟨_, rfl⟩, by simp [done, Effect.request]⟩
  · exact ⟨rfl, rfl, ⟨_, rfl⟩, by simp [done, Effect.request]⟩

/-- The amended C9 on a frame of type `new_mail` without payload. -/
theorem other_types_only_logged_witness :
    (handleWebSocketMessage fullDom cachedSeven { type := "new_mail", payload := none }).error
        = none
    ∧ (handleWebSocketMessage fullDom cachedSeven { type := "new_mail", payload := none }).app
        = cachedSeven :=
  have h := other_types_only_logged fullDom cachedSeven { type := "new_mail", payload := none }
    (by decide) (by decide)
  ⟨h.1, h.2.1⟩

/-! ## Star and delete -/

/-- C10, as stated, fails. With one unstarred email, id 7, in the cache, `toggleStar(7)`
returns with that entry still unstarred and a confirmed `deleteEmail(7)` returns with
the entry still cached; each has only sent its request. -/
theorem star_and_delete_leave_cache :
    cachedSeven.emails.map (fun e => (e.id, e.is_starred)) = [(7, false)]
    ∧ (toggleStar cachedSeven 7).app.emails.map (fun e => (e.id, e.is_starred)) = [(7, false)]
    ∧ (toggleStar cachedSeven 7).effects = [.fetchStar 7]
    ∧ (deleteEmail cachedSeven 7 true).app.emails.map Email.id = [7]
    ∧ (deleteEmail cachedSeven 7 true).effects
        = [.confirm "确定要删除这封邮件吗？", .fetchDelete 7] := by
  decide

/-- C10, amended. `toggleStar(id)` and a confirmed `deleteEmail(id)` only send their
request: every field of `this`, the cached list included, is as before while the request
is in flight, and the continuation that runs when the request settles does not touch
the cache either. The cache changes when the answer of the following `loadEmails` is
applied. -/
theorem star_and_delete_only_send (s : SwiftPostApp) (emailId : Nat)
    (o : FetchOutcome Ack) :
    (toggleStar s emailId).app = s
    ∧ (toggleStar s emailId).effects = [.fetchStar emailId]
    ∧ (deleteEmail s emailId true).app = s
    ∧ (deleteEmail s emailId true).effects
        = [.confirm "确定要删除这封邮件吗？", .fetchDelete emailId]
    ∧ (toggleStar_resume s o).app = s
    ∧ (deleteEmail_resume s o).app = s := by
  refine ⟨rfl, rfl, rfl, rfl, ?_, ?_⟩
  · simp only [toggleStar_resume, loadEmails, done]
    repeat' (first | rfl | split)
  · simp only [deleteEmail_resume, loadEmails, Outcome.andThen, done]
    repeat' (first | rfl | split)

/-! ## Star and delete: the refresh that follows -/

theorem steps_append (es1 es2 : List Event) : ∀ w : World,
    steps w (es1 ++ es2) = (steps w es1).bind (fun w1 => steps w1 es2) := by
  induction es1 with
  | nil => intro w; rfl
  | cons e rest ih =>
    intro w
    simp only [List.cons_append, steps]
    cases step w e with
    | none => rfl
    | some w1 => exact ih w1

theorem requests_loadEmails_resume_ok (dom : Dom) (s : SwiftPostApp)
    (r : HttpResponse EmailsData) (data : EmailsData) (hok : r.ok = true)
    (hj : r.json = some data) :
    (loadEmails_resume dom s (.resolved r)).effects.filterMap Effect.request = [] := by
  simp only [loadEmails_resume, hok, hj, Bool.not_true, Bool.false_eq_true, if_false]
  simp only [renderEmailList, renderPagination, Outcome.andThen, done]
  repeat' (first | rfl | split)

/-- Delivering a successful answer to the list request at position `i`. -/
theorem settle_emails_ok (w : World) (i : Nat) (folder : String) (page : Int)
    (r : HttpResponse EmailsData) (data : EmailsData)
    (hp : w.pending[i]? = some (.emails folder page))
    (hok : r.ok = true) (hj : r.json = some data) :
    ∃ w1 : World, step w (.settle i (.emails (.resolved r))) = some w1
      ∧ w1.app = { w.app with
          emails := data.emails.getD []
          totalEmails := totalOrZero data.pagination }
      ∧ w1.pending = w.pending.eraseIdx i := by
  refine ⟨_, step_settle_emails w i folder page _ hp, ?_, ?_⟩
  · rw [run_app, loadEmails_resume_ok _ _ r data hok hj]
  · rw [run_pending, requests_loadEmails_resume_ok _ _ r data hok hj]
    simp

/-- A confirmed `deleteEmail` whose call is answered with success: the request of the
following `loadEmails` is the last one in flight. -/
theorem delete_then_ack (w : World) (emailId : Nat) (a : HttpResponse Ack)
    (m : Option String) (ha : a.json = some { success := true, message := m }) :
    ∃ w2 : World,
      steps w [.deleteEmail emailId true, .settle w.pending.length (.ack (.resolved a))]
        = some w2
      ∧ w2.app = w.app
      ∧ w2.pending = w.pending ++ [.emails w.app.currentFolder w.app.currentPage] := by
  have h1 : step w (.deleteEmail emailId true) = some (run w (deleteEmail w.app emailId true)) :=
    rfl
  have hp1 : (run w (deleteEmail w.app emailId true)).pending
      = w.pending ++ [.delete emailId] := by
    simp [run_pending, deleteEmail, done, Effect.request]
  have ha1 : (run w (deleteEmail w.app emailId true)).app = w.app := by
    simp [run_app, deleteEmail, done]
  generalize run w (deleteEmail w.app emailId true) = w1 at h1 hp1 ha1
  have h2 : step w1 (.settle w.pending.length (.ack (.resolved a)))
      = some (run { w1 with pending := w.pending } (deleteEmail_resume w.app (.resolved a))) := by
    simp only [step, hp1, List.getElem?_concat_length, resume, ha1, eraseIdx_concat_length]
  refine ⟨run { w1 with pending := w.pending } (deleteEmail_resume w.app (.resolved a)),
    by simp only [steps, h1, h2], ?_, ?_⟩
  · simp [run_app, deleteEmail_resume, ha, Outcome.andThen, loadEmails, done]
  · simp [run_pending, deleteEmail_resume, ha, Outcome.andThen, loadEmails, done,
      Effect.request]

/-- C11, as stated, fails. When the star call is answered with `success: false` nothing
follows; when it fails on the network only the error is logged; when the delete call is
answered with `success: false` or fails on the network only an alert is shown. No list
request is sent in any of the four cases. -/
theorem no_refresh_after_failure :
    (toggleStar_resume cachedSeven (.resolved failedAck)).effects = []
    ∧ (toggleStar_resume cachedSeven .rejected).effects = [.consoleError "标记星标错误:"]
    ∧ (deleteEmail_resume cachedSeven (.resolved failedAck)).effects
        = [.showAlert "邮件不存在" "danger"]
    ∧ (deleteEmail_resume cachedSeven .rejected).effects
        = [.consoleError "删除邮件错误:", .showAlert "删除失败" "danger"] := by
  decide

/-- C11, amended. After `toggleStar` or a confirmed `deleteEmail` has sent its call, the
continuation sends the list request of `loadEmails`, for the current folder and page,
exactly when the answer says that the call succeeded; on a failure answer and on a
network error it sends no request. -/
theorem refresh_follows_success_only (s : SwiftPostApp) (o : FetchOutcome Ack) :
    (toggleStar_resume s o).effects.filterMap Effect.request
        = (if succeeded o then [.emails s.currentFolder s.currentPage] else [])
    ∧ (deleteEmail_resume s o).effects.filterMap Effect.request
        = (if succeeded o then [.emails s.currentFolder s.currentPage] else []) := by
  cases o with
  | rejected => exact ⟨rfl, rfl⟩
  | resolved r =>
    cases hj : r.json with
    | none =>
      simp [toggleStar_resume, deleteEmail_resume, succeeded, hj, done, Effect.request]
    | some data =>
      cases hs : data.success <;>
        simp [toggleStar_resume, deleteEmail_resume, succeeded, hj, hs, done, loadEmails,
          Outcome.andThen, Effect.request]

/-- C12, as stated, fails. Emails 7 and 8 are cached; a refresh is in flight when the
delete of 7 is confirmed and succeeds; the answer of the following refresh (without 7)
arrives first and the answer of the earlier refresh (taken before the delete, with 7)
arrives last: the cache ends with an entry 7. -/
theorem late_refresh_brings_back_deleted :
    ∃ w : World,
      steps loggedIn
        [.settle 1 (.emails (.resolved (okEmails [sampleEmail 7 false, sampleEmail 8 false] 2))),
         .refresh, .deleteEmail 7 true, .settle 2 (.ack (.resolved okAck)),
         .settle 2 (.emails (.resolved (okEmails [sampleEmail 8 false] 1))),
         .settle 1 (.emails (.resolved (okEmails [sampleEmail 7 false, sampleEmail 8 false] 2)))]
        = some w
      ∧ w.app.emails.map Email.id = [7, 8] ∧ w.pending = [.stats] := by
  refine ⟨_, rfl, ?_, ?_⟩ <;> decide

/-- C12, amended. With a list request in flight at position `i`, a confirmed delete
that succeeds is followed by a second list request; both answers are applied as they
arrive, so the cache ends with the list of the answer that arrives last. When the
answer of the following refresh arrives last and has no entry with the deleted id, the
cache has none; when the answer of the earlier refresh arrives last, its list stays. -/
theorem last_refresh_answer_stays (w : World) (i : Nat) (folder : String) (page : Int)
    (emailId : Nat) (a : HttpResponse Ack) (m : Option String)
    (rR rF : HttpResponse EmailsData) (dR dF : EmailsData)
    (hp : w.pending[i]? = some (.emails folder page))
    (ha : a.json = some { success := true, message := m })
    (hRok : rR.ok = true) (hRj : rR.json = some dR)
    (hFok : rF.ok = true) (hFj : rF.json = some dF) :
    (∃ w1 : World,
      steps w [.deleteEmail emailId true, .settle w.pending.length (.ack (.resolved a)),
        .settle i (.emails (.resolved rR)),
        .settle (w.pending.length - 1) (.emails (.resolved rF))] = some w1
      ∧ w1.app.emails = dF.emails.getD []
      ∧ ((∀ e ∈ dF.emails.getD [], e.id ≠ emailId) → ∀ e ∈ w1.app.emails, e.id ≠ emailId))
    ∧ (∃ w2 : World,
      steps w [.deleteEmail emailId true, .settle w.pending.length (.ack (.resolved a)),
        .settle w.pending.length (.emails (.resolved rF)),
        .settle i (.emails (.resolved rR))] = some w2
      ∧ w2.app.emails = dR.emails.getD []) := by
  obtain ⟨w0, h0, ha0, hp0⟩ := delete_then_ack w emailId a m ha
  have hi : i < w.pending.length := (List.getElem?_eq_some_iff.mp hp).1
  constructor
  · obtain ⟨w1, h1, ha1, hp1⟩ := settle_emails_ok w0 i folder page rR dR
      (by rw [hp0, List.getElem?_append_left hi]; exact hp) hRok hRj
    have hp1b : w1.pending = w.pending.eraseIdx i
        ++ [.emails w.app.currentFolder w.app.currentPage] := by
      rw [hp1, hp0, List.eraseIdx_append_of_lt_length hi]
    obtain ⟨w2, h2, ha2, _⟩ := settle_emails_ok w1 (w.pending.length - 1)
      w.app.currentFolder w.app.currentPage rF dF
      (by
        rw [hp1b]
        have hl : (w.pending.eraseIdx i).length = w.pending.length - 1 :=
          List.length_eraseIdx_of_lt hi
        rw [← hl]
        exact List.getElem?_concat_length _ _) hFok hFj
    refine ⟨w2, ?_, by rw [ha2], ?_⟩
    · have := steps_append
        [.deleteEmail emailId true, .settle w.pending.length (.ack (.resolved a))]
        [.settle i (.emails (.resolved rR)),
          .settle (w.pending.length - 1) (.emails (.resolved rF))] w
      simp only [List.cons_append, List.nil_append] at this
      rw [this, h0]
      simp only [Option.bind, steps, h1, h2]
    · intro h e he
      rw [ha2] at he
      exact h e he
  · obtain ⟨w1, h1, ha1, hp1⟩ := settle_emails_ok w0 w.pending.length
      w.app.currentFolder w.app.currentPage rF dF
      (by rw [hp0]; exact List.getElem?_concat_length _ _) hFok hFj
    have hp1b : w1.pending = w.pending := by
      rw [hp1, hp0, eraseIdx_concat_length]
    obtain ⟨w2, h2, ha2, _⟩ := settle_emails_ok w1 i folder page rR dR
      (by rw [hp1b]; exact hp) hRok hRj
    refine ⟨w2, ?_, by rw [ha2]⟩
    have := steps_append
      [.deleteEmail emailId true, .settle w.pending.length (.ack (.resolved a))]
      [.settle w.pending.length (.emails (.resolved rF)),
        .settle i (.emails (.resolved rR))] w
    simp only [List.cons_append, List.nil_append] at this
    rw [this, h0]
    simp only [Option.bind, steps, h1, h2]

/-- The amended C12 on the loaded page, whose first list request is still in flight. -/
theorem last_refresh_answer_stays_witness :
    ∃ w1 : World,
      steps loggedIn [.deleteEmail 7 true, .settle loggedIn.pending.length (.ack (.resolved okAck)),
        .settle 1 (.emails (.resolved (okEmails [sampleEmail 7 false, sampleEmail 8 false] 2))),
        .settle (loggedIn.pending.length - 1)
          (.emails (.resolved (okEmails [sampleEmail 8 false] 1)))] = some w1
      ∧ w1.app.emails = (some [sampleEmail 8 false]).getD [] :=
  match (last_refresh_answer_stays loggedIn 1 "inbox" 1 7 okAck none
    (okEmails [sampleEmail 7 false, sampleEmail 8 false] 2) (okEmails [sampleEmail 8 false] 1)
    { emails := some [sampleEmail 7 false, sampleEmail 8 false],
      pagination := some { total := some 2 } }
    { emails := some [sampleEmail 8 false], pagination := some { total := some 1 } }
    (by decide) rfl (by decide) rfl (by decide) rfl).1 with
  | ⟨w1, h1, h2, _⟩ => ⟨w1, h1, h2⟩

/-! ## Compose form: escaping and the parse of attributes -/

theorem headRef_cons_ne (c : Char) (xs : List Char) (h : c ≠ '&') :
    headRef (c :: xs) = none := by
  have h1 : (('&' : Char) == c) = false := by
    simp only [beq_eq_false_iff_ne, ne_eq]
    exact fun e => h e.symm
  simp [headRef, List.isPrefixOf, h1]

theorem decodeFuel_cons_ne (n : Nat) (c : Char) (xs : List Char) (h : c ≠ '&') :
    decodeFuel (n + 1) (c :: xs) = c :: decodeFuel n xs := by
  simp only [decodeFuel, headRef_cons_ne c xs h]

theorem decodeFuel_escapeChars (cs : List Char) : ∀ n : Nat, (escapeChars cs).length ≤ n →
    decodeFuel n (escapeChars cs) = cs := by
  induction cs with
  | nil => intro n _; cases n <;> rfl
  | cons c rest ih =>
    intro n hn
    simp only [escapeChars] at hn ⊢
    split_ifs at hn ⊢ with h1 h2 h3 h4
    · subst h1
      obtain ⟨m, rfl⟩ : ∃ m, n = m + 1 := ⟨n - 1, by simp at hn; omega⟩
      have : headRef ("&amp;".data ++ escapeChars rest) = some ('&', escapeChars rest) := by
        simp [headRef, List.isPrefixOf]
      simp only [decodeFuel, this]
      rw [ih m (by simp at hn; omega)]
    · subst h2
      obtain ⟨m, rfl⟩ : ∃ m, n = m + 1 := ⟨n - 1, by simp at hn; omega⟩
      have : headRef ("&nbsp;".data ++ escapeChars rest)
          = some (Char.ofNat 160, escapeChars rest) := by
        simp [headRef, List.isPrefixOf]
      simp only [decodeFuel, this]
      rw [ih m (by simp at hn; omega)]
    · subst h3
      obtain ⟨m, rfl⟩ : ∃ m, n = m + 1 := ⟨n - 1, by simp at hn; omega⟩
      have : headRef ("&lt;".data ++ escapeChars rest) = some ('<', escapeChars rest) := by
        simp [headRef, List.isPrefixOf]
      simp only [decodeFuel, this]
      rw [ih m (by simp at hn; omega)]
    · subst h4
      obtain ⟨m, rfl⟩ : ∃ m, n = m + 1 := ⟨n - 1, by simp at hn; omega⟩
      have : headRef ("&gt;".data ++ escapeChars rest) = some ('>', escapeChars rest) := by
        simp [headRef, List.isPrefixOf]
      simp only [decodeFuel, this]
      rw [ih m (by simp at hn; omega)]
    · obtain ⟨m, rfl⟩ : ∃ m, n = m + 1 := ⟨n - 1, by simp at hn; omega⟩
      rw [decodeFuel_cons_ne m c _ h1, ih m (by simp at hn; omega)]

theorem decodeRefs_escapeChars (cs : List Char) : decodeRefs (escapeChars cs) = cs :=
  decodeFuel_escapeChars cs _ (Nat.le_refl _)

theorem takeWhile_escapeChars (cs : List Char) (h : doubleQuote ∉ cs) :
    (escapeChars cs).takeWhile (fun c => c != doubleQuote) = escapeChars cs := by
  induction cs with
  | nil => rfl
  | cons c rest ih =>
    have hc : c ≠ doubleQuote := fun e => h (by simp [e])
    have hr : doubleQuote ∉ rest := fun e => h (List.mem_cons_of_mem _ e)
    have ih := ih hr
    simp only [escapeChars]
    split_ifs with h1 h2 h3 h4
    · show List.takeWhile _ ('&' :: 'a' :: 'm' :: 'p' :: ';' :: escapeChars rest) = _
      simp only [List.takeWhile_cons, ih]
      rfl
    · show List.takeWhile _ ('&' :: 'n' :: 'b' :: 's' :: 'p' :: ';' :: escapeChars rest) = _
      simp only [List.takeWhile_cons, ih]
      rfl
    · show List.takeWhile _ ('&' :: 'l' :: 't' :: ';' :: escapeChars rest) = _
      simp only [List.takeWhile_cons, ih]
      rfl
    · show List.takeWhile _ ('&' :: 'g' :: 't' :: ';' :: escapeChars rest) = _
      simp only [List.takeWhile_cons, ih]
      rfl
    · simp [List.takeWhile_cons, ih, hc]

theorem normalizeFrom_return (f : Bool) (rest : List Char) :
    normalizeFrom f (carriageReturn :: rest) = lineFeed :: normalizeFrom true rest := by
  simp [normalizeFrom]

theorem normalizeFrom_feed (f : Bool) (rest : List Char) :
    normalizeFrom f (lineFeed :: rest)
      = if f then normalizeFrom false rest else lineFeed :: normalizeFrom false rest := by
  have h : lineFeed ≠ carriageReturn := by decide
  simp [normalizeFrom, h]

theorem normalizeFrom_other (f : Bool) (c : Char) (rest : List Char)
    (h1 : c ≠ carriageReturn) (h2 : c ≠ lineFeed) :
    normalizeFrom f (c :: rest) = c :: normalizeFrom false rest := by
  simp [normalizeFrom, h1, h2]

theorem normalizeFrom_of_not_mem (cs : List Char) (h : carriageReturn ∉ cs) :
    normalizeFrom false cs = cs := by
  induction cs with
  | nil => rfl
  | cons c rest ih =>
    have hc : c ≠ carriageReturn := fun e => h (by simp [e])
    have hr : carriageReturn ∉ rest := fun e => h (List.mem_cons_of_mem _ e)
    by_cases hl : c = lineFeed
    · subst hl
      rw [normalizeFrom_feed, ih hr]
      rfl
    · rw [normalizeFrom_other _ _ _ hc hl, ih hr]

theorem normalizeFrom_head (b : List Char) (h : b.head? ≠ some lineFeed) :
    normalizeFrom true b = normalizeFrom false b := by
  cases b with
  | nil => rfl
  | cons c rest =>
    have hc : c ≠ lineFeed := fun e => h (by simp [e])
    by_cases hr : c = carriageReturn
    · subst hr
      rw [normalizeFrom_return, normalizeFrom_return]
    · rw [normalizeFrom_other _ _ _ hr hc, normalizeFrom_other _ _ _ hr hc]

theorem endsWithReturn_cons (f : Bool) (c : Char) (rest : List Char) :
    endsWithReturn f (c :: rest) = endsWithReturn (decide (c = carriageReturn)) rest := by
  cases rest with
  | nil => rfl
  | cons d rest2 =>
    simp only [endsWithReturn, List.getLast?_cons_cons]
    cases h : (d :: rest2).getLast? with
    | none => exact absurd (List.getLast?_eq_none_iff.mp h) (by simp)
    | some x => rfl

theorem normalizeFrom_append (a b : List Char) : ∀ f : Bool,
    normalizeFrom f (a ++ b) = normalizeFrom f a ++ normalizeFrom (endsWithReturn f a) b := by
  induction a with
  | nil => intro f; rfl
  | cons c rest ih =>
    intro f
    rw [endsWithReturn_cons, List.cons_append]
    by_cases hc : c = carriageReturn
    · subst hc
      rw [normalizeFrom_return, normalizeFrom_return, ih]
      rfl
    · rw [decide_eq_false hc]
      by_cases hl : c = lineFeed
      · subst hl
        rw [normalizeFrom_feed, normalizeFrom_feed, ih]
        cases f <;> rfl
      · rw [normalizeFrom_other _ _ _ hc hl, normalizeFrom_other _ _ _ hc hl, ih]
        rfl

theorem textareaValue_of_not_mem (a : String) (h : carriageReturn ∉ a.data) :
    textareaValue a = a := by
  apply String.ext
  exact normalizeFrom_of_not_mem _ h

/-- Normalizing newlines goes through an append when the second text does not start with
a line feed. -/
theorem textareaValue_append_head (a b : String) (h : b.data.head? ≠ some lineFeed) :
    textareaValue (a ++ b) = textareaValue a ++ textareaValue b := by
  apply String.ext
  simp only [textareaValue, normalizeNewlines, String.data_append]
  rw [normalizeFrom_append]
  cases endsWithReturn false a.data
  · rfl
  · rw [normalizeFrom_head _ h]

/-- Normalizing newlines goes through an append when the first text is not empty and
does not end with a carriage return. -/
theorem textareaValue_append_last (a b : String) (c : Char) (h : a.data.getLast? = some c)
    (hc : c ≠ carriageReturn) :
    textareaValue (a ++ b) = textareaValue a ++ textareaValue b := by
  apply String.ext
  simp only [textareaValue, normalizeNewlines, String.data_append]
  rw [normalizeFrom_append]
  simp [endsWithReturn, h, hc]

theorem escapeChars_not_mem (x : Char) (cs : List Char) (h : x ∉ cs)
    (hx : x ∉ "&amp;nbsp;lt;gt;".data) : x ∉ escapeChars cs := by
  induction cs with
  | nil => simp [escapeChars]
  | cons c rest ih =>
    have hc : x ≠ c := fun e => h (by simp [e])
    have hr : x ∉ rest := fun e => h (List.mem_cons_of_mem _ e)
    have ih := ih hr
    simp only [String.data, List.mem_cons, not_or] at hx
    simp only [escapeChars]
    split_ifs <;> simp [ih, hc, hx]

theorem map_replaceNull (cs : List Char) (h : Char.ofNat 0 ∉ cs) : cs.map replaceNull = cs := by
  induction cs with
  | nil => rfl
  | cons c rest ih =>
    have hc : c ≠ Char.ofNat 0 := fun e => h (by simp [e])
    have hr : Char.ofNat 0 ∉ rest := fun e => h (List.mem_cons_of_mem _ e)
    simp [replaceNull, hc, ih hr]

/-- A text without a double quote, a carriage return or a null character comes back
unchanged from `escapeHtml` followed by the parse of the attribute. -/
theorem attributeValue_escapeHtml (x : String) (h : doubleQuote ∉ x.data)
    (hr : carriageReturn ∉ x.data) (h0 : Char.ofNat 0 ∉ x.data) :
    attributeValue (escapeHtml (some x)) = x := by
  apply String.ext
  simp only [attributeValue, escapeHtml, Option.getD_some, normalizeNewlines]
  rw [normalizeFrom_of_not_mem _ (escapeChars_not_mem _ _ hr (by decide)),
    takeWhile_escapeChars _ h, decodeRefs_escapeChars, map_replaceNull _ h0]

/-! ## Compose form: reply and forward -/

theorem splitLines_ne_nil (cs : List Char) : splitLines cs ≠ [] := by
  cases cs with
  | nil => simp [splitLines]
  | cons c rest =>
    simp only [splitLines]
    split
    · simp
    · split <;> simp

theorem splitLines_quoteLines (cs : List Char) :
    splitLines (quoteLines cs)
      = match splitLines cs with
        | [] => []
        | l :: ls => l :: ls.map (fun x => '>' :: ' ' :: x) := by
  induction cs with
  | nil => rfl
  | cons c rest ih =>
    have hne := splitLines_ne_nil rest
    by_cases hc : c = lineFeed
    · subst hc
      have h1 : ('>' : Char) ≠ lineFeed := by decide
      have h2 : (' ' : Char) ≠ lineFeed := by decide
      simp only [quoteLines, splitLines, if_true, if_neg h1, if_neg h2, ih]
      cases h : splitLines rest with
      | nil => exact absurd h hne
      | cons l ls => simp
    · simp only [quoteLines, splitLines, if_neg hc, ih]
      cases h : splitLines rest with
      | nil => exact absurd h hne
      | cons l ls => simp

/-- The quoted block, split on line feeds, is the list of the lines of the text, each
with the marker in front. -/
theorem splitLines_quoted (cs : List Char) :
    splitLines ('>' :: ' ' :: quoteLines cs)
      = (splitLines cs).map (fun x => '>' :: ' ' :: x) := by
  have h1 : ('>' : Char) ≠ lineFeed := by decide
  have h2 : (' ' : Char) ≠ lineFeed := by decide
  have hq := splitLines_quoteLines cs
  have hne := splitLines_ne_nil cs
  simp only [splitLines, if_neg h1, if_neg h2, hq]
  cases h : splitLines cs with
  | nil => exact absurd h hne
  | cons l ls => simp

theorem joinLines_splitLines (cs : List Char) : joinLines (splitLines cs) = cs := by
  induction cs with
  | nil => rfl
  | cons c rest ih =>
    have hne := splitLines_ne_nil rest
    by_cases hc : c = lineFeed
    · subst hc
      simp only [splitLines, if_true]
      cases h : splitLines rest with
      | nil => exact absurd h hne
      | cons l ls =>
        rw [h] at ih
        simp [joinLines, ih]
    · simp only [splitLines, if_neg hc]
      cases h : splitLines rest with
      | nil => exact absurd h hne
      | cons l ls =>
        rw [h] at ih
        cases ls with
        | nil => simpa [joinLines] using ih
        | cons l2 ls2 =>
          simp only [joinLines, List.cons_append] at ih ⊢
          rw [ih]

theorem attributeValue_reply_mark (x : String) :
    attributeValue ("Re: " ++ x) = "Re: " ++ attributeValue x := by
  apply String.ext
  have h : ("Re: " ++ x).data = 'R' :: 'e' :: ':' :: ' ' :: x.data := rfl
  simp only [attributeValue, h, String.data_append, normalizeNewlines]
  rw [normalizeFrom_other _ _ _ (by decide) (by decide),
    normalizeFrom_other _ _ _ (by decide) (by decide),
    normalizeFrom_other _ _ _ (by decide) (by decide),
    normalizeFrom_other _ _ _ (by decide) (by decide)]
  have h1 : (('R' : Char) != doubleQuote) = true := by decide
  have h2 : (('e' : Char) != doubleQuote) = true := by decide
  have h3 : ((':' : Char) != doubleQuote) = true := by decide
  have h4 : ((' ' : Char) != doubleQuote) = true := by decide
  simp only [List.takeWhile_cons, h1, h2, h3, h4, if_true]
  simp only [decodeRefs, List.length_cons]
  rw [decodeFuel_cons_ne _ _ _ (by decide), decodeFuel_cons_ne _ _ _ (by decide),
    decodeFuel_cons_ne _ _ _ (by decide), decodeFuel_cons_ne _ _ _ (by decide)]
  rfl

theorem textValue_reply_mark (x : String) : textValue ("Re: " ++ x) = "Re: " ++ textValue x := by
  apply String.ext
  have h : ("Re: " ++ x).data = 'R' :: 'e' :: ':' :: ' ' :: x.data := rfl
  simp only [textValue, h, stripNewlines, String.data_append]
  rfl

theorem textValue_of_not_mem (x : String) (h1 : lineFeed ∉ x.data)
    (h2 : carriageReturn ∉ x.data) : textValue x = x := by
  apply String.ext
  simp only [textValue, stripNewlines]
  rw [List.filter_eq_self]
  intro c hc
  have e1 : c ≠ lineFeed := fun e => h1 (e ▸ hc)
  have e2 : c ≠ carriageReturn := fun e => h2 (e ▸ hc)
  simp [e1, e2]

theorem splitCommas_ne_nil (cs : List Char) : splitCommas cs ≠ [] := by
  cases cs with
  | nil => simp [splitCommas]
  | cons c rest =>
    simp only [splitCommas]
    split
    · simp
    · split <;> simp

theorem joinCommas_splitCommas (cs : List Char) : joinCommas (splitCommas cs) = cs := by
  induction cs with
  | nil => rfl
  | cons c rest ih =>
    have hne := splitCommas_ne_nil rest
    by_cases hc : c = ','
    · subst hc
      simp only [splitCommas, if_true]
      cases h : splitCommas rest with
      | nil => exact absurd h hne
      | cons l ls =>
        rw [h] at ih
        simp [joinCommas, ih]
    · simp only [splitCommas, if_neg hc]
      cases h : splitCommas rest with
      | nil => exact absurd h hne
      | cons l ls =>
        rw [h] at ih
        cases ls with
        | nil => simpa [joinCommas] using ih
        | cons l2 ls2 =>
          simp only [joinCommas, List.cons_append] at ih ⊢
          rw [ih]

theorem mem_splitCommas (cs : List Char) : ∀ t ∈ splitCommas cs, ∀ c ∈ t, c ∈ cs := by
  induction cs with
  | nil => intro t ht c hc; simp [splitCommas] at ht; subst ht; simp at hc
  | cons d rest ih =>
    intro t ht c hc
    simp only [splitCommas] at ht
    split_ifs at ht with hd
    · rcases List.mem_cons.mp ht with e | e
      · subst e; simp at hc
      · exact List.mem_cons_of_mem _ (ih t e c hc)
    · cases h : splitCommas rest with
      | nil => exact absurd h (splitCommas_ne_nil rest)
      | cons l ls =>
        rw [h] at ht ih
        rcases List.mem_cons.mp ht with e | e
        · subst e
          rcases List.mem_cons.mp hc with e2 | e2
          · subst e2; exact List.mem_cons_self _ _
          · exact List.mem_cons_of_mem _ (ih l (List.mem_cons_self _ _) c e2)
        · exact List.mem_cons_of_mem _ (ih t (List.mem_cons_of_mem _ e) c hc)

theorem dropWhile_of_none (p : Char → Bool) (cs : List Char) (h : ∀ c ∈ cs, p c = false) :
    cs.dropWhile p = cs := by
  cases cs with
  | nil => rfl
  | cons c rest => simp [List.dropWhile, h c (List.mem_cons_self _ _)]

theorem stripAsciiWhitespace_of_none (cs : List Char)
    (h : ∀ c ∈ cs, isAsciiWhitespace c = false) : stripAsciiWhitespace cs = cs := by
  unfold stripAsciiWhitespace
  rw [dropWhile_of_none _ _ h, dropWhile_of_none _ _ (fun c hc => h c (List.mem_reverse.mp hc)),
    List.reverse_reverse]

/-- A text without ASCII whitespace is the value of the address field as it is. -/
theorem emailListValue_of_none (x : String) (h : ∀ c ∈ x.data, isAsciiWhitespace c = false) :
    emailListValue x = x := by
  apply String.ext
  simp only [emailListValue]
  have : (splitCommas x.data).map stripAsciiWhitespace = splitCommas x.data := by
    conv_rhs => rw [← List.map_id (splitCommas x.data)]
    apply List.map_congr_left
    intro t ht
    exact stripAsciiWhitespace_of_none t (fun c hc => h c (mem_splitCommas _ t ht c hc))
  rw [this, joinCommas_splitCommas]

/-- The text of `quotedText`: a first empty line, an empty line, the rule, the line
naming the date and the sender, an empty line, then the lines of the body, in order,
each with the marker in front. -/
theorem quotedText_lines (toLocaleString : Option String → String) (email : ComposeSource)
    (body : String) :
    quotedText toLocaleString email body
      = "\n\n" ++ dashes ++ "\n在 " ++ toLocaleString email.created_at ++ "，"
        ++ interpolate email.sender_name ++ " 写道：\n\n"
        ++ String.mk (joinLines ((splitLines body.data).map (fun l => '>' :: ' ' :: l)))
        ++ "\n" := by
  have h1 : joinLines ((splitLines body.data).map (fun l => '>' :: ' ' :: l))
      = '>' :: ' ' :: quoteLines body.data := by
    rw [← splitLines_quoted, joinLines_splitLines]
  have h2 : (" 写道：\n\n> " : String) = " 写道：\n\n" ++ "> " := by decide
  have h3 : "> " ++ String.mk (quoteLines body.data)
      = String.mk ('>' :: ' ' :: quoteLines body.data) := rfl
  rw [h1, ← h3, quotedText, h2]
  simp only [String.append_assoc]

theorem quoteLines_not_mem_return (cs : List Char) (h : carriageReturn ∉ cs) :
    carriageReturn ∉ quoteLines cs := by
  induction cs with
  | nil => simp [quoteLines]
  | cons c rest ih =>
    have hc : carriageReturn ≠ c := fun e => h (by simp [e])
    have hr : carriageReturn ∉ rest := fun e => h (List.mem_cons_of_mem _ e)
    have ih := ih hr
    have h1 : carriageReturn ≠ lineFeed := by decide
    have h2 : carriageReturn ≠ '>' := by decide
    have h3 : carriageReturn ≠ ' ' := by decide
    simp only [quoteLines]
    split_ifs <;> simp [ih, hc, h1, h2, h3]

/-- The text of `quotedText` has no carriage return when the date, the sender name and
the body have none. -/
theorem quotedText_not_mem_return (toLocaleString : Option String → String)
    (email : ComposeSource) (body : String)
    (h1 : carriageReturn ∉ (toLocaleString email.created_at).data)
    (h2 : carriageReturn ∉ (interpolate email.sender_name).data)
    (h3 : carriageReturn ∉ body.data) :
    carriageReturn ∉ (quotedText toLocaleString email body).data := by
  have h4 := quoteLines_not_mem_return _ h3
  have e1 : carriageReturn ∉ ("\n\n" : String).data := by decide
  have e2 : carriageReturn ∉ dashes.data := by decide
  have e3 : carriageReturn ∉ ("\n在 " : String).data := by decide
  have e4 : carriageReturn ∉ ("，" : String).data := by decide
  have e5 : carriageReturn ∉ (" 写道：\n\n> " : String).data := by decide
  have e6 : carriageReturn ∉ ("\n" : String).data := by decide
  simp only [quotedText, String.data_append, List.mem_append, not_or]
  exact ⟨⟨⟨⟨⟨⟨⟨⟨e1, e2⟩, e3⟩, h1⟩, e4⟩, h2⟩, e5⟩, h4⟩, e6⟩

/-- The value of the body field after `quotedText` was assigned, for a body without a
carriage return: the header with the newlines of the date and of the sender name
normalized, then the lines of the body, each with the marker in front. -/
theorem textareaValue_quotedText (toLocaleString : Option String → String)
    (email : ComposeSource) (body : String) (h : carriageReturn ∉ body.data) :
    textareaValue (quotedText toLocaleString email body)
      = "\n\n" ++ dashes ++ "\n在 " ++ textareaValue (toLocaleString email.created_at) ++ "，"
        ++ textareaValue (interpolate email.sender_name) ++ " 写道：\n\n"
        ++ String.mk (joinLines ((splitLines body.data).map (fun l => '>' :: ' ' :: l)))
        ++ "\n" := by
  have h1 : joinLines ((splitLines body.data).map (fun l => '>' :: ' ' :: l))
      = '>' :: ' ' :: quoteLines body.data := by
    rw [← splitLines_quoted, joinLines_splitLines]
  have hv : carriageReturn ∉ ('>' :: ' ' :: quoteLines body.data ++ [lineFeed]) := by
    have h4 := quoteLines_not_mem_return _ h
    have e1 : carriageReturn ≠ lineFeed := by decide
    have e2 : carriageReturn ≠ '>' := by decide
    have e3 : carriageReturn ≠ ' ' := by decide
    simp [h4, e1, e2, e3]
  have hq : quotedText toLocaleString email body
      = ("\n\n" ++ dashes ++ "\n在 ") ++ (toLocaleString email.created_at ++ ("，"
          ++ (interpolate email.sender_name ++ (" 写道：\n\n"
            ++ String.mk ('>' :: ' ' :: quoteLines body.data ++ [lineFeed]))))) := by
    apply String.ext
    have e : (" 写道：\n\n> " : String).data = (" 写道：\n\n" : String).data ++ ['>', ' '] := by
      decide
    simp only [quotedText, String.data_append, e, List.append_assoc, List.cons_append,
      List.nil_append]
    rfl
  generalize toLocaleString email.created_at = F at hq ⊢
  generalize interpolate email.sender_name = N at hq ⊢
  generalize hV : String.mk ('>' :: ' ' :: quoteLines body.data ++ [lineFeed]) = V at hq
  have hV2 : carriageReturn ∉ V.data := by rw [← hV]; exact hv
  have s1 : textareaValue (("\n\n" ++ dashes ++ "\n在 ") ++ (F ++ ("，"
        ++ (N ++ (" 写道：\n\n" ++ V)))))
      = textareaValue ("\n\n" ++ dashes ++ "\n在 ")
        ++ textareaValue (F ++ ("，" ++ (N ++ (" 写道：\n\n" ++ V)))) :=
    textareaValue_append_last _ _ ' ' (by decide) (by decide)
  have s2 : textareaValue (F ++ ("，" ++ (N ++ (" 写道：\n\n" ++ V))))
      = textareaValue F ++ textareaValue ("，" ++ (N ++ (" 写道：\n\n" ++ V))) := by
    apply textareaValue_append_head
    have e1 : (("，" : String) ++ (N ++ (" 写道：\n\n" ++ V))).data.head? = some '，' := rfl
    rw [e1]
    decide
  have s3 : textareaValue ("，" ++ (N ++ (" 写道：\n\n" ++ V)))
      = textareaValue "，" ++ textareaValue (N ++ (" 写道：\n\n" ++ V)) :=
    textareaValue_append_last _ _ '，' (by decide) (by decide)
  have s4 : textareaValue (N ++ (" 写道：\n\n" ++ V))
      = textareaValue N ++ textareaValue (" 写道：\n\n" ++ V) := by
    apply textareaValue_append_head
    have e1 : ((" 写道：\n\n" : String) ++ V).data.head? = some ' ' := rfl
    rw [e1]
    decide
  have s5 : textareaValue (" 写道：\n\n" ++ V)
      = textareaValue " 写道：\n\n" ++ textareaValue V :=
    textareaValue_append_last _ _ lineFeed (by decide) (by decide)
  have s6 : textareaValue ("\n\n" ++ dashes ++ "\n在 ") = "\n\n" ++ dashes ++ "\n在 " :=
    textareaValue_of_not_mem _ (by decide)
  have s7 : textareaValue "，" = "，" := textareaValue_of_not_mem _ (by decide)
  have s8 : textareaValue " 写道：\n\n" = " 写道：\n\n" :=
    textareaValue_of_not_mem _ (by decide)
  rw [hq, s1, s2, s3, s4, s5, s6, s7, s8, textareaValue_of_not_mem V hV2, ← hV]
  apply String.ext
  simp only [String.data_append, h1, List.append_assoc, List.cons_append, List.nil_append]
  rfl

/-- C13. `forwardEmail` builds the subject `Fw: ` followed by the original subject, but
hands it to `showComposeModal`, which takes every argument other than `null` for a
reply: the dialog is titled as a reply and the subject field gets `Re: ` in front, so
for no message is it `Fw: ` followed by the subject. The recipient field is empty. -/
theorem forward_subject_gets_reply_mark (toLocaleString : Option String → String)
    (m : EmailDetail) :
    (forwardEmail toLocaleString m).title = "回复邮件"
    ∧ (forwardEmail toLocaleString m).recipient = ""
    ∧ (forwardEmail toLocaleString m).subject
        = "Re: " ++ textValue (attributeValue (escapeHtml (some ("Fw: " ++ m.subject))))
    ∧ (forwardEmail toLocaleString m).subject ≠ "Fw: " ++ m.subject
    ∧ (forwardEmail sampleLocale plainMessage).subject = "Re: Fw: Hello" := by
  have hs : (forwardEmail toLocaleString m).subject
      = "Re: " ++ textValue (attributeValue (escapeHtml (some ("Fw: " ++ m.subject)))) := by
    show textValue (attributeValue ("Re: " ++ escapeHtml (some ("Fw: " ++ m.subject)))) = _
    rw [attributeValue_reply_mark, textValue_reply_mark]
  have hr : (forwardEmail toLocaleString m).recipient = "" := by
    show emailListValue (attributeValue (escapeHtml none)) = ""
    decide
  refine ⟨rfl, hr, hs, ?_, by decide⟩
  rw [hs]
  intro h
  have h1 := congrArg (fun s => s.data.head?) h
  have h2 : ("Re: " ++ textValue (attributeValue
      (escapeHtml (some ("Fw: " ++ m.subject))))).data.head? = some 'R' := rfl
  have h3 : ("Fw: " ++ m.subject).data.head? = some 'F' := rfl
  simp only [h2, h3] at h1
  exact absurd h1 (by decide)

set_option maxRecDepth 100000 in
/-- C14. The body that `forwardEmail` builds (header block, then the original body
unchanged) is handed to `showComposeModal` as the body of a message to reply to: the
body field gets the reply header (with an invalid date and the sender `undefined`) and
under it every line of the forwarded text, original body included, with `> ` in
front. The field holds that text with its newlines normalized, which is the text itself
when the date text and the forwarded text have no carriage return. -/
theorem forward_body_gets_quoted (toLocaleString : Option String → String)
    (m : EmailDetail) :
    (forwardEmail toLocaleString m).body
      = textareaValue
        ("\n\n" ++ dashes ++ "\n在 " ++ toLocaleString none ++ "，" ++ "undefined" ++ " 写道：\n\n"
          ++ String.mk (joinLines
              ((splitLines (forwardedBody toLocaleString m).data).map (fun l => '>' :: ' ' :: l)))
          ++ "\n")
    ∧ (carriageReturn ∉ (toLocaleString none).data →
        carriageReturn ∉ (forwardedBody toLocaleString m).data →
        (forwardEmail toLocaleString m).body
          = "\n\n" ++ dashes ++ "\n在 " ++ toLocaleString none ++ "，" ++ "undefined"
            ++ " 写道：\n\n"
            ++ String.mk (joinLines
                ((splitLines (forwardedBody toLocaleString m).data).map
                  (fun l => '>' :: ' ' :: l)))
            ++ "\n")
    ∧ forwardedBody sampleLocale plainMessage
        = "\n\n----------------------------------------\n转发邮件:\n发件人: Ann <ann@example.org>\n日期: 2024-05-01\n收件人: Bob <bob@example.org>\n主题: Hello\n\nline one\nline two\n"
    ∧ (forwardEmail sampleLocale plainMessage).body
        = "\n\n----------------------------------------\n在 Invalid Date，undefined 写道：\n\n> \n> \n> ----------------------------------------\n> 转发邮件:\n> 发件人: Ann <ann@example.org>\n> 日期: 2024-05-01\n> 收件人: Bob <bob@example.org>\n> 主题: Hello\n> \n> line one\n> line two\n> \n" := by
  refine ⟨?_, ?_, by decide, by decide⟩
  · exact congrArg textareaValue (quotedText_lines toLocaleString _ _)
  · intro h1 h2
    have h3 := quotedText_not_mem_return toLocaleString
      { sender_name := none, sender_email := none, subject := some ("Fw: " ++ m.subject),
        body := some (forwardedBody toLocaleString m), created_at := none }
      (forwardedBody toLocaleString m) h1
      (show carriageReturn ∉ ("undefined" : String).data by decide) h2
    exact (textareaValue_of_not_mem _ h3).trans (quotedText_lines toLocaleString _ _)

/-- C15. The subject `He said "hi"` is written unescaped between the double quotes of
the attribute `value` (the getter `innerHTML` leaves double quotes alone), so the parser
ends the value at the first of them: the subject field holds `Re: He said `. For the
plain subject `Hello` the field holds `Re: Hello`, and replying to that gives
`Re: Re: Hello`. -/
theorem reply_subject_cut_at_quote :
    quotingMessage.subject.data
      = "He said ".data ++ [doubleQuote] ++ "hi".data ++ [doubleQuote]
    ∧ (replyToEmail sampleLocale (some quotingMessage)).subject = "Re: He said "
    ∧ (replyToEmail sampleLocale (some quotingMessage)).subject
        ≠ "Re: " ++ quotingMessage.subject
    ∧ (replyToEmail sampleLocale (some quotingMessage)).recipient = "ann@example.org"
    ∧ (replyToEmail sampleLocale (some plainMessage)).subject = "Re: Hello"
    ∧ (replyToEmail sampleLocale
        (some { plainMessage with subject := "Re: Hello" })).subject = "Re: Re: Hello" := by
  decide

/-- The reply fields for a message whose sender address has no double quote, ASCII
whitespace or null character and whose subject has no double quote, line feed, carriage
return or null character: the address, and `Re: ` followed by the subject. -/
theorem reply_fields_without_quote (toLocaleString : Option String → String)
    (m : EmailDetail) (h1 : doubleQuote ∉ m.sender_email.data)
    (h1w : ∀ c ∈ m.sender_email.data, isAsciiWhitespace c = false)
    (h1n : Char.ofNat 0 ∉ m.sender_email.data)
    (h2 : doubleQuote ∉ m.subject.data) (h2l : lineFeed ∉ m.subject.data)
    (h2r : carriageReturn ∉ m.subject.data) (h2n : Char.ofNat 0 ∉ m.subject.data) :
    (replyToEmail toLocaleString (some m)).recipient = m.sender_email
    ∧ (replyToEmail toLocaleString (some m)).subject = "Re: " ++ m.subject := by
  have h1r : carriageReturn ∉ m.sender_email.data := by
    intro h
    have := h1w _ h
    exact absurd this (by decide)
  constructor
  · show emailListValue (attributeValue (escapeHtml (some m.sender_email))) = _
    rw [attributeValue_escapeHtml _ h1 h1r h1n, emailListValue_of_none _ h1w]
  · show textValue (attributeValue ("Re: " ++ escapeHtml (some m.subject))) = _
    rw [attributeValue_reply_mark, attributeValue_escapeHtml _ h2 h2r h2n,
      textValue_reply_mark, textValue_of_not_mem _ h2l h2r]

set_option maxRecDepth 100000 in
/-- C16, as stated, fails. The body field is a `textarea`, and the value it holds has
its newlines normalized. For the body `a`, carriage return, line feed, `b`, whose lines
(split on line feeds) are `a` with the carriage return and `b`, the field holds the
quoted lines `> a` and `> b`: the first is not the original line with the marker in
front, and taking the markers off gives `a`, line feed, `b`, which is not the body. For
the body `a`, carriage return, `b`, which is a single line, the field holds the two lines
`> a` and `b`, the second without marker. -/
theorem reply_body_carriage_returns :
    crlfMessage.body.data = ['a', carriageReturn, lineFeed, 'b']
    ∧ splitLines crlfMessage.body.data = [['a', carriageReturn], ['b']]
    ∧ (replyToEmail sampleLocale (some crlfMessage)).body
        = "\n\n----------------------------------------\n在 2024-05-01，Ann 写道：\n\n> a\n> b\n"
    ∧ splitLines (replyToEmail sampleLocale (some crlfMessage)).body.data
        = ["".data, "".data, dashes.data, "在 2024-05-01，Ann 写道：".data, "".data,
            "> a".data, "> b".data, "".data]
    ∧ ["> a".data, "> b".data]
        ≠ (splitLines crlfMessage.body.data).map (fun l => '>' :: ' ' :: l)
    ∧ joinLines (["> a".data, "> b".data].map (List.drop 2)) = ['a', lineFeed, 'b']
    ∧ joinLines (["> a".data, "> b".data].map (List.drop 2)) ≠ crlfMessage.body.data
    ∧ (replyToEmail sampleLocale (some crlfMessage)).body
        ≠ "\n\n" ++ dashes ++ "\n在 " ++ sampleLocale (some crlfMessage.created_at) ++ "，"
          ++ crlfMessage.sender_name ++ " 写道：\n\n"
          ++ String.mk (joinLines
              ((splitLines crlfMessage.body.data).map (fun l => '>' :: ' ' :: l)))
          ++ "\n"
    ∧ returnMessage.body.data = ['a', carriageReturn, 'b']
    ∧ splitLines returnMessage.body.data = [['a', carriageReturn, 'b']]
    ∧ (replyToEmail sampleLocale (some returnMessage)).body
        = "\n\n----------------------------------------\n在 2024-05-01，Ann 写道：\n\n> a\nb\n"
    ∧ splitLines (replyToEmail sampleLocale (some returnMessage)).body.data
        = ["".data, "".data, dashes.data, "在 2024-05-01，Ann 写道：".data, "".data,
            "> a".data, "b".data, "".data] := by
  decide

/-- C16, amended. For every message whose body has no carriage return, the body field
of the reply form starts with an empty line, names the date of the original and its
sender (with their newlines normalized, so as they are when they have no carriage
return), and ends with the lines of the original body (split on line feeds), in order
and as many as there are, each with `> ` in front; taking the two marker characters off
every quoted line and joining the lines gives the original body back. -/
theorem reply_body_quotes_each_line (toLocaleString : Option String → String)
    (m : EmailDetail) (hcr : carriageReturn ∉ m.body.data) :
    (replyToEmail toLocaleString (some m)).error = none
    ∧ (replyToEmail toLocaleString (some m)).body
        = "\n\n" ++ dashes ++ "\n在 " ++ textareaValue (toLocaleString (some m.created_at))
          ++ "，" ++ textareaValue m.sender_name ++ " 写道：\n\n"
          ++ String.mk (joinLines ((splitLines m.body.data).map (fun l => '>' :: ' ' :: l)))
          ++ "\n"
    ∧ (carriageReturn ∉ (toLocaleString (some m.created_at)).data →
        carriageReturn ∉ m.sender_name.data →
        (replyToEmail toLocaleString (some m)).body
          = "\n\n" ++ dashes ++ "\n在 " ++ toLocaleString (some m.created_at) ++ "，"
            ++ m.sender_name ++ " 写道：\n\n"
            ++ String.mk (joinLines ((splitLines m.body.data).map (fun l => '>' :: ' ' :: l)))
            ++ "\n")
    ∧ splitLines (joinLines ((splitLines m.body.data).map (fun l => '>' :: ' ' :: l)))
        = (splitLines m.body.data).map (fun l => '>' :: ' ' :: l)
    ∧ ((splitLines m.body.data).map (fun l => '>' :: ' ' :: l)).length
        = (splitLines m.body.data).length
    ∧ joinLines (((splitLines m.body.data).map (fun l => '>' :: ' ' :: l)).map (List.drop 2))
        = m.body.data := by
  have hb : (replyToEmail toLocaleString (some m)).body
      = "\n\n" ++ dashes ++ "\n在 " ++ textareaValue (toLocaleString (some m.created_at))
        ++ "，" ++ textareaValue m.sender_name ++ " 写道：\n\n"
        ++ String.mk (joinLines ((splitLines m.body.data).map (fun l => '>' :: ' ' :: l)))
        ++ "\n" :=
    textareaValue_quotedText toLocaleString m.toSource m.body hcr
  refine ⟨rfl, hb, ?_, ?_, by simp, ?_⟩
  · intro h1 h2
    rw [hb, textareaValue_of_not_mem _ h1, textareaValue_of_not_mem _ h2]
  · have h := splitLines_quoted m.body.data
    rw [← h, joinLines_splitLines]
  · have : ((splitLines m.body.data).map (fun l => '>' :: ' ' :: l)).map (List.drop 2)
        = splitLines m.body.data := by
      rw [List.map_map]
      conv_rhs => rw [← List.map_id (splitLines m.body.data)]
      apply List.map_congr_left
      intro l _
      rfl
    rw [this, joinLines_splitLines]

set_option maxRecDepth 100000 in
/-- The amended C16 on a message with the body `line one`, line feed, `line two`. -/
theorem reply_body_quotes_each_line_witness :
    carriageReturn ∉ plainMessage.body.data
    ∧ (replyToEmail sampleLocale (some plainMessage)).body
        = "\n\n----------------------------------------\n在 2024-05-01，Ann 写道：\n\n> line one\n> line two\n"
    ∧ joinLines (((splitLines plainMessage.body.data).map
        (fun l => '>' :: ' ' :: l)).map (List.drop 2)) = plainMessage.body.data :=
  ⟨by decide, by decide,
    (reply_body_quotes_each_line sampleLocale plainMessage (by decide)).2.2.2.2.2⟩

/-! ## Pagination -/

theorem pageNumbers_paginationItems (p tp : Int) :
    pageNumbers (paginationItems p tp)
      = (List.range ((pageWindow p tp).2 - (pageWindow p tp).1 + 1).toNat).map
          (fun k => (pageWindow p tp).1 + (k : Int)) := by
  simp only [pageNumbers, paginationItems, List.filterMap_append, List.filterMap_map]
  have h1 : List.filterMap (fun item => match item with
        | PageItem.number page _ => some page
        | _ => none)
      (if p > 1 then [PageItem.previous (p - 1)] else []) = [] := by
    split_ifs <;> rfl
  have h2 : List.filterMap (fun item => match item with
        | PageItem.number page _ => some page
        | _ => none)
      (if p < tp then [PageItem.next (p + 1)] else []) = [] := by
    split_ifs <;> rfl
  rw [h1, h2, List.nil_append, List.append_nil]
  rw [← List.filterMap_eq_map]
  rfl

theorem previous_mem_paginationItems (p tp t : Int) :
    PageItem.previous t ∈ paginationItems p tp ↔ p > 1 ∧ t = p - 1 := by
  simp only [paginationItems, List.mem_append, List.mem_map]
  constructor
  · rintro ((h | ⟨k, _, hk⟩) | h)
    · split_ifs at h with hp
      · simp at h; exact ⟨hp, h⟩
      · simp at h
    · cases hk
    · split_ifs at h <;> simp at h
  · rintro ⟨hp, rfl⟩
    exact Or.inl (Or.inl (by simp [hp]))

theorem next_mem_paginationItems (p tp t : Int) :
    PageItem.next t ∈ paginationItems p tp ↔ p < tp ∧ t = p + 1 := by
  simp only [paginationItems, List.mem_append, List.mem_map]
  constructor
  · rintro ((h | ⟨k, _, hk⟩) | h)
    · split_ifs at h <;> simp at h
    · cases hk
    · split_ifs at h with hp
      · simp at h; exact ⟨hp, h⟩
      · simp at h
  · rintro ⟨hp, rfl⟩
    exact Or.inr (by simp [hp])

theorem renderPagination_several (dom : Dom) (s : SwiftPostApp) (hdom : dom.pagination = true)
    (h : 2 ≤ totalPages s.totalEmails) :
    (renderPagination dom s).effects
      = [.setPagination (paginationItems s.currentPage (totalPages s.totalEmails))] := by
  have h1 : ¬ totalPages s.totalEmails ≤ 1 := by omega
  simp [renderPagination, hdom, h1, done]

theorem pageWindow_bounds (p tp : Int) (h1 : 1 ≤ p) (h2 : p ≤ tp) :
    1 ≤ (pageWindow p tp).1 ∧ (pageWindow p tp).1 ≤ p ∧ p ≤ (pageWindow p tp).2
    ∧ (pageWindow p tp).2 ≤ tp ∧ (pageWindow p tp).2 - (pageWindow p tp).1 + 1 ≤ 5
    ∧ (3 ≤ p → p ≤ tp - 2 → (pageWindow p tp).1 = p - 2 ∧ (pageWindow p tp).2 = p + 2) := by
  simp only [pageWindow]
  have e : (5 : Int) / 2 = 2 := by decide
  rw [e]
  split_ifs <;> omega

/-- C17, as stated, fails. With 10 emails in all (one page) and the current page 2,
`renderPagination` empties the pager: no previous control is written although the
current page is greater than 1. -/
theorem no_previous_on_single_page :
    totalPages 10 = 1
    ∧ renderPagination fullDom { cachedSeven with totalEmails := 10, currentPage := 2 }
      = done { cachedSeven with totalEmails := 10, currentPage := 2 } [.setPagination []] := by
  decide

/-- C17, amended. With the pager element in the page, `renderPagination` writes exactly
one list of items. When there are at least two pages it holds a previous control exactly
when the current page is greater than 1 and a next control exactly when the current page
is less than the number of pages; a previous control points to the page before and a next
control to the page after. With one page or none the list is empty, so neither control is
written, whatever the current page. With 45 emails: both controls on page 2, no previous
control on page 1, no next control on page 3. -/
theorem prev_next_controls (dom : Dom) (s : SwiftPostApp) (hdom : dom.pagination = true) :
    ∃ items : List PageItem, (renderPagination dom s).effects = [.setPagination items]
      ∧ (2 ≤ totalPages s.totalEmails →
          ((∃ t, PageItem.previous t ∈ items) ↔ s.currentPage > 1)
          ∧ ((∃ t, PageItem.next t ∈ items) ↔ s.currentPage < totalPages s.totalEmails))
      ∧ (∀ t, PageItem.previous t ∈ items → t = s.currentPage - 1)
      ∧ (∀ t, PageItem.next t ∈ items → t = s.currentPage + 1)
      ∧ (totalPages s.totalEmails ≤ 1 →
          items = [] ∧ (¬ ∃ t, PageItem.previous t ∈ items) ∧ (¬ ∃ t, PageItem.next t ∈ items))
      ∧ ((∃ t, PageItem.previous t ∈ items)
          ↔ s.currentPage > 1 ∧ 2 ≤ totalPages s.totalEmails)
      ∧ ((∃ t, PageItem.next t ∈ items)
          ↔ s.currentPage < totalPages s.totalEmails ∧ 2 ≤ totalPages s.totalEmails)
      ∧ paginationItems 2 (totalPages 45)
          = [.previous 1, .number 1 false, .number 2 true, .number 3 false, .next 3]
      ∧ paginationItems 1 (totalPages 45)
          = [.number 1 true, .number 2 false, .number 3 false, .next 2]
      ∧ paginationItems 3 (totalPages 45)
          = [.previous 2, .number 1 false, .number 2 false, .number 3 true] := by
  by_cases h : totalPages s.totalEmails ≤ 1
  · have he : (renderPagination dom s).effects = [.setPagination []] := by
      simp [renderPagination, hdom, h, done]
    refine ⟨[], he, ?_, ?_, ?_, ?_, ?_, ?_, by decide, by decide, by decide⟩
    · intro h2; omega
    · intro t ht; simp at ht
    · intro t ht; simp at ht
    · intro _; simp
    · constructor
      · rintro ⟨t, ht⟩; simp at ht
      · rintro ⟨_, h2⟩; omega
    · constructor
      · rintro ⟨t, ht⟩; simp at ht
      · rintro ⟨_, h2⟩; omega
  · have h2 : 2 ≤ totalPages s.totalEmails := by omega
    have hp : (∃ t, PageItem.previous t
          ∈ paginationItems s.currentPage (totalPages s.totalEmails)) ↔ s.currentPage > 1 := by
      constructor
      · rintro ⟨t, ht⟩
        exact ((previous_mem_paginationItems _ _ _).mp ht).1
      · intro hp
        exact ⟨_, (previous_mem_paginationItems _ _ _).mpr ⟨hp, rfl⟩⟩
    have hn : (∃ t, PageItem.next t
          ∈ paginationItems s.currentPage (totalPages s.totalEmails))
        ↔ s.currentPage < totalPages s.totalEmails := by
      constructor
      · rintro ⟨t, ht⟩
        exact ((next_mem_paginationItems _ _ _).mp ht).1
      · intro hp
        exact ⟨_, (next_mem_paginationItems _ _ _).mpr ⟨hp, rfl⟩⟩
    refine ⟨_, renderPagination_several dom s hdom h2, fun _ => ⟨hp, hn⟩, ?_, ?_, ?_, ?_, ?_,
      by decide, by decide, by decide⟩
    · intro t ht
      exact ((previous_mem_paginationItems _ _ _).mp ht).2
    · intro t ht
      exact ((next_mem_paginationItems _ _ _).mp ht).2
    · intro h1; exact absurd h1 h
    · rw [hp]; exact ⟨fun x => ⟨x, h2⟩, fun x => x.1⟩
    · rw [hn]; exact ⟨fun x => ⟨x, h2⟩, fun x => x.1⟩

/-- The amended C17 with 45 emails on page 2, where both controls are written, and with
10 emails on page 2, where the list is empty. -/
theorem prev_next_controls_witness :
    (∃ items : List PageItem,
      (renderPagination fullDom { cachedSeven with totalEmails := 45, currentPage := 2 }).effects
        = [.setPagination items]
      ∧ (∃ t, PageItem.previous t ∈ items) ∧ (∃ t, PageItem.next t ∈ items))
    ∧ (∃ items : List PageItem,
      (renderPagination fullDom { cachedSeven with totalEmails := 10, currentPage := 2 }).effects
        = [.setPagination items]
      ∧ items = []) :=
  ⟨match prev_next_controls fullDom
      { cachedSeven with totalEmails := 45, currentPage := 2 } rfl with
    | ⟨items, h1, h2, _⟩ =>
      ⟨items, h1, (h2 (by decide)).1.mpr (by decide), (h2 (by decide)).2.mpr (by decide)⟩,
   match prev_next_controls fullDom
      { cachedSeven with totalEmails := 10, currentPage := 2 } rfl with
    | ⟨items, h1, _, _, _, h5, _⟩ => ⟨items, h1, (h5 (by decide)).1⟩⟩

/-- C18. When there are at least two pages and the current page is one of them, the page
numbers that `renderPagination` writes are the consecutive integers from `start` to
`stop`, with `start` at least 1 and at most the current page, `stop` at least the
current page and at most the number of pages, and at most 5 numbers in all; when the
current page is at least 3 and at most the number of pages minus 2, they are the two
pages before it, the page itself and the two pages after it. -/
theorem page_window_around_current (dom : Dom) (s : SwiftPostApp)
    (hdom : dom.pagination = true) (htp : 2 ≤ totalPages s.totalEmails)
    (h1 : 1 ≤ s.currentPage) (h2 : s.currentPage ≤ totalPages s.totalEmails) :
    ∃ (items : List PageItem) (start stop : Int),
      (renderPagination dom s).effects = [.setPagination items]
      ∧ pageNumbers items
          = (List.range (stop - start + 1).toNat).map (fun k => start + (k : Int))
      ∧ 1 ≤ start ∧ start ≤ s.currentPage ∧ s.currentPage ≤ stop
      ∧ stop ≤ totalPages s.totalEmails ∧ stop - start + 1 ≤ 5
      ∧ (3 ≤ s.currentPage → s.currentPage ≤ totalPages s.totalEmails - 2 →
          start = s.currentPage - 2 ∧ stop = s.currentPage + 2
          ∧ pageNumbers items = [s.currentPage - 2, s.currentPage - 1, s.currentPage,
              s.currentPage + 1, s.currentPage + 2]) := by
  have hb := pageWindow_bounds s.currentPage (totalPages s.totalEmails) h1 h2
  have hn := pageNumbers_paginationItems s.currentPage (totalPages s.totalEmails)
  refine ⟨_, _, _, renderPagination_several dom s hdom htp, hn, hb.1, hb.2.1, hb.2.2.1,
    hb.2.2.2.1, hb.2.2.2.2.1, ?_⟩
  intro h3 h4
  obtain ⟨e1, e2⟩ := hb.2.2.2.2.2 h3 h4
  refine ⟨e1, e2, ?_⟩
  rw [hn, e1, e2]
  have : (s.currentPage + 2 - (s.currentPage - 2) + 1).toNat = 5 := by omega
  rw [this]
  simp [List.range_succ]
  omega

/-- C18 with 200 emails (10 pages) on page 5: the numbers written are 3 to 7. -/
theorem page_window_around_current_witness :
    ∃ (items : List PageItem) (start stop : Int),
      (renderPagination fullDom { cachedSeven with totalEmails := 200, currentPage := 5 }).effects
        = [.setPagination items]
      ∧ pageNumbers items
          = (List.range (stop - start + 1).toNat).map (fun k => start + (k : Int))
      ∧ 1 ≤ start ∧ start ≤ 5 ∧ 5 ≤ stop ∧ stop ≤ totalPages 200 ∧ stop - start + 1 ≤ 5 :=
  match page_window_around_current fullDom
    { cachedSeven with totalEmails := 200, currentPage := 5 } rfl (by decide) (by decide)
    (by decide) with
  | ⟨items, start, stop, h1, h2, h3, h4, h5, h6, h7, _⟩ =>
    ⟨items, start, stop, h1, h2, h3, h4, h5, h6, h7⟩

/-- C19. The number of pages that `renderPagination` uses is the ceiling of the total
divided by 20: the least integer `n` with `20 * n` at least the total (3 for a total of
45). When it is at most 1 the pager is emptied; otherwise the items are those computed
for that number of pages. -/
theorem page_count_is_ceiling (dom : Dom) (s : SwiftPostApp)
    (hdom : dom.pagination = true) (h0 : 0 ≤ s.totalEmails) :
    s.totalEmails ≤ 20 * totalPages s.totalEmails
    ∧ (∀ n : Int, s.totalEmails ≤ 20 * n → totalPages s.totalEmails ≤ n)
    ∧ 0 ≤ totalPages s.totalEmails
    ∧ totalPages 45 = 3
    ∧ (renderPagination dom s).effects
        = (if totalPages s.totalEmails ≤ 1 then [.setPagination []]
          else [.setPagination (paginationItems s.currentPage (totalPages s.totalEmails))])
    ∧ (totalPages s.totalEmails ≤ 1 → (renderPagination dom s).effects = [.setPagination []]) := by
  have hr : (renderPagination dom s).effects
      = (if totalPages s.totalEmails ≤ 1 then [.setPagination []]
        else [.setPagination (paginationItems s.currentPage (totalPages s.totalEmails))]) := by
    simp only [renderPagination, hdom, Bool.not_true, Bool.false_eq_true, if_false, done]
    split_ifs <;> rfl
  refine ⟨?_, ?_, ?_, by decide, hr, ?_⟩
  · simp only [totalPages]; omega
  · intro n hn; simp only [totalPages]; omega
  · simp only [totalPages]; omega
  · intro h; rw [hr, if_pos h]

/-- C19 with 45 emails: 3 pages. -/
theorem page_count_is_ceiling_witness :
    (45 : Int) ≤ 20 * totalPages 45
    ∧ (∀ n : Int, (45 : Int) ≤ 20 * n → totalPages 45 ≤ n) :=
  have h := page_count_is_ceiling fullDom { cachedSeven with totalEmails := 45 } rfl
    (by decide)
  ⟨h.1, h.2.1⟩

/-! ## What the cache can hold -/

/-- The cache after `loadEmails_resume`: the list of the answer when the response is
`ok` and its body parsed, the cache as it was otherwise. -/
theorem emails_loadEmails_resume (dom : Dom) (s : SwiftPostApp)
    (o : FetchOutcome EmailsData) :
    (loadEmails_resume dom s o).app.emails
      = match o with
        | .rejected => s.emails
        | .resolved r =>
          if r.ok then
            match r.json with
            | some data => data.emails.getD []
            | none => s.emails
          else s.emails := by
  cases o with
  | rejected => rfl
  | resolved r =>
    cases hok : r.ok with
    | false =>
      simp only [loadEmails_resume, hok, Bool.not_false, if_true, logout, loadEmails_catch, done,
        Bool.false_eq_true, if_false]
      split_ifs <;> rfl
    | true =>
      cases hj : r.json with
      | none => simp [loadEmails_resume, hok, hj, loadEmails_catch, done]
      | some data =>
        rw [loadEmails_resume_ok dom s r data hok hj]
        simp [hj, hok]

theorem emails_toggleStar_resume (s : SwiftPostApp) (o : FetchOutcome Ack) :
    (toggleStar_resume s o).app.emails = s.emails := by
  simp only [toggleStar_resume, loadEmails, done]
  repeat' (first | rfl | split)

theorem emails_deleteEmail_resume (s : SwiftPostApp) (o : FetchOutcome Ack) :
    (deleteEmail_resume s o).app.emails = s.emails := by
  simp only [deleteEmail_resume, loadEmails, Outcome.andThen, done]
  repeat' (first | rfl | split)

theorem emails_resume (w : World) (p : Pending) (r : Reply) (o : Outcome) (i : Nat)
    (hp : w.pending[i]? = some p) (h : resume w p r = some o) :
    o.app.emails = (applied w (.settle i r)).getD w.app.emails := by
  cases p with
  | emails folder page =>
    cases r with
    | emails o1 =>
      simp only [resume, Option.some.injEq] at h
      subst h
      rw [emails_loadEmails_resume]
      cases o1 with
      | rejected => simp [applied]
      | resolved r =>
        cases hok : r.ok <;> cases hj : r.json <;> simp [applied, hp, hok, hj]
    | ack o1 => simp [resume] at h
    | other => simp [resume] at h
  | star id =>
    cases r with
    | ack o1 =>
      simp only [resume, Option.some.injEq] at h
      subst h
      rw [emails_toggleStar_resume]
      rfl
    | emails o1 => simp [resume] at h
    | other => simp [resume] at h
  | delete id =>
    cases r with
    | ack o1 =>
      simp only [resume, Option.some.injEq] at h
      subst h
      rw [emails_deleteEmail_resume]
      rfl
    | emails o1 => simp [resume] at h
    | other => simp [resume] at h
  | logout =>
    simp only [resume, Option.some.injEq] at h
    subst h
    cases r with
    | emails o1 => cases o1 <;> simp [applied, hp, logout_finally, done]
    | ack o1 => simp [applied, logout_finally, done]
    | other => simp [applied, logout_finally, done]
  | stats =>
    simp only [resume, Option.some.injEq] at h
    subst h
    cases r with
    | emails o1 => cases o1 <;> simp [applied, hp, done]
    | ack o1 => simp [applied, done]
    | other => simp [applied, done]

theorem emails_switchFolder (dom : Dom) (s : SwiftPostApp) (folder : String) :
    (switchFolder dom s folder).app.emails = s.emails := by
  simp only [switchFolder, loadEmails, Outcome.andThen, done, threw]
  repeat' (first | rfl | split)

theorem emails_deleteEmail (s : SwiftPostApp) (emailId : Nat) (confirmed : Bool) :
    (deleteEmail s emailId confirmed).app.emails = s.emails := by
  cases confirmed <;> rfl

theorem emails_connectWebSocket (s : SwiftPostApp) (n : Nat) :
    (connectWebSocket s n).app.emails = s.emails := by
  simp only [connectWebSocket, done]
  split_ifs <;> rfl

theorem emails_handleWebSocketMessage (dom : Dom) (s : SwiftPostApp) (m : Message) :
    (handleWebSocketMessage dom s m).app.emails = s.emails := by
  simp only [handleWebSocketMessage, handleNewEmail, handlePresence, updateUnreadCount,
    loadEmails, Outcome.andThen, done, threw]
  repeat' (first | rfl | split)

theorem emails_onmessage (dom : Dom) (s : SwiftPostApp) (m : Option Message) :
    (onmessage dom s m).app.emails = s.emails := by
  cases m with
  | none => rfl
  | some msg =>
    have h := emails_handleWebSocketMessage dom s msg
    simp only [onmessage]
    split
    · exact h
    · exact h

theorem emails_init (dom : Dom) (s : SwiftPostApp) (n : Nat) :
    (init dom true s n).app.emails = s.emails := by
  cases h1 : truthyToken s.token <;> cases h2 : truthyId s.user_id <;>
    cases h3 : dom.unreadBadge <;>
    simp [init, updateUI, updateUnreadCount, loadEmails, connectWebSocket, Outcome.andThen,
      done, h1, h2, h3]

/-- One event replaces the cached list by the list of the answer it applies, and leaves
it as it was when it applies none. -/
theorem step_emails (w w1 : World) (e : Event) (h : step w e = some w1) :
    w1.app.emails = (applied w e).getD w.app.emails := by
  cases e with
  | switchFolder folder =>
    simp only [step, Option.some.injEq] at h; subst h
    rw [run_app]; exact (emails_switchFolder _ _ _)
  | goToPage page =>
    simp only [step, Option.some.injEq] at h; subst h
    rw [run_app]; rfl
  | refresh =>
    simp only [step, Option.some.injEq] at h; subst h
    rw [run_app]; rfl
  | toggleStar emailId =>
    simp only [step, Option.some.injEq] at h; subst h
    rw [run_app]; rfl
  | deleteEmail emailId confirmed =>
    simp only [step, Option.some.injEq] at h; subst h
    rw [run_app]; exact (emails_deleteEmail _ _ _)
  | logout =>
    simp only [step, Option.some.injEq] at h; subst h
    rw [run_app]; rfl
  | connect =>
    simp only [step, Option.some.injEq] at h; subst h
    rw [run_app]; exact (emails_connectWebSocket _ _)
  | settle i r =>
    simp only [step] at h
    cases hp : w.pending[i]? with
    | none => simp [hp] at h
    | some p =>
      cases ho : resume w p r with
      | none => simp [hp, ho] at h
      | some o =>
        simp only [hp, ho, Option.some.injEq] at h; subst h
        rw [run_app]
        exact emails_resume w p r o i hp ho
  | wsOpen sock =>
    simp only [step] at h
    cases hk : w.sockets[sock]? with
    | none => simp [hk] at h
    | some k =>
      simp only [hk] at h
      split_ifs at h
      simp only [Option.some.injEq] at h; subst h
      rw [run_app]; rfl
  | wsMessage sock message =>
    simp only [step] at h
    cases hk : w.sockets[sock]? with
    | none => simp [hk] at h
    | some k =>
      simp only [hk] at h
      split_ifs at h
      simp only [Option.some.injEq] at h; subst h
      rw [run_app]; exact (emails_onmessage _ _ _)
  | wsError sock =>
    simp only [step] at h
    cases hk : w.sockets[sock]? with
    | none => simp [hk] at h
    | some k =>
      simp only [hk] at h
      split_ifs at h
      simp only [Option.some.injEq] at h; subst h
      rw [run_app]; rfl
  | wsClose sock =>
    simp only [step] at h
    cases hk : w.sockets[sock]? with
    | none => simp [hk] at h
    | some k =>
      simp only [hk] at h
      split_ifs at h
      simp only [Option.some.injEq] at h; subst h
      rw [run_app]; rfl
  | advance ms =>
    simp only [step, Option.some.injEq] at h; subst h
    rfl
  | timerFires j =>
    simp only [step] at h
    cases hk : w.timers[j]? with
    | none => simp [hk] at h
    | some due =>
      simp only [hk] at h
      split_ifs at h
      simp only [Option.some.injEq] at h; subst h
      rw [run_app]; exact (emails_connectWebSocket _ _)

/-- After a run the cached list is the list of the last answer applied in it, or the
list from before the run when no answer was applied. -/
theorem steps_emails (es : List Event) : ∀ w w1 : World, steps w es = some w1 →
    w1.app.emails = ((appliedLists w es).getLast?).getD w.app.emails := by
  induction es with
  | nil => intro w w1 h; simp [steps] at h; subst h; rfl
  | cons e rest ih =>
    intro w w1 h
    simp only [steps] at h
    cases hs : step w e with
    | none => simp [hs] at h
    | some w2 =>
      simp only [hs] at h
      have h1 := ih w2 w1 h
      have h2 := step_emails w w2 e hs
      simp only [appliedLists, hs]
      rw [h1, h2]
      cases ha : applied w e with
      | none => simp
      | some l =>
        cases hl : (appliedLists w2 rest).getLast? with
        | none =>
          have : appliedLists w2 rest = [] := List.getLast?_eq_none_iff.mp hl
          simp [this]
        | some x =>
          have : (l :: appliedLists w2 rest).getLast? = some x := by
            cases hr : appliedLists w2 rest with
            | nil => rw [hr] at hl; simp at hl
            | cons y ys =>
              rw [hr] at hl
              rw [List.getLast?_cons_cons]
              exact hl
          simp [this]

theorem emails_boot (dom : Dom) (token : Option String) (user_id : Option Nat) :
    (boot dom token user_id).app.emails = [] := by
  unfold boot
  rw [run_app, emails_init]
  rfl

/-- C20, as stated, fails. First run, with answers of at most 20 entries: the inbox has
45 emails and the user is on its page 3 when the late answer of an earlier request for
the sent folder (one email, total 1) is applied: the cache is not empty, the current
page is 3 and the total gives one page. Second run: an answer with 21 entries is cached
as it is. -/
theorem cache_bounds_not_kept :
    (∃ w : World,
      steps loggedIn
        [.switchFolder "sent", .switchFolder "inbox",
         .settle 1 (.emails (.resolved (okEmails [sampleEmail 1 false] 45))),
         .settle 2 (.emails (.resolved (okEmails [sampleEmail 1 false] 45))),
         .goToPage 3,
         .settle 1 (.emails (.resolved (okEmails [sampleEmail 50 false] 1)))] = some w
      ∧ w.app.emails = [sampleEmail 50 false] ∧ w.app.currentFolder = "inbox"
      ∧ w.app.currentPage = 3 ∧ totalPages w.app.totalEmails = 1)
    ∧ (∃ w : World,
      steps loggedIn
        [.settle 1 (.emails (.resolved
          (okEmails ((List.range 21).map (fun i => sampleEmail i false)) 21)))] = some w
      ∧ w.app.emails.length = 21) := by
  refine ⟨⟨_, rfl, ?_, ?_, ?_, ?_⟩, ⟨_, rfl, ?_⟩⟩ <;> decide

/-- C20, amended. In every state reached from the loaded page by a run of events, the
cached list is the list of the last answer applied in the run (an answer is applied when
it settles a list request in flight with a response that is `ok` and whose body parsed),
unchanged, or it is empty, as the constructor left it, when the run applied none. So if
every answer applied in the run has at most 20 entries, the cached list has at most 20.
The client keeps no relation between the current page and the number of pages. -/
theorem cache_is_last_applied_answer (dom : Dom) (token : Option String)
    (user_id : Option Nat) (es : List Event) (w : World)
    (hcap : ∀ l ∈ appliedLists (boot dom token user_id) es, l.length ≤ 20)
    (h : steps (boot dom token user_id) es = some w) :
    w.app.emails = ((appliedLists (boot dom token user_id) es).getLast?).getD []
    ∧ (w.app.emails = [] ∨ w.app.emails ∈ appliedLists (boot dom token user_id) es)
    ∧ w.app.emails.length ≤ 20 := by
  have h1 := steps_emails es _ w h
  rw [emails_boot] at h1
  have h2 : w.app.emails = [] ∨ w.app.emails ∈ appliedLists (boot dom token user_id) es := by
    rw [h1]
    cases hl : (appliedLists (boot dom token user_id) es).getLast? with
    | none => exact Or.inl rfl
    | some x => exact Or.inr (List.mem_of_getLast?_eq_some hl)
  refine ⟨h1, h2, ?_⟩
  rcases h2 with h3 | h3
  · simp [h3]
  · exact hcap _ h3

/-- The amended C20 on a run with two answers of 21 entries that are not applied (one
has status 500, the other settles the statistics request) and an applied answer with a
single email. -/
theorem cache_is_last_applied_answer_witness :
    appliedLists loggedIn
      [.goToPage 2,
        .settle 1 (.emails (.resolved
          { okEmails ((List.range 21).map (fun i => sampleEmail i false)) 21 with
            status := 500 })),
        .settle 0 (.emails (.resolved
          (okEmails ((List.range 21).map (fun i => sampleEmail i false)) 21))),
        .settle 0 (.emails (.resolved (okEmails [sampleEmail 4 true] 41)))]
      = [[sampleEmail 4 true]]
    ∧ ∃ w : World,
      steps loggedIn
        [.goToPage 2,
        .settle 1 (.emails (.resolved
          { okEmails ((List.range 21).map (fun i => sampleEmail i false)) 21 with
            status := 500 })),
        .settle 0 (.emails (.resolved
          (okEmails ((List.range 21).map (fun i => sampleEmail i false)) 21))),
        .settle 0 (.emails (.resolved (okEmails [sampleEmail 4 true] 41)))] = some w
      ∧ w.app.emails = [sampleEmail 4 true]
      ∧ w.app.emails.length ≤ 20 :=
  ⟨by decide, _, rfl, by decide,
    (cache_is_last_applied_answer fullDom (some "secret") (some 1)
      [.goToPage 2,
        .settle 1 (.emails (.resolved
          { okEmails ((List.range 21).map (fun i => sampleEmail i false)) 21 with
            status := 500 })),
        .settle 0 (.emails (.resolved
          (okEmails ((List.range 21).map (fun i => sampleEmail i false)) 21))),
        .settle 0 (.emails (.resolved (okEmails [sampleEmail 4 true] 41)))] _
      (by decide) rfl).2.2⟩

/-! ## Navigation between folders and pages -/

/-- C21. For every folder and every prior state, `switchFolder` sets the current folder
to it and the current page to 1 and sends exactly one request, the list request for that
folder, page 1 and limit 20 (followed by the update of the navigation when the folder
has a link, by an exception when it has none); the cached list and total are as before,
and the request is the last one in flight. -/
theorem switchFolder_sets_and_fetches (w : World) (folder : String) :
    (switchFolder w.dom w.app folder).app
      = { w.app with
          currentFolder := folder
          currentPage := 1 }
    ∧ (switchFolder w.dom w.app folder).app.emails = w.app.emails
    ∧ (switchFolder w.dom w.app folder).app.totalEmails = w.app.totalEmails
    ∧ (switchFolder w.dom w.app folder).effects
        = .fetchEmails folder 1 20
          :: (if w.dom.folderNavs.contains folder
              then [.setFolderActive folder, .setTitle (folderName folder ++ " - SwiftPost")]
              else [])
    ∧ (switchFolder w.dom w.app folder).effects.filterMap Effect.request = [.emails folder 1]
    ∧ (∃ w1 : World, step w (.switchFolder folder) = some w1
        ∧ w1.app.emails = w.app.emails ∧ w1.app.totalEmails = w.app.totalEmails
        ∧ w1.app.currentFolder = folder ∧ w1.app.currentPage = 1
        ∧ w1.pending = w.pending ++ [.emails folder 1]) := by
  have he : (switchFolder w.dom w.app folder).effects
      = .fetchEmails folder 1 20
        :: (if w.dom.folderNavs.contains folder
            then [.setFolderActive folder, .setTitle (folderName folder ++ " - SwiftPost")]
            else []) := by
    simp only [switchFolder, loadEmails, Outcome.andThen, done, threw, pageSize]
    split_ifs <;> rfl
  have ha : (switchFolder w.dom w.app folder).app
      = { w.app with
          currentFolder := folder
          currentPage := 1 } := by
    simp only [switchFolder, loadEmails, Outcome.andThen, done, threw]
    split_ifs <;> rfl
  have hr : (switchFolder w.dom w.app folder).effects.filterMap Effect.request
      = [.emails folder 1] := by
    rw [he]
    split_ifs <;> rfl
  refine ⟨ha, by rw [ha], by rw [ha], he, hr, run w (switchFolder w.dom w.app folder), rfl,
    ?_, ?_, ?_, ?_, ?_⟩
  · rw [run_app, ha]
  · rw [run_app, ha]
  · rw [run_app, ha]
  · rw [run_app, ha]
  · rw [run_pending, hr]

/-- C22. For every page and every prior state, `goToPage` sets the current page to it,
leaves the current folder (and every other field) as it was and sends exactly one
request, the list request for the current folder, that page and limit 20. -/
theorem goToPage_sets_and_fetches (w : World) (page : Int) :
    (goToPage w.app page).app = { w.app with currentPage := page }
    ∧ (goToPage w.app page).app.currentFolder = w.app.currentFolder
    ∧ (goToPage w.app page).effects = [.fetchEmails w.app.currentFolder page 20]
    ∧ (goToPage w.app page).error = none
    ∧ (∃ w1 : World, step w (.goToPage page) = some w1
        ∧ w1.app.currentPage = page ∧ w1.app.currentFolder = w.app.currentFolder
        ∧ w1.pending = w.pending ++ [.emails w.app.currentFolder page]) := by
  refine ⟨rfl, rfl, rfl, rfl, run w (goToPage w.app page), rfl, ?_, ?_, ?_⟩
  · rw [run_app]; rfl
  · rw [run_app]; rfl
  · rw [run_pending]; rfl

/-! ## Logout -/

/-- The world after the callback of `logout` has run. -/
theorem step_settle_logout (w : World) (i : Nat) (r : Reply)
    (hp : w.pending[i]? = some .logout) :
    step w (.settle i r)
      = some (run { w with pending := w.pending.eraseIdx i } (logout_finally w.app)) := by
  have hr : resume w .logout r = some (logout_finally w.app) := by cases r <;> rfl
  simp [step, hp, hr]

theorem run_logout_finally (w : World) :
    (run w (logout_finally w.app)).app = w.app
    ∧ (run w (logout_finally w.app)).storage
        = (w.storage.filter (fun x => x != "token")).filter (fun x => x != "user")
    ∧ (run w (logout_finally w.app)).location = some "/login"
    ∧ (run w (logout_finally w.app)).sockets
        = (match w.app.websocket with
          | some sock => updateSocket closing w.sockets sock
          | none => w.sockets) := by
  cases hws : w.app.websocket with
  | none => simp [run, logout_finally, hws, done, absorb]
  | some cur => simp [run, logout_finally, hws, done, absorb]

/-- C23, as stated, fails. Email 7 is cached (total 1) when `logout` is called and its
request settles: the two keys are gone from `localStorage`, the socket is closing and
the page is sent to `/login`, but the cached list and total are what they were. -/
theorem logout_leaves_cache :
    ∃ w : World,
      steps loggedIn
        [.settle 1 (.emails (.resolved (okEmails [sampleEmail 7 false] 1))), .wsOpen 0,
         .logout, .settle 1 .other] = some w
      ∧ w.storage = [] ∧ w.location = some "/login"
      ∧ w.sockets.map Socket.readyState = [.CLOSING]
      ∧ w.app.emails = [sampleEmail 7 false] ∧ w.app.totalEmails = 1 := by
  refine ⟨_, rfl, ?_, ?_, ?_, ?_, ?_⟩ <;> decide

/-- C23, amended. After the callback of `logout` has run, the token and the user are
removed from `localStorage`, `close()` has been called on the socket in
`this.websocket` (if there is one) and the page is sent to `/login`; every field of
`this`, the cached list and total included, is as it was. -/
theorem logout_removes_session_only (w : World) (i : Nat) (r : Reply)
    (hp : w.pending[i]? = some .logout) :
    ∃ w1 : World, step w (.settle i r) = some w1
      ∧ "token" ∉ w1.storage ∧ "user" ∉ w1.storage
      ∧ w1.sockets = (match w.app.websocket with
          | some sock => updateSocket closing w.sockets sock
          | none => w.sockets)
      ∧ w1.log = w.log ++ (logout_finally w.app).effects
      ∧ w1.location = some "/login"
      ∧ w1.app = w.app
      ∧ w1.app.emails = w.app.emails ∧ w1.app.totalEmails = w.app.totalEmails := by
  obtain ⟨h1, h2, h3, h4⟩ := run_logout_finally { w with pending := w.pending.eraseIdx i }
  refine ⟨_, step_settle_logout w i r hp, ?_, ?_, h4, run_log _ _, h3, h1, ?_, ?_⟩
  · rw [h2]; simp [List.mem_filter]
  · rw [h2]; simp [List.mem_filter]
  · rw [h1]
  · rw [h1]

/-- The amended C23 on the loaded page with the request of `logout` in flight. -/
theorem logout_removes_session_only_witness :
    ∃ w1 : World, step loggingOut (.settle 2 .other) = some w1
      ∧ "token" ∉ w1.storage ∧ "user" ∉ w1.storage
      ∧ w1.app.emails = loggingOut.app.emails :=
  match logout_removes_session_only loggingOut 2 .other (by decide) with
  | ⟨w1, h1, h2, h3, _, _, _, _, h8, _⟩ => ⟨w1, h1, h2, h3, h8⟩

/-! ## An empty folder -/

/-- C24. When the list request is answered with success, an empty list and the total 0,
the cached list becomes empty and the total 0, `renderEmailList` writes the row that
says there is no mail, `renderPagination` empties the pager, and nothing else happens:
no alert, no error. -/
theorem empty_answer_renders_empty_state (dom : Dom) (s : SwiftPostApp)
    (r : HttpResponse EmailsData)
    (hok : r.ok = true)
    (hj : r.json = some { emails := some [], pagination := some { total := some 0 } }) :
    (loadEmails_resume dom s (.resolved r)).app.emails = []
    ∧ (loadEmails_resume dom s (.resolved r)).app.totalEmails = 0
    ∧ (loadEmails_resume dom s (.resolved r)).effects
        = (if dom.emailList then [.setEmailList .emptyState] else [])
          ++ (if dom.pagination then [.setPagination []] else [])
    ∧ (loadEmails_resume dom s (.resolved r)).error = none
    ∧ (renderEmailList dom { s with emails := [] }).effects
        = (if dom.emailList then [.setEmailList .emptyState] else []) := by
  have happ := loadEmails_resume_ok dom s r _ hok hj
  refine ⟨by rw [happ]; rfl, by rw [happ]; rfl, ?_, ?_, ?_⟩
  · simp only [loadEmails_resume, hok, hj, Bool.not_true, Bool.false_eq_true, if_false]
    cases h1 : dom.emailList <;> cases h2 : dom.pagination <;>
      simp [renderEmailList, renderPagination, Outcome.andThen, done, h1, h2, totalOrZero,
        totalPages]
  · simp only [loadEmails_resume, hok, hj, Bool.not_true, Bool.false_eq_true, if_false]
    cases h1 : dom.emailList <;> cases h2 : dom.pagination <;>
      simp [renderEmailList, renderPagination, Outcome.andThen, done, h1, h2, totalOrZero,
        totalPages]
  · cases h1 : dom.emailList <;> simp [renderEmailList, done, h1]

/-- C24 on the loaded page: inbox, page 1, an answer with no email and total 0. -/
theorem empty_answer_renders_empty_state_witness :
    (loadEmails_resume fullDom (construct (some "secret") (some 1))
        (.resolved (okEmails [] 0))).effects
      = [.setEmailList .emptyState, .setPagination []] :=
  (empty_answer_renders_empty_state fullDom (construct (some "secret") (some 1))
    (okEmails [] 0) (by decide) rfl).2.2.1

/-! ## Presence -/

/-- C25. For every presence frame with a payload, whatever its status,
`handleWebSocketMessage` runs `handlePresence`, which only writes the presence
indicator when the element exists: the text and class for online when the status is
`online`, those for offline otherwise. No request is sent and no field of `this`
changes; the same holds when the payload is missing (the read throws and nothing is
written). -/
theorem presence_only_sets_indicator (dom : Dom) (s : SwiftPostApp) (p : Payload)
    (payload : Option Payload) :
    handleWebSocketMessage dom s { type := "presence", payload := payload }
      = handlePresence dom s payload
    ∧ (handlePresence dom s (some p)).effects
        = (if dom.userPresence then
            [.setPresence (if p.status = some "online" then "在线" else "离线")
              (if p.status = some "online" then "badge bg-success" else "badge bg-secondary")]
          else [])
    ∧ (handlePresence dom s (some p)).error = none
    ∧ (handlePresence dom s payload).app = s
    ∧ (handlePresence dom s payload).effects.filterMap Effect.request = [] := by
  refine ⟨by simp [handleWebSocketMessage], ?_, ?_, ?_, ?_⟩
  · cases h1 : dom.userPresence
    · simp [handlePresence, h1, done]
    · by_cases h2 : p.status = some "online"
      · simp only [handlePresence, h1, done, h2, if_true]
        decide
      · simp only [handlePresence, h1, done, h2, if_false, if_true]
        decide
  · cases h1 : dom.userPresence <;> simp [handlePresence, h1, done]
  · cases h1 : dom.userPresence <;> cases payload <;> simp [handlePresence, h1, done, threw]
  · cases h1 : dom.userPresence <;> cases payload <;>
      simp [handlePresence, h1, done, threw, Effect.request]

/-! ## Pagination: the window for any current page -/

theorem pageWindow_full (p tp : Int) (h : 2 ≤ tp) :
    1 ≤ (pageWindow p tp).1 ∧ (pageWindow p tp).2 ≤ tp
    ∧ (pageWindow p tp).2 - (pageWindow p tp).1 + 1 = min 5 tp := by
  simp only [pageWindow]
  have e : (5 : Int) / 2 = 2 := by decide
  rw [e]
  split_ifs <;> omega

theorem pageNumbers_eq_range (p tp : Int) :
    pageNumbers (paginationItems p tp)
      = (List.range ((pageWindow p tp).2 - (pageWindow p tp).1 + 1).toNat).map
          (fun (k : Nat) => (pageWindow p tp).1 + (k : Int)) := by
  rw [pageNumbers_paginationItems]
  simp only [List.bind_eq_flatMap, List.pure_def, List.map_flatMap, List.map_cons, List.map_nil]
  exact (List.map_eq_flatMap _ _).symm

theorem mem_pageNumbers_paginationItems (p tp n : Int)
    (h : n ∈ pageNumbers (paginationItems p tp)) :
    (pageWindow p tp).1 ≤ n ∧ n ≤ (pageWindow p tp).2 := by
  rw [pageNumbers_eq_range, List.mem_map] at h
  obtain ⟨k, hk, rfl⟩ := h
  rw [List.mem_range] at hk
  omega

/-- C27. When there are at least two pages, whatever integer the current page is, the
pager has exactly as many page numbers as the lesser of 5 and the number of pages, and
every one of them is at least 1 and at most the number of pages. -/
theorem page_window_never_shrinks (dom : Dom) (s : SwiftPostApp)
    (hdom : dom.pagination = true) (htp : 2 ≤ totalPages s.totalEmails) :
    ∃ items : List PageItem, (renderPagination dom s).effects = [.setPagination items]
      ∧ ((pageNumbers items).length : Int) = min 5 (totalPages s.totalEmails)
      ∧ (∀ n ∈ pageNumbers items, 1 ≤ n ∧ n ≤ totalPages s.totalEmails)
      ∧ pageNumbers items
          = (List.range (min 5 (totalPages s.totalEmails)).toNat).map
              (fun (k : Nat) =>
                (pageWindow s.currentPage (totalPages s.totalEmails)).1 + (k : Int)) := by
  obtain ⟨h1, h2, h3⟩ := pageWindow_full s.currentPage (totalPages s.totalEmails) htp
  have hn := pageNumbers_eq_range s.currentPage (totalPages s.totalEmails)
  refine ⟨_, renderPagination_several dom s hdom htp, ?_, ?_, ?_⟩
  · rw [hn, List.length_map, List.length_range, h3]
    omega
  · intro n hmem
    have := mem_pageNumbers_paginationItems _ _ n hmem
    omega
  · rw [hn, h3]

/-- C27 with 45 emails (3 pages) and the current page 9: the numbers are 1, 2, 3. -/
theorem page_window_never_shrinks_witness :
    ∃ items : List PageItem,
      (renderPagination fullDom { cachedSeven with totalEmails := 45, currentPage := 9 }).effects
        = [.setPagination items]
      ∧ ((pageNumbers items).length : Int) = min 5 (totalPages 45) :=
  match page_window_never_shrinks fullDom
    { cachedSeven with totalEmails := 45, currentPage := 9 } rfl (by decide) with
  | ⟨items, h1, h2, _⟩ => ⟨items, h1, h2⟩

/-! ## The unread badge -/

/-- C29. The continuation of `loadEmails` never writes the unread badge, and
`handleNewEmail` writes it right after sending the list request, from the cache as it is
before the answer. First run: the page loads (badge 0, hidden) and the list answer
brings two unread emails: the badge still shows 0, hidden. Second run: with those two
cached and the badge never updated, a new-mail frame arrives and its refresh brings
three unread emails: the badge shows 2, the count before the refresh. -/
theorem badge_lags_behind_cache :
    (∀ (dom : Dom) (s : SwiftPostApp) (o : FetchOutcome EmailsData),
      badgeOf (loadEmails_resume dom s o).effects = none)
    ∧ (∃ w : World,
        steps loggedIn
          [.settle 1 (.emails (.resolved
            (okEmails [sampleEmail 1 false, sampleEmail 2 false] 2)))] = some w
        ∧ unreadCount w.app = 2 ∧ badgeOf w.log = some (0, false))
    ∧ (∃ w : World,
        steps loggedIn
          [.settle 1 (.emails (.resolved
            (okEmails [sampleEmail 1 false, sampleEmail 2 false] 2))),
           .wsOpen 0,
           .wsMessage 0 (some { type := "new_email",
                                payload := some { subject := some "Hi", status := none } }),
           .settle 1 (.emails (.resolved
            (okEmails [sampleEmail 3 false, sampleEmail 1 false, sampleEmail 2 false] 3)))]
          = some w
        ∧ unreadCount w.app = 3 ∧ badgeOf w.log = some (2, true)) := by
  refine ⟨?_, ⟨_, rfl, ?_, ?_⟩, ⟨_, rfl, ?_, ?_⟩⟩
  · intro dom s o
    simp only [loadEmails_resume, renderEmailList, renderPagination, Outcome.andThen, done,
      logout, loadEmails_catch]
    repeat' (first | rfl | split)
  all_goals decide

/-! ## Admin console: the status column -/

/-- C30. The last two tests of the render function read `status`, not its parameter
`data`: for every row the output has the read badge exactly when `is_read` and the
starred badge exactly when `is_starred`, and never the deleted badge or the attachment
badge. A deleted email with an attachment gets no badge at all, and a row with all four
flags gets two. -/
theorem status_column_misses_two_badges (window_status : String) (data : RowStatus) :
    AdminPanel.statusRender window_status data
      = (if data.is_read then [StatusBadge.read] else [])
        ++ (if data.is_starred then [StatusBadge.starred] else [])
    ∧ StatusBadge.deleted ∉ AdminPanel.statusRender window_status data
    ∧ StatusBadge.attachment ∉ AdminPanel.statusRender window_status data
    ∧ (AdminPanel.loadEmails_rows [deletedEmail]).map
        (fun row => (row.status, AdminPanel.statusRender "" row.status))
        = [({ is_read := false, is_starred := false, is_deleted := true,
              has_attachment := true }, [])]
    ∧ AdminPanel.statusRender "" allFlags = [StatusBadge.read, StatusBadge.starred] := by
  refine ⟨?_, ?_, ?_, by decide, by decide⟩
  · simp [AdminPanel.statusRender, JsValue.flag]
  · cases h1 : data.is_read <;> cases h2 : data.is_starred <;>
      simp [AdminPanel.statusRender, JsValue.flag, h1, h2]
  · cases h1 : data.is_read <;> cases h2 : data.is_starred <;>
      simp [AdminPanel.statusRender, JsValue.flag, h1, h2]

/-! ## Delete requests come from confirmed deletes only -/

theorem deleteIds_append (l1 l2 : List Effect) :
    deleteIds (l1 ++ l2) = deleteIds l1 ++ deleteIds l2 := by
  simp [deleteIds, List.filterMap_append]

theorem deleteIds_loadEmails_resume (dom : Dom) (s : SwiftPostApp) (o : FetchOutcome EmailsData) :
    deleteIds (loadEmails_resume dom s o).effects = [] := by
  simp only [loadEmails_resume, renderEmailList, renderPagination, Outcome.andThen, done,
    logout, loadEmails_catch]
  repeat' (first | rfl | split)

theorem deleteIds_toggleStar_resume (s : SwiftPostApp) (o : FetchOutcome Ack) :
    deleteIds (toggleStar_resume s o).effects = [] := by
  simp only [toggleStar_resume, loadEmails, done]
  repeat' (first | rfl | split)

theorem deleteIds_deleteEmail_resume (s : SwiftPostApp) (o : FetchOutcome Ack) :
    deleteIds (deleteEmail_resume s o).effects = [] := by
  simp only [deleteEmail_resume, loadEmails, Outcome.andThen, done]
  repeat' (first | rfl | split)

theorem deleteIds_logout_finally (s : SwiftPostApp) :
    deleteIds (logout_finally s).effects = [] := by
  unfold logout_finally
  cases s.websocket <;> rfl

theorem deleteIds_resume (w : World) (p : Pending) (r : Reply) (o : Outcome)
    (h : resume w p r = some o) : deleteIds o.effects = [] := by
  cases p <;> cases r <;> simp [resume] at h <;> subst h <;>
    first
      | exact deleteIds_loadEmails_resume _ _ _
      | exact deleteIds_toggleStar_resume _ _
      | exact deleteIds_deleteEmail_resume _ _
      | exact deleteIds_logout_finally _
      | rfl

theorem deleteIds_switchFolder (dom : Dom) (s : SwiftPostApp) (folder : String) :
    deleteIds (switchFolder dom s folder).effects = [] := by
  simp only [switchFolder, loadEmails, Outcome.andThen, done, threw]
  repeat' (first | rfl | split)

theorem deleteIds_deleteEmail (s : SwiftPostApp) (emailId : Nat) (confirmed : Bool) :
    deleteIds (deleteEmail s emailId confirmed).effects
      = (Event.deleteEmail emailId confirmed).confirmedDelete.toList := by
  cases confirmed <;> rfl

theorem deleteIds_connectWebSocket (s : SwiftPostApp) (n : Nat) :
    deleteIds (connectWebSocket s n).effects = [] := by
  simp only [connectWebSocket, done]
  split_ifs <;> rfl

theorem deleteIds_onmessage (dom : Dom) (s : SwiftPostApp) (m : Option Message) :
    deleteIds (onmessage dom s m).effects = [] := by
  cases m with
  | none => rfl
  | some msg =>
    have h : deleteIds (handleWebSocketMessage dom s msg).effects = [] := by
      simp only [handleWebSocketMessage, handleNewEmail, handlePresence, updateUnreadCount,
        loadEmails, Outcome.andThen, done, threw]
      repeat' (first | rfl | split)
    simp only [onmessage]
    split
    · exact h
    · simp only [done, deleteIds_append, h]
      rfl

theorem deleteIds_init (dom : Dom) (s : SwiftPostApp) (n : Nat) :
    deleteIds (init dom true s n).effects = [] := by
  cases h1 : truthyToken s.token <;> cases h2 : truthyId s.user_id <;>
    cases h3 : dom.unreadBadge <;>
    simp [init, updateUI, updateUnreadCount, loadEmails, connectWebSocket, Outcome.andThen,
      done, h1, h2, h3, deleteIds]

/-- One event adds a DELETE request exactly when it is a `deleteEmail` whose confirmation
was accepted. -/
theorem step_deleteIds (w w1 : World) (e : Event) (h : step w e = some w1) :
    deleteIds w1.log = deleteIds w.log ++ e.confirmedDelete.toList := by
  cases e with
  | switchFolder folder =>
    simp only [step, Option.some.injEq] at h; subst h
    rw [run_log, deleteIds_append, deleteIds_switchFolder]; rfl
  | goToPage page =>
    simp only [step, Option.some.injEq] at h; subst h
    rw [run_log, deleteIds_append]; rfl
  | refresh =>
    simp only [step, Option.some.injEq] at h; subst h
    rw [run_log, deleteIds_append]; rfl
  | toggleStar emailId =>
    simp only [step, Option.some.injEq] at h; subst h
    rw [run_log, deleteIds_append]; rfl
  | deleteEmail emailId confirmed =>
    simp only [step, Option.some.injEq] at h; subst h
    rw [run_log, deleteIds_append, deleteIds_deleteEmail]
  | logout =>
    simp only [step, Option.some.injEq] at h; subst h
    rw [run_log, deleteIds_append]; rfl
  | connect =>
    simp only [step, Option.some.injEq] at h; subst h
    rw [run_log, deleteIds_append, deleteIds_connectWebSocket]; rfl
  | settle i r =>
    simp only [step] at h
    cases hp : w.pending[i]? with
    | none => simp [hp] at h
    | some p =>
      cases ho : resume w p r with
      | none => simp [hp, ho] at h
      | some o =>
        simp only [hp, ho, Option.some.injEq] at h; subst h
        rw [run_log, deleteIds_append, deleteIds_resume w p r o ho]; rfl
  | wsOpen sock =>
    simp only [step] at h
    cases hk : w.sockets[sock]? with
    | none => simp [hk] at h
    | some k =>
      simp only [hk] at h
      split_ifs at h
      simp only [Option.some.injEq] at h; subst h
      rw [run_log, deleteIds_append]; rfl
  | wsMessage sock message =>
    simp only [step] at h
    cases hk : w.sockets[sock]? with
    | none => simp [hk] at h
    | some k =>
      simp only [hk] at h
      split_ifs at h
      simp only [Option.some.injEq] at h; subst h
      rw [run_log, deleteIds_append, deleteIds_onmessage]; rfl
  | wsError sock =>
    simp only [step] at h
    cases hk : w.sockets[sock]? with
    | none => simp [hk] at h
    | some k =>
      simp only [hk] at h
      split_ifs at h
      simp only [Option.some.injEq] at h; subst h
      rw [run_log, deleteIds_append]; rfl
  | wsClose sock =>
    simp only [step] at h
    cases hk : w.sockets[sock]? with
    | none => simp [hk] at h
    | some k =>
      simp only [hk] at h
      split_ifs at h
      simp only [Option.some.injEq] at h; subst h
      rw [run_log, deleteIds_append]; rfl
  | advance ms =>
    simp only [step, Option.some.injEq] at h; subst h
    simp [Event.confirmedDelete]
  | timerFires j =>
    simp only [step] at h
    cases hk : w.timers[j]? with
    | none => simp [hk] at h
    | some due =>
      simp only [hk] at h
      split_ifs at h
      simp only [Option.some.injEq] at h; subst h
      rw [run_log, deleteIds_append, deleteIds_connectWebSocket]; rfl

theorem steps_deleteIds (es : List Event) : ∀ w w1 : World, steps w es = some w1 →
    deleteIds w1.log = deleteIds w.log ++ es.filterMap Event.confirmedDelete := by
  induction es with
  | nil => intro w w1 h; simp [steps] at h; subst h; simp
  | cons e rest ih =>
    intro w w1 h
    simp only [steps] at h
    cases hs : step w e with
    | none => simp [hs] at h
    | some w2 =>
      simp only [hs] at h
      rw [ih w2 w1 h, step_deleteIds w w2 e hs, List.filterMap_cons]
      cases e.confirmedDelete <;> simp

theorem deleteIds_boot (dom : Dom) (token : Option String) (user_id : Option Nat) :
    deleteIds (boot dom token user_id).log = [] := by
  unfold boot
  rw [run_log, deleteIds_append, deleteIds_init]
  rfl

/-- C26. In every run from the loaded page, the DELETE requests sent are exactly the
calls of `deleteEmail` whose confirmation was accepted, in order. When the confirmation
is declined `deleteEmail` only shows the dialog: no request, no alert, every field of
`this` unchanged; when it is accepted the request for that id follows the dialog. The
delete button of the email dialog asks first and then calls `deleteEmail`, so it sends
the request only when both dialogs are accepted. -/
theorem delete_needs_confirmation (dom : Dom) (token : Option String)
    (user_id : Option Nat) (es : List Event) (w : World) (s : SwiftPostApp) (emailId : Nat)
    (h : steps (boot dom token user_id) es = some w) :
    deleteIds w.log = es.filterMap Event.confirmedDelete
    ∧ deleteEmail s emailId false = done s [.confirm "确定要删除这封邮件吗？"]
    ∧ (deleteEmail s emailId false).effects.filterMap Effect.request = []
    ∧ deleteEmail s emailId true
        = done s [.confirm "确定要删除这封邮件吗？", .fetchDelete emailId]
    ∧ (∀ first second : Bool,
        deleteIds (deleteEmailBtn_onclick s emailId first second).effects
          = (if first && second then [emailId] else [])
        ∧ (deleteEmailBtn_onclick s emailId first second).app = s) := by
  refine ⟨?_, rfl, rfl, rfl, ?_⟩
  · rw [steps_deleteIds es _ w h, deleteIds_boot]
    rfl
  · intro first second
    cases first <;> cases second <;> exact ⟨rfl, rfl⟩

/-- C26 on a run with one declined and one accepted delete: one DELETE request. -/
theorem delete_needs_confirmation_witness :
    ∃ w : World,
      steps loggedIn [.deleteEmail 7 false, .refresh, .deleteEmail 8 true] = some w
      ∧ deleteIds w.log = [8] :=
  ⟨_, rfl, (delete_needs_confirmation fullDom (some "secret") (some 1)
    [.deleteEmail 7 false, .refresh, .deleteEmail 8 true] _ cachedSeven 7 rfl).1⟩

/-! ## Following the links of the pager -/

/-- The pager on display after more effects, starting from the pager `shown`. -/
theorem pagerOf_append (l1 l2 : List Effect) :
    pagerOf (l1 ++ l2)
      = l2.foldl (fun shown e =>
          match e with
          | .setPagination html => html
          | _ => shown) (pagerOf l1) := by
  simp [pagerOf, List.foldl_append]

theorem target_in_range (p tp : Int) (h1 : 1 ≤ p) (h2 : p ≤ tp) :
    ∀ item ∈ paginationItems p tp, 1 ≤ item.target ∧ item.target ≤ tp := by
  intro item hmem
  have hb := pageWindow_bounds p tp h1 h2
  cases item with
  | previous t =>
    obtain ⟨hp, rfl⟩ := (previous_mem_paginationItems p tp t).mp hmem
    simp only [PageItem.target]; omega
  | next t =>
    obtain ⟨hp, rfl⟩ := (next_mem_paginationItems p tp t).mp hmem
    simp only [PageItem.target]; omega
  | number t active =>
    have hn : t ∈ pageNumbers (paginationItems p tp) := by
      simp only [pageNumbers, List.mem_filterMap]
      exact ⟨_, hmem, rfl⟩
    have := mem_pageNumbers_paginationItems p tp t hn
    simp only [PageItem.target]; omega

theorem pageWindow_start_pos (p tp : Int) : 1 ≤ (pageWindow p tp).1 := by
  simp only [pageWindow]
  have e : (5 : Int) / 2 = 2 := by decide
  rw [e]
  split_ifs <;> omega

theorem target_pos (p tp : Int) (h1 : 1 ≤ p) :
    ∀ item ∈ paginationItems p tp, 1 ≤ item.target := by
  intro item hmem
  have hs := pageWindow_start_pos p tp
  cases item with
  | previous t =>
    obtain ⟨hp, rfl⟩ := (previous_mem_paginationItems p tp t).mp hmem
    simp only [PageItem.target]; omega
  | next t =>
    obtain ⟨hp, rfl⟩ := (next_mem_paginationItems p tp t).mp hmem
    simp only [PageItem.target]; omega
  | number t active =>
    have hn : t ∈ pageNumbers (paginationItems p tp) := by
      simp only [pageNumbers, List.mem_filterMap]
      exact ⟨_, hmem, rfl⟩
    have := mem_pageNumbers_paginationItems p tp t hn
    simp only [PageItem.target]; omega

/-- What the continuation of `loadEmails` does to the page and the pager: the page is
as before, and the pager is as before, empty, or the one for the page. -/
theorem pager_loadEmails_resume (dom : Dom) (s : SwiftPostApp) (o : FetchOutcome EmailsData)
    (shown : List PageItem) :
    (loadEmails_resume dom s o).app.currentPage = s.currentPage
    ∧ ((loadEmails_resume dom s o).effects.foldl (fun shown e =>
          match e with
          | .setPagination html => html
          | _ => shown) shown = shown
      ∨ (loadEmails_resume dom s o).effects.foldl (fun shown e =>
          match e with
          | .setPagination html => html
          | _ => shown) shown = []
      ∨ ∃ tp, (loadEmails_resume dom s o).effects.foldl (fun shown e =>
          match e with
          | .setPagination html => html
          | _ => shown) shown = paginationItems s.currentPage tp) := by
  constructor
  · simp only [loadEmails_resume, renderEmailList, renderPagination, Outcome.andThen, done,
      logout, loadEmails_catch]
    repeat' (first | rfl | split)
  · cases o with
    | rejected => exact Or.inl rfl
    | resolved r =>
      cases hok : r.ok with
      | false =>
        simp only [loadEmails_resume, hok, Bool.not_false, if_true, logout, loadEmails_catch,
          done]
        split_ifs <;> exact Or.inl rfl
      | true =>
        cases hj : r.json with
        | none =>
          simp only [loadEmails_resume, hok, hj, Bool.not_true, Bool.false_eq_true, if_false,
            loadEmails_catch, done]
          exact Or.inl rfl
        | some data =>
          simp only [loadEmails_resume, hok, hj, Bool.not_true, Bool.false_eq_true, if_false]
          cases h1 : dom.emailList <;> cases h2 : dom.pagination <;>
            simp only [renderEmailList, renderPagination, Outcome.andThen, done, h1, h2,
              Bool.not_true, Bool.not_false, Bool.false_eq_true, if_false, if_true] <;>
            (try split_ifs) <;>
            first
              | exact Or.inl rfl
              | exact Or.inr (Or.inl rfl)
              | exact Or.inr (Or.inr ⟨_, rfl⟩)

theorem linksFromOne_answer (w w1 : World) (i : Nat) (o : FetchOutcome EmailsData)
    (hinv : LinksFromOne w) (h : step w (.settle i (.emails o)) = some w1) :
    LinksFromOne w1 := by
  simp only [step] at h
  cases hp : w.pending[i]? with
  | none => simp [hp] at h
  | some p =>
    simp only [hp] at h
    cases p with
    | emails folder page =>
      simp only [resume, Option.some.injEq] at h; subst h
      obtain ⟨hc, hs⟩ := pager_loadEmails_resume w.dom w.app o (pagerOf w.log)
      refine ⟨by rw [run_app, hc]; exact hinv.1, ?_⟩
      rw [run_log]
      show ∀ item ∈ pagerOf (w.log ++ _), _
      rw [pagerOf_append]
      rcases hs with hs | hs | ⟨tp, hs⟩
      · rw [hs]; exact hinv.2
      · rw [hs]; intro item hmem; cases hmem
      · rw [hs]; exact target_pos _ _ hinv.1
    | star id => simp [resume] at h
    | delete id => simp [resume] at h
    | logout =>
      simp only [resume, Option.some.injEq] at h; subst h
      refine ⟨by rw [run_app]; exact hinv.1, ?_⟩
      rw [run_log]
      show ∀ item ∈ pagerOf (w.log ++ _), _
      rw [pagerOf_append]
      have : (logout_finally w.app).effects.foldl (fun shown e =>
          match e with
          | .setPagination html => html
          | _ => shown) (pagerOf w.log) = pagerOf w.log := by
        unfold logout_finally
        cases w.app.websocket <;> rfl
      rw [this]; exact hinv.2
    | stats =>
      simp only [resume, Option.some.injEq] at h; subst h
      exact ⟨by rw [run_app]; exact hinv.1, by rw [run_log]; simpa [done] using hinv.2⟩

theorem linksFromOne_followStep (w w1 : World) (n : Nav) (hinv : LinksFromOne w)
    (h : followStep w n = some w1) : LinksFromOne w1 := by
  cases n with
  | answer i o => exact linksFromOne_answer w w1 i o hinv h
  | click page =>
    simp only [followStep] at h
    split_ifs at h with hmem
    simp only [Option.some.injEq] at h; subst h
    obtain ⟨item, hitem, rfl⟩ := List.mem_map.mp hmem
    have hpos := hinv.2 item hitem
    have hne : item.target ≠ 0 := by omega
    have hgo : pageLink_onclick w.app (some item.target) = goToPage w.app item.target := by
      simp [pageLink_onclick, hne]
    rw [hgo]
    refine ⟨by rw [run_app]; exact hpos, ?_⟩
    rw [run_log]
    show ∀ item ∈ pagerOf (w.log ++ _), _
    rw [pagerOf_append]
    exact hinv.2

theorem linksFromOne_follow (ns : List Nav) : ∀ w w1 : World, LinksFromOne w →
    follow w ns = some w1 → LinksFromOne w1 := by
  induction ns with
  | nil => intro w w1 hinv h; simp [follow] at h; subst h; exact hinv
  | cons n rest ih =>
    intro w w1 hinv h
    simp only [follow] at h
    cases hs : followStep w n with
    | none => simp [hs] at h
    | some w2 =>
      simp only [hs] at h
      exact ih w2 w1 (linksFromOne_followStep w w2 n hinv hs) h

theorem linksFromOne_boot (dom : Dom) (token : Option String) (user_id : Option Nat) :
    LinksFromOne (boot dom token user_id) := by
  have hlog : pagerOf (boot dom token user_id).log = [] := by
    unfold boot
    rw [run_log]
    cases h1 : truthyToken token <;> cases h2 : truthyId user_id <;>
      cases h3 : dom.unreadBadge <;>
      simp [init, construct, updateUI, updateUnreadCount, loadEmails, connectWebSocket,
        Outcome.andThen, done, h1, h2, h3, pagerOf]
  have hpage : (boot dom token user_id).app.currentPage = 1 := by
    unfold boot
    rw [run_app]
    cases h1 : truthyToken token <;> cases h2 : truthyId user_id <;>
      cases h3 : dom.unreadBadge <;>
      simp [init, construct, updateUI, updateUnreadCount, loadEmails, connectWebSocket,
        Outcome.andThen, done, h1, h2, h3]
  refine ⟨by rw [hpage], ?_⟩
  rw [hlog]
  intro item hmem
  cases hmem

/-- C28, as stated, fails. From page 1 of 100 emails the user follows the link to page
5; the answer for page 5 says that 45 emails are left, so the pager is drawn for page 5
of 3 and links the previous page, 4; following that link makes 4 the current page,
above the 3 pages of the pager that was clicked. -/
theorem previous_link_beyond_last_page :
    ∃ w w1 : World,
      follow loggedIn
        [.answer 1 (.resolved (okEmails [sampleEmail 1 false] 100)), .click 5,
         .answer 1 (.resolved (okEmails [sampleEmail 90 false] 45))] = some w
      ∧ totalPages w.app.totalEmails = 3
      ∧ pagerOf w.log
          = [.previous 4, .number 1 false, .number 2 false, .number 3 false]
      ∧ followStep w (.click 4) = some w1
      ∧ w1.app.currentPage = 4 := by
  refine ⟨_, _, rfl, ?_, ?_, rfl, ?_⟩ <;> decide

/-- C28, amended. When the current page is between 1 and the number of pages, every
link that `renderPagination` writes (previous, numbered, next) has a target between 1
and the number of pages, and a click on it makes that target the current page. Hence in
every run from the loaded page in which the user only follows links of the pager on
display, the current page is at least 1 and so is every target on display; it is at
most the number of pages of the pager clicked whenever that pager was drawn for a
current page within its number of pages. -/
theorem links_keep_page_positive (dom : Dom) (token : Option String)
    (user_id : Option Nat) (ns : List Nav) (w : World)
    (h : follow (boot dom token user_id) ns = some w) :
    1 ≤ w.app.currentPage
    ∧ (∀ item ∈ pagerOf w.log, 1 ≤ item.target)
    ∧ (∀ (d : Dom) (s : SwiftPostApp) (items : List PageItem),
        Effect.setPagination items ∈ (renderPagination d s).effects →
        1 ≤ s.currentPage → s.currentPage ≤ totalPages s.totalEmails →
        ∀ item ∈ items, 1 ≤ item.target ∧ item.target ≤ totalPages s.totalEmails
          ∧ (pageLink_onclick s (some item.target)).app.currentPage = item.target) := by
  have hinv := linksFromOne_follow ns _ w (linksFromOne_boot dom token user_id) h
  refine ⟨hinv.1, hinv.2, ?_⟩
  intro d s items hmem h1 h2 item hitem
  have hitems : items = [] ∨ items = paginationItems s.currentPage (totalPages s.totalEmails) := by
    simp only [renderPagination, done] at hmem
    split_ifs at hmem <;> simp at hmem
    · exact Or.inl hmem
    · exact Or.inr hmem
  rcases hitems with rfl | rfl
  · cases hitem
  · obtain ⟨ha, hb⟩ := target_in_range _ _ h1 h2 item hitem
    refine ⟨ha, hb, ?_⟩
    have hne : item.target ≠ 0 := by omega
    simp [pageLink_onclick, hne, goToPage, loadEmails, done]

/-- The amended C28 on a run that follows the link to page 2 of 3. -/
theorem links_keep_page_positive_witness :
    ∃ w : World,
      follow loggedIn
        [.answer 1 (.resolved (okEmails [sampleEmail 1 false] 45)), .click 2] = some w
      ∧ 1 ≤ w.app.currentPage :=
  ⟨_, rfl, (links_keep_page_positive fullDom (some "secret") (some 1)
    [.answer 1 (.resolved (okEmails [sampleEmail 1 false] 45)), .click 2] _ rfl).1⟩

end SwiftPost
